import Mathlib

/-!
# Web terminal bridge (`api/terminal.go`)

A shallow embedding of the `WebTerminal` type of package `api`: the adapter that
presents a websocket connection as the stdin / stdout / stderr / resize streams of a
remote shell, together with its idle watchdog goroutine.

* Go channels are modelled by `Chan` (buffer, capacity, closed flag) with the blocking
  and panicking behaviour of send, receive and close made explicit.
* The websocket connection is modelled by `Conn`: a script of the results the peer will
  make `ReadMessage` / `WriteMessage` return, and a log of the calls made so far.
* Methods are functions from the receiver state to an outcome that carries the new
  state; goroutine interleavings are modelled by the step function `System.step`.
* `Conn` replays any script of results. What the library can in fact deliver is the
  predicate `Conn.Conforms`; theorems about what a session does on a real connection take
  it as a hypothesis, and every refuting trace is on a conforming connection or is
  repeated on one.
* `PodTTY` (`api/clientset.go`), which creates the bridge and hands it to the remote
  command stream, is modelled with the executor of `k8s.io/client-go` as a parameter.
-/

namespace Api

/-! ## Basic data -/

/-- A Go byte slice / the bytes of a Go string. -/
abbrev Bytes := List UInt8

/-- The bytes of a Go string constant (Go source text is UTF-8). -/
def stringBytes (s : String) : Bytes := s.toUTF8.data.toList

/-- A Go `error` value, identified by its text. -/
structure GoError where
  text : String
deriving DecidableEq, Repr

/-- Go `errors.New`. -/
def errorsNew (text : String) : GoError := ⟨text⟩

/-- Go builtin `copy(dst, src)`: copies `min(len(dst), len(src))` elements to the front
of `dst`; returns that count and the new contents of `dst`. -/
def copy (dst src : Bytes) : Nat × Bytes :=
  let n := min dst.length src.length
  (n, src.take n ++ dst.drop n)

/-- Go `remotecommand.TerminalSize`. -/
structure TerminalSize where
  Width : UInt16
  Height : UInt16
deriving DecidableEq, Repr

/-! ## Channels -/

/-- A Go channel: buffered elements (oldest first), capacity, closed flag. -/
structure Chan (α : Type) where
  buf : List α
  cap : Nat
  closed : Bool
deriving DecidableEq, Repr

/-- What a channel operation does: completes, blocks the goroutine, or panics. -/
inductive ChanResult (β : Type) where
  | done (b : β)
  | blocked
  | panicked
deriving DecidableEq, Repr

/-- Go `make(chan T, cap)`. -/
def Chan.make {α : Type} (cap : Nat) : Chan α := ⟨[], cap, false⟩

/-- Go `c <- v` with no receiver waiting: panics on a closed channel, blocks while the
buffer is full, otherwise appends. -/
def Chan.send {α : Type} (c : Chan α) (v : α) : ChanResult (Chan α) :=
  if c.closed then .panicked
  else if c.buf.length < c.cap then .done { c with buf := c.buf ++ [v] }
  else .blocked

/-- Go `v, ok := <-c` with no sender waiting: yields the oldest buffered element with
`ok = true`; on an empty closed channel yields `ok = false` (here `none`); on an empty
open channel blocks. -/
def Chan.recv {α : Type} (c : Chan α) : ChanResult (Option α × Chan α) :=
  match c.buf with
  | v :: rest => .done (some v, { c with buf := rest })
  | [] => if c.closed then .done (none, c) else .blocked

/-- Go `close(c)`: panics when the channel is already closed. -/
def Chan.close {α : Type} (c : Chan α) : ChanResult (Chan α) :=
  if c.closed then .panicked else .done { c with closed := true }

/-! ## The websocket connection -/

/-- Constant `websocket.CloseMessage`. -/
def CloseMessage : Int := 8

/-- One result of `conn.ReadMessage()`: `(messageType, p, err)`. -/
structure Inbound where
  messageType : Int
  data : Bytes
  err : Option GoError
deriving DecidableEq, Repr

/-- One recorded call `conn.WriteMessage(messageType, data)`. -/
structure Outbound where
  messageType : Int
  data : Bytes
deriving DecidableEq, Repr

/-- The connection as the bridge sees it.
* `inbound`: the results the following `ReadMessage` calls will return, in order;
  when it is empty `ReadMessage` blocks.
* `writeErrs`: the results the following `WriteMessage` calls will return, in order;
  when it is empty the write succeeds.
* `sent`: every `WriteMessage` call made so far, oldest first.
* `reads`: the number of `ReadMessage` calls that have returned. -/
structure Conn where
  inbound : List Inbound
  writeErrs : List (Option GoError)
  sent : List Outbound
  reads : Nat
deriving DecidableEq, Repr

/-- The call `conn.WriteMessage(messageType, data)`: the new connection and the error. -/
def Conn.WriteMessage (c : Conn) (messageType : Int) (data : Bytes) :
    Conn × Option GoError :=
  ({ c with writeErrs := c.writeErrs.tail, sent := c.sent ++ [⟨messageType, data⟩] },
   c.writeErrs.head?.join)

/-- The call `conn.ReadMessage()`: `none` while no message is available. -/
def Conn.ReadMessage (c : Conn) : Option (Inbound × Conn) :=
  match c.inbound with
  | [] => none
  | m :: rest => some (m, { c with inbound := rest, reads := c.reads + 1 })

/-! ## Constants of `terminal.go` -/

def END_OF_TRANSMISSION : String := "\x04"

def healthCheck : String := "[%heart_check%]"

def errorTimeOut : String := "\x1b[31m20 min 无输入 close\x1b[0m"

/-- Go `time.Minute`, in nanoseconds. -/
def Minute : Nat := 60 * 1000000000

/-! ## `WebTerminal` -/

structure WebTerminal where
  conn : Conn
  size : Chan TerminalSize
  timeout : Nat
  readNum : Chan Nat
  canClose : Bool
  err : Option GoError
deriving DecidableEq, Repr

/-- The struct literal of `NewWebTerminal` followed by `term.size <- &TerminalSize{w, h}`.
The send is on a fresh channel of capacity 1, so it completes; the other two
`ChanResult` cases are kept so that the definition follows `Chan.send`. -/
def NewWebTerminal (conn : Conn) (w h : UInt16) : ChanResult WebTerminal :=
  let term : WebTerminal :=
    { conn := conn
      size := Chan.make 1
      timeout := Minute * 20
      readNum := Chan.make 1
      canClose := false
      err := none }
  match term.size.send ⟨w, h⟩ with
  | .done size1 => .done { term with size := size1 }
  | .blocked => .blocked
  | .panicked => .panicked

/-- Result of `WebTerminal.Write`. -/
structure WriteResult where
  n : Nat
  err : Option GoError
  term : WebTerminal
deriving DecidableEq, Repr

/-- `func (a *WebTerminal) Write(p []byte) (n int, err error)`. -/
def WebTerminal.Write (a : WebTerminal) (p : Bytes) : WriteResult :=
  let r := a.conn.WriteMessage 1 p
  { n := p.length, err := r.2, term := { a with conn := r.1 } }

/-- The values a `Read` call has assigned to its results `(n, err)`, the contents of the
caller's buffer `p`, and the receiver state. -/
structure ReadValues where
  n : Nat
  err : Option GoError
  p : Bytes
  term : WebTerminal
deriving DecidableEq, Repr

/-- How a `Read` call ends.
* `returned`: the call returned.
* `awaitingMessage`: the call is blocked in `conn.ReadMessage()`.
* `awaitingSlot`: the return statement has run and the deferred function has stored
  `a.err`, and the call is blocked in the deferred `a.readNum <- n`.
* `panicked`: the deferred send found `readNum` closed. -/
inductive ReadOutcome where
  | returned (v : ReadValues)
  | awaitingMessage
  | awaitingSlot (v : ReadValues)
  | panicked
deriving DecidableEq, Repr

/-- The deferred `a.readNum <- n` of `Read`, once `a.err = err` has been stored. -/
def WebTerminal.postReadNum (v : ReadValues) : ReadOutcome :=
  match v.term.readNum.send v.n with
  | .done ch => .returned { v with term := { v.term with readNum := ch } }
  | .blocked => .awaitingSlot v
  | .panicked => .panicked

/-- The deferred function of `Read`: `a.err = err; a.readNum <- n`. -/
def WebTerminal.readDeferred (a : WebTerminal) (n : Nat) (err : Option GoError)
    (p : Bytes) : ReadOutcome :=
  WebTerminal.postReadNum { n := n, err := err, p := p, term := { a with err := err } }

/-- `func (a *WebTerminal) Read(p []byte) (n int, err error)`. -/
def WebTerminal.Read (a : WebTerminal) (p : Bytes) : ReadOutcome :=
  if a.canClose then
    let r := a.conn.WriteMessage 1 (stringBytes errorTimeOut)
    .returned { n := 0, err := some (errorsNew errorTimeOut), p := p,
                term := { a with conn := r.1 } }
  else
    match a.conn.ReadMessage with
    | none => .awaitingMessage
    | some (m, conn1) =>
      let a1 := { a with conn := conn1 }
      if m.messageType = CloseMessage then
        a1.readDeferred 0 (some (errorsNew "websocket CloseMessage 8")) p
      else if m.data = stringBytes healthCheck then
        a1.readDeferred 0 none p
      else if m.err ≠ none then
        let c := copy p (stringBytes END_OF_TRANSMISSION)
        a1.readDeferred c.1 m.err c.2
      else
        let c := copy p m.data
        a1.readDeferred c.1 m.err c.2

/-- How a `Next` call ends. -/
abbrev NextOutcome := ChanResult (Option TerminalSize × WebTerminal)

/-- `func (a *WebTerminal) Next() *remotecommand.TerminalSize`. -/
def WebTerminal.Next (a : WebTerminal) : NextOutcome :=
  match a.size.recv with
  | .blocked => .blocked
  | .panicked => .panicked
  | .done (some v, size1) =>
    match size1.close with
    | .done size2 => .done (some v, { a with size := size2 })
    | .blocked => .blocked
    | .panicked => .panicked
  | .done (none, _) => .done (none, a)

/-- The calls `a.Next()` made `k` times in a row: the values returned, in order; `none`
when one of the calls blocks or panics. -/
def WebTerminal.NextTimes (a : WebTerminal) : Nat → Option (List (Option TerminalSize) × WebTerminal)
  | 0 => some ([], a)
  | k + 1 =>
    match a.Next with
    | .done (v, a1) => (a1.NextTimes k).map fun r => (v :: r.1, r.2)
    | .blocked => none
    | .panicked => none

/-- Which case of the `select` in `watchRead` is taken. -/
inductive SelectCase where
  | tf
  | readNum
deriving DecidableEq, Repr

/-- The `select` of `func (a *WebTerminal) watchRead()`, for the case that is taken:
`case <-tf: a.canClose = true` or `case <-a.readNum: return`. The second case can be
taken only when a receive from `readNum` can proceed; the first only once `tf` has
fired, which `System.step` decides from the clock. -/
def WebTerminal.watchRead (a : WebTerminal) : SelectCase → Option WebTerminal
  | .tf => some { a with canClose := true }
  | .readNum =>
    match a.readNum.recv with
    | .done (_, ch) => some { a with readNum := ch }
    | .blocked => none
    | .panicked => none

/-! ## The session as a concurrent system

`NewWebTerminal` starts one goroutine, `for { term.watchRead(); if term.err != nil { break } }`,
which runs beside the caller's `Read` / `Write` / `Next` calls. -/

/-- Program point of the watchdog goroutine. -/
inductive Watchdog where
  /-- At the head of the `for` loop, about to call `term.watchRead()`. -/
  | loopTop
  /-- Inside the `select` of `watchRead`; `tf` fires once the clock reaches `deadline`. -/
  | selecting (deadline : Nat)
  /-- Returned from `watchRead`, about to test `term.err != nil`. -/
  | check
  /-- Left the loop through `break`; the goroutine has ended. -/
  | stopped
deriving DecidableEq, Repr

/-- The results of a completed `Read` call. -/
structure ReadReturn where
  n : Nat
  err : Option GoError
  p : Bytes
deriving DecidableEq, Repr

/-- State of a session: the `WebTerminal` struct, the clock (nanoseconds), the watchdog
goroutine, the `Read` call (if any) that is blocked in its deferred send, and the
results of the `Read` calls that have returned so far, oldest first. -/
structure System where
  term : WebTerminal
  now : Nat
  watchdog : Watchdog
  parked : Option ReadReturn
  returns : List ReadReturn
deriving DecidableEq, Repr

/-- The atomic steps of a session. -/
inductive Event where
  /-- Time advances by `d` nanoseconds. -/
  | tick (d : Nat)
  /-- Watchdog: enters `watchRead`, `tf := time.After(a.timeout)`, reaches the `select`. -/
  | wdArm
  /-- Watchdog: `case <-tf`. -/
  | wdTimeout
  /-- Watchdog: `case <-a.readNum`. -/
  | wdSignal
  /-- Watchdog: `if term.err != nil { break }`. -/
  | wdCheck
  /-- The caller invokes `Read(p)`. -/
  | read (p : Bytes)
  /-- The `Read` call blocked in its deferred send completes the send and returns. -/
  | readResume
  /-- The caller invokes `Write(p)`. -/
  | write (p : Bytes)
  /-- The caller invokes `Next()`. -/
  | next
deriving DecidableEq, Repr

/-- The session just after `NewWebTerminal(conn, w, h)` has returned, at clock `now`. -/
def System.start (conn : Conn) (w h : UInt16) (now : Nat) : Option System :=
  match NewWebTerminal conn w h with
  | .done term => some { term := term, now := now, watchdog := .loopTop, parked := none, returns := [] }
  | .blocked => none
  | .panicked => none

/-- One step of the session; `none` when the step cannot be taken in this state (the
goroutine concerned is blocked, has ended, or is at another program point) or panics. -/
def System.step (s : System) : Event → Option System
  | .tick d => some { s with now := s.now + d }
  | .wdArm =>
    match s.watchdog with
    | .loopTop => some { s with watchdog := .selecting (s.now + s.term.timeout) }
    | _ => none
  | .wdTimeout =>
    match s.watchdog with
    | .selecting deadline =>
      if deadline ≤ s.now then
        (s.term.watchRead .tf).map fun t => { s with term := t, watchdog := .check }
      else none
    | _ => none
  | .wdSignal =>
    match s.watchdog with
    | .selecting _ =>
      (s.term.watchRead .readNum).map fun t => { s with term := t, watchdog := .check }
    | _ => none
  | .wdCheck =>
    match s.watchdog with
    | .check =>
      if s.term.err ≠ none then some { s with watchdog := .stopped }
      else some { s with watchdog := .loopTop }
    | _ => none
  | .read p =>
    match s.parked with
    | some _ => none
    | none =>
      match s.term.Read p with
      | .returned v => some { s with term := v.term, returns := s.returns ++ [⟨v.n, v.err, v.p⟩] }
      | .awaitingSlot v => some { s with term := v.term, parked := some ⟨v.n, v.err, v.p⟩ }
      | .awaitingMessage => none
      | .panicked => none
  | .readResume =>
    match s.parked with
    | none => none
    | some r =>
      match WebTerminal.postReadNum { n := r.n, err := r.err, p := r.p, term := s.term } with
      | .returned v => some { s with term := v.term, parked := none, returns := s.returns ++ [r] }
      | _ => none
  | .write p => some { s with term := (s.term.Write p).term }
  | .next =>
    match s.term.Next with
    | .done (_, t) => some { s with term := t }
    | .blocked => none
    | .panicked => none

/-- A sequence of steps, taken in order; `none` as soon as one cannot be taken. -/
def System.run (s : System) : List Event → Option System
  | [] => some s
  | e :: es => (s.step e).bind fun s1 => s1.run es

/-- What holds of the activity channel of every session: `readNum` is the channel made by
`make(chan int, 1)` and nothing in the package closes it (see `System.run_valid`). -/
def WebTerminal.Valid (a : WebTerminal) : Prop :=
  a.readNum.cap = 1 ∧ a.readNum.closed = false

instance (a : WebTerminal) : Decidable a.Valid := by
  unfold WebTerminal.Valid; infer_instance

/-! ## Concrete sessions -/

/-- A session whose idle timeout has expired, with one message waiting on the connection. -/
def closingSession : WebTerminal :=
  { conn := ⟨[⟨1, [97], none⟩], [], [], 0⟩
    size := ⟨[⟨80, 24⟩], 1, false⟩
    timeout := Minute * 20
    readNum := ⟨[], 1, false⟩
    canClose := true
    err := none }

/-- A session in which the countdown expired while the signal of an earlier `Read` was
still in the slot: the watchdog took the `tf` case and is about to test `term.err`. -/
def lateSignalSession : System :=
  { term :=
      { conn := ⟨[⟨1, [97], none⟩], [], [], 1⟩
        size := ⟨[⟨80, 24⟩], 1, false⟩
        timeout := Minute * 20
        readNum := ⟨[3], 1, false⟩
        canClose := true
        err := none }
    now := Minute * 20
    watchdog := .check
    parked := none
    returns := [⟨3, none, [108, 115, 10]⟩] }

/-- Steps taken by `lateSignalSession`: the watchdog re-arms and takes the late signal,
the caller reads, writes and polls the size twice, and a second countdown expires. -/
def lateEvents : List Event :=
  [.wdCheck, .wdArm, .wdSignal, .wdCheck, .wdArm, .read [0, 0], .write [36], .next, .next,
   .tick (Minute * 20), .wdTimeout, .wdCheck]

/-- The state `lateSignalSession` is in after `lateEvents`. -/
def lateSignalAfter : System :=
  { term :=
      { conn := ⟨[⟨1, [97], none⟩], [], [⟨1, stringBytes errorTimeOut⟩, ⟨1, [36]⟩], 1⟩
        size := ⟨[], 1, true⟩
        timeout := Minute * 20
        readNum := ⟨[], 1, false⟩
        canClose := true
        err := none }
    now := Minute * 20 + Minute * 20
    watchdog := .loopTop
    parked := none
    returns := [⟨3, none, [108, 115, 10]⟩, ⟨0, some (errorsNew errorTimeOut), [0, 0]⟩] }

/-- A fresh session that is not closing, with an empty activity slot and the given
results waiting on the connection. -/
def openSession (inbound : List Inbound) : WebTerminal :=
  { conn := ⟨inbound, [], [], 0⟩
    size := ⟨[⟨80, 24⟩], 1, false⟩
    timeout := Minute * 20
    readNum := ⟨[], 1, false⟩
    canClose := false
    err := none }

/-- A connection on which the client sends a close frame, then the byte `a`, then `m`. -/
def deadWatchdogConn (m : Inbound) : Conn :=
  ⟨[⟨CloseMessage, [], none⟩, ⟨1, [97], none⟩, m], [], [], 0⟩

/-- The watchdog arms its countdown; `Read` receives the close frame and posts its
signal; the watchdog takes the signal, finds `term.err != nil` and leaves its loop;
a second `Read` receives the byte `a` and posts its signal into the empty slot. -/
def deadWatchdogTrace : List Event :=
  [.wdArm, .read [0, 0], .wdSignal, .wdCheck, .read [0, 0]]

/-- The state reached by `deadWatchdogTrace` on `deadWatchdogConn m`: the session is not
closing, the watchdog goroutine has ended, the activity slot is occupied, and `m` is the
next message on the connection. -/
def deadWatchdogSession (m : Inbound) : System :=
  { term :=
      { conn := ⟨[m], [], [], 2⟩
        size := ⟨[⟨80, 24⟩], 1, false⟩
        timeout := Minute * 20
        readNum := ⟨[1], 1, false⟩
        canClose := false
        err := none }
    now := 0
    watchdog := .stopped
    parked := none
    returns := [⟨0, some (errorsNew "websocket CloseMessage 8"), [0, 0]⟩, ⟨1, none, [97, 0]⟩] }

/-- A session whose watchdog is inside `watchRead` with a countdown that has run out,
while a transport error (recorded by an earlier `Read`) may or may not be set. -/
def expiringSession (err : Option GoError) : System :=
  { term := { openSession [] with err := err }
    now := Minute * 20
    watchdog := .selecting (Minute * 20)
    parked := none
    returns := [] }

/-- A session whose watchdog is inside `watchRead`, five seconds into its countdown, with
the signal of a `Read` that returned `n` and recorded `err` waiting in the slot. -/
def signalledSession (n : Nat) (err : Option GoError) : System :=
  { term := { openSession [] with err := err, readNum := ⟨[n], 1, false⟩ }
    now := 5000000000
    watchdog := .selecting (Minute * 20)
    parked := none
    returns := [⟨n, err, [0, 0]⟩] }

/-! ## Constants of `github.com/gorilla/websocket` -/

/-- Constant `websocket.TextMessage`: a text data message. -/
def TextMessage : Int := 1

/-- Constant `websocket.BinaryMessage`: a binary data message. -/
def BinaryMessage : Int := 2

/-- A session whose idle timeout has expired and whose connection will fail the next
`WriteMessage` call. -/
def brokenNoticeSession : WebTerminal :=
  { closingSession with conn := ⟨[], [some ⟨"write: broken pipe"⟩], [], 0⟩ }

/-- A connection on which the client sends `ls` and then a newline. -/
def twoMessageConn : Conn :=
  ⟨[⟨1, [108, 115], none⟩, ⟨1, [10], none⟩], [], [], 0⟩

/-! ## Sequences of `Read` calls -/

/-- The schedule in which the caller calls `Read` with the buffers `ps` in turn and, after
each call, the watchdog takes that call's signal, tests `term.err` and arms its next
countdown. -/
def serveReads : List Bytes → List Event
  | [] => []
  | p :: ps => .read p :: .wdSignal :: .wdCheck :: .wdArm :: serveReads ps

/-- The bytes a returned `Read` hands to its caller: the first `n` bytes of the buffer. -/
def ReadReturn.bytes (r : ReadReturn) : Bytes := r.p.take r.n

/-- The bytes handed to the caller by a sequence of returned `Read` calls, in order. -/
def received : List ReadReturn → Bytes
  | [] => []
  | r :: rs => r.bytes ++ received rs

/-- The payloads of a sequence of inbound messages, in order. -/
def payloads : List Inbound → Bytes
  | [] => []
  | m :: ms => m.data ++ payloads ms

/-- What `n = copy(p, msg); return` yields for the messages `msgs` read into the buffers
`ps`, pairwise. -/
def served (msgs : List Inbound) (ps : List Bytes) : List ReadReturn :=
  List.zipWith (fun m p => ⟨(copy p m.data).1, none, (copy p m.data).2⟩) msgs ps

/-- A session that is not closing, with an empty slot, whose watchdog is in its `select`. -/
def servingSession (inbound : List Inbound) : System :=
  { term := openSession inbound
    now := 0
    watchdog := .selecting (Minute * 20)
    parked := none
    returns := [] }

/-- A connection on which the client sends `hi` and then `!`. -/
def hiBangConn : Conn :=
  ⟨[⟨1, [104, 105], none⟩, ⟨1, [33], none⟩], [], [], 0⟩

/-- Two read buffers, of three bytes and of one byte. -/
def roomyBuffers : List Bytes := [[0, 0, 0], [0]]

/-! ## `PodTTY` (`api/clientset.go`) -/

/-- The type `remotecommand.StreamOptions` of `k8s.io/client-go`, the argument of
`Executor.Stream`: the streams and the resize queue of the remote command. A field that a
struct literal leaves out is nil (`none`). The bridge is passed by pointer, so the same
`WebTerminal` stands in every field that names it. -/
structure StreamOptions where
  Stdin : Option WebTerminal
  Stdout : Option WebTerminal
  Stderr : Option WebTerminal
  Tty : Bool
  TerminalSizeQueue : Option WebTerminal
deriving DecidableEq, Repr

/-- What `PodTTY` returns, and the options it handed to `exec.Stream` (if it got that far). -/
structure PodTTYResult where
  err : Option GoError
  streamed : Option StreamOptions
deriving DecidableEq, Repr

/-- `func (c *clientSetClient) PodTTY(namespace, podName, container, shellType string,
conn *websocket.Conn, cols, rows uint16) (err error)`. The request URL built from the four
strings only feeds `remotecommand.NewSPDYExecutor`, whose result is the parameter
`newSPDYExecutor`: an error, or the behaviour of `exec.Stream` on the options it is given. -/
def PodTTY (newSPDYExecutor : Except GoError (StreamOptions → Option GoError)) (conn : Conn)
    (cols rows : UInt16) : ChanResult PodTTYResult :=
  match newSPDYExecutor with
  | .error e => .done { err := some e, streamed := none }
  | .ok stream =>
    match NewWebTerminal conn cols rows with
    | .done term =>
      let opts : StreamOptions :=
        { Stdin := some term
          Stdout := some term
          Stderr := some term
          Tty := true
          TerminalSizeQueue := none }
      .done { err := stream opts, streamed := some opts }
    | .blocked => .blocked
    | .panicked => .panicked

/-- A session whose idle timeout has expired, as a system: no `Read` is in progress. -/
def closingSystem : System :=
  { term := closingSession
    now := Minute * 20
    watchdog := .check
    parked := none
    returns := [] }

/-! ## Calls that can fail or panic -/

/-- How a Go call that returns `(value, error)` ends: with a value and a nil error, with a
non-nil error, or in a run-time panic. -/
inductive Outcome (α : Type) where
  | ok (a : α)
  | err (e : GoError)
  | panic (why : String)
deriving DecidableEq, Repr

/-- Sequencing: a failure or a panic of the first step ends the call. -/
def Outcome.bind {α β : Type} (x : Outcome α) (f : α → Outcome β) : Outcome β :=
  match x with
  | .ok a => f a
  | .err e => .err e
  | .panic why => .panic why

/-- The panic of an index expression `xs[i]` that is out of range. -/
def indexOutOfRange : String := "index out of range"

/-- The panic of a nil pointer dereference. -/
def nilDereference : String := "invalid memory address or nil pointer dereference"

/-- Go `xs[i]` on a slice. -/
def index {α : Type} (xs : List α) (i : Nat) : Outcome α :=
  match xs[i]? with
  | some x => .ok x
  | none => .panic indexOutOfRange

/-- Go `*p` (or a field access through `p`) on a pointer that may be nil. -/
def deref {α : Type} (p : Option α) : Outcome α :=
  match p with
  | some x => .ok x
  | none => .panic nilDereference

/-- Go `strings.Split(s, sep)` for a separator of one character, on the characters of `s`:
the pieces between the separators, of which there is always at least one. -/
def splitChars (sep : Char) : List Char → List (List Char)
  | [] => [[]]
  | c :: cs =>
    if c = sep then [] :: splitChars sep cs
    else
      match splitChars sep cs with
      | [] => [[c]]
      | w :: ws => (c :: w) :: ws

/-- Go `strings.Split(s, sep)` for a separator of one character. -/
def stringsSplit (s : String) (sep : Char) : List String :=
  (splitChars sep s.data).map String.mk

/-! ## `resourceREST` (`api/dynamic.go`) -/

/-- The type `schema.GroupVersionResource`. -/
structure GroupVersionResource where
  Group : String
  Version : String
  Resource : String
deriving DecidableEq, Repr

/-- Constant `meta.RESTScopeNameNamespace`. -/
def RESTScopeNameNamespace : String := "namespace"

/-- Constant `meta.RESTScopeNameRoot`. -/
def RESTScopeNameRoot : String := "root"

/-- The type `meta.RESTMapping` as `resourceREST` reads it: the resource, and the scope,
an interface value (`none` is nil) of which only `Name()` is called. -/
structure RESTMapping where
  Resource : GroupVersionResource
  Scope : Option String
deriving DecidableEq, Repr

/-- The type `unstructured.Unstructured` as `resourceREST` uses it: `GetNamespace` reads and
`SetNamespace` writes the field `metadata.namespace` (`""` when absent); the rest of the
object is `Content`. -/
structure Unstructured where
  Namespace : String
  Content : List (String × String)
deriving DecidableEq, Repr

/-- Method `GetNamespace` of `unstructured.Unstructured`. -/
def Unstructured.GetNamespace (u : Unstructured) : String := u.Namespace

/-- Method `SetNamespace` of `unstructured.Unstructured`. -/
def Unstructured.SetNamespace (u : Unstructured) (ns : String) : Unstructured :=
  { u with Namespace := ns }

/-- The client that `c.DynamicClient.Resource(r)` and `.Namespace(ns)` build: the resource
it addresses and the namespace it is bound to, `""` when it is bound to none. -/
structure ResourceInterface where
  Resource : GroupVersionResource
  Namespace : String
deriving DecidableEq, Repr

/-- Method `Resource` of `dynamic.Interface`: a client for the resource, bound to no
namespace. -/
def DynamicClientResource (r : GroupVersionResource) : ResourceInterface := ⟨r, ""⟩

/-- Method `Namespace` of `dynamic.NamespaceableResourceInterface`. -/
def ResourceInterface.InNamespace (c : ResourceInterface) (ns : String) : ResourceInterface :=
  { c with Namespace := ns }

/-- `func (c *dynamicClient) resourceREST(u *unstructured.Unstructured, mp *meta.RESTMapping)
(dynamic.ResourceInterface, error)`: the client returned, and the object `u` as the call
leaves it. -/
def resourceREST (u : Unstructured) (mp : RESTMapping) :
    Outcome (ResourceInterface × Unstructured) :=
  (deref mp.Scope).bind fun scopeName =>
    if scopeName = RESTScopeNameNamespace then
      let u1 := if u.GetNamespace = "" then u.SetNamespace "default" else u
      .ok ((DynamicClientResource mp.Resource).InNamespace u1.GetNamespace, u1)
    else
      .ok (DynamicClientResource mp.Resource, u)

/-! ## `PodDetail` (`api/clientset.go`, `api/common.go`, `api/const.go`) -/

/-- The type `metav1.Time`: a point in time, as its Unix seconds. -/
structure Time where
  unix : Int
deriving DecidableEq, Repr

/-- The type `apiv1.ContainerStateWaiting` as `PodDetail` reads it. -/
structure Apiv1.ContainerStateWaiting where
  Reason : String
deriving DecidableEq, Repr

/-- The type `apiv1.ContainerStateRunning` as `PodDetail` reads it. -/
structure Apiv1.ContainerStateRunning where
  StartedAt : Time
deriving DecidableEq, Repr

/-- The type `apiv1.ContainerState`: each state is a pointer, nil (`none`) when not set. -/
structure Apiv1.ContainerState where
  Waiting : Option Apiv1.ContainerStateWaiting
  Running : Option Apiv1.ContainerStateRunning
deriving DecidableEq, Repr

/-- The type `apiv1.ContainerStatus` as `PodDetail` reads it. -/
structure Apiv1.ContainerStatus where
  Name : String
  State : Apiv1.ContainerState
  Ready : Bool
  RestartCount : Int
  ContainerID : String
deriving DecidableEq, Repr

/-- The type `apiv1.Container` as `PodDetail` reads it. -/
structure Apiv1.Container where
  Name : String
  Image : String
deriving DecidableEq, Repr

/-- The type `apiv1.Pod` as `PodDetail` reads it: `Containers` is `Spec.Containers`; `Phase`,
`PodIP`, `HostIP`, `StartTime` and `ContainerStatuses` are the fields of `Status`;
`DeletionTimestamp` and `StartTime` are pointers. -/
structure Apiv1.Pod where
  Name : String
  DeletionTimestamp : Option Time
  Containers : List Apiv1.Container
  Phase : String
  PodIP : String
  HostIP : String
  StartTime : Option Time
  ContainerStatuses : List Apiv1.ContainerStatus
deriving DecidableEq, Repr

/-- Constant `apiv1.PodRunning`. -/
def PodRunning : String := "Running"

/-- `type PodStatus string`. -/
abbrev PodStatus := String

def Terminating : PodStatus := "Terminating"

structure PodEvent where
  PodName : String
  Message : String
  Note : String
deriving DecidableEq, Repr

structure Container where
  ContainerID : String
  Name : String
  Ready : Bool
  RestartCount : Int
  StartTime : String
deriving DecidableEq, Repr

structure PodInfo where
  Status : PodStatus
  Age : String
  Ready : String
  PodIP : String
  PodName : String
  RestartCount : Int
  HostIP : String
  Tag : String
  StartTime : String
  Message : String
  Events : List PodEvent
  Containers : List Container
deriving DecidableEq, Repr

/-- The zero value of `PodInfo`. -/
def PodInfo.zero : PodInfo :=
  { Status := "", Age := "", Ready := "", PodIP := "", PodName := "", RestartCount := 0,
    HostIP := "", Tag := "", StartTime := "", Message := "", Events := [], Containers := [] }

/-- What `PodDetail` takes from outside the package.
* `format`: `Time.Format(common.SecLocalTimeFormat)`.
* `sortSlice`: `sort.Slice` with the comparison `StartTime[i] < StartTime[j]` (the order of
  equal elements is not fixed by the library).
* `nowDelta`, `nowAge`: the results of the two `time.Now().Unix()` calls.
* `runtimeAge`: `common.RuntimeAge`. -/
structure PodDetailEnv where
  format : Time → String
  sortSlice : List Container → List Container
  nowDelta : Int
  nowAge : Int
  runtimeAge : Int → String

/-- The first loop of `PodDetail` over `pod.Status.ContainerStatuses`: the containers it
appends to `p.Containers`, and `containerReadyCount`. -/
def PodDetail.containers (env : PodDetailEnv) :
    List Apiv1.ContainerStatus → Outcome (List Container × Nat)
  | [] => .ok ([], 0)
  | cs :: rest =>
    let c : Container :=
      { ContainerID := cs.ContainerID, Name := cs.Name, Ready := cs.Ready,
        RestartCount := cs.RestartCount, StartTime := "" }
    (if cs.Ready then
        (deref cs.State.Running).bind fun running =>
          Outcome.ok { c with StartTime := env.format running.StartedAt }
      else Outcome.ok c).bind fun c1 =>
      (PodDetail.containers env rest).bind fun r =>
        .ok (c1 :: r.1, (if cs.Ready then 1 else 0) + r.2)

/-- The second loop of `PodDetail` over `pod.Status.ContainerStatuses`:
`p.RestartCount = cs.RestartCount` and, when `cs.State.Waiting != nil`,
`p.Status = PodStatus(cs.State.Waiting.Reason)`. -/
def PodDetail.waiting (p : PodInfo) : List Apiv1.ContainerStatus → PodInfo
  | [] => p
  | cs :: rest =>
    let p1 := { p with RestartCount := cs.RestartCount }
    match cs.State.Waiting with
    | some w => PodDetail.waiting { p1 with Status := w.Reason } rest
    | none => PodDetail.waiting p1 rest

/-- `func (c *clientSetClient) PodDetail(namespace, podName string) (p PodInfo, err error)`,
given the result `podGet` of `c.PodGet(namespace, podName)`. -/
def PodDetail (env : PodDetailEnv) (podGet : Except GoError Apiv1.Pod) : Outcome PodInfo :=
  match podGet with
  | .error e => .err e
  | .ok pod =>
    (index pod.Containers 0).bind fun c0 =>
    (index (stringsSplit c0.Image ':') 1).bind fun tag =>
    let p : PodInfo :=
      { PodInfo.zero with
          PodName := pod.Name, PodIP := pod.PodIP, HostIP := pod.HostIP, Tag := tag }
    (match pod.DeletionTimestamp with
      | some _ => Outcome.ok { p with Status := Terminating }
      | none =>
        if pod.Phase = PodRunning then
          (deref pod.StartTime).bind fun t =>
            Outcome.ok { p with Status := pod.Phase, StartTime := env.format t }
        else Outcome.ok { p with Status := pod.Phase }).bind fun p1 =>
    (PodDetail.containers env pod.ContainerStatuses).bind fun r =>
    let p2 : PodInfo :=
      { p1 with
          Containers := env.sortSlice (p1.Containers ++ r.1)
          Ready := toString r.2 ++ "/" ++ toString pod.ContainerStatuses.length }
    let p3 := PodDetail.waiting p2 pod.ContainerStatuses
    let deltaVal :=
      match pod.StartTime with
      | none => env.nowDelta
      | some t => t.unix
    .ok { p3 with Age := env.runtimeAge (env.nowAge - deltaVal) }

/-- Stand-ins for what `PodDetail` takes from outside, used to run it on examples: times
are not formatted, the containers are left in the order given, the clock reads 0. -/
def exampleEnv : PodDetailEnv :=
  { format := fun _ => "", sortSlice := fun cs => cs, nowDelta := 0, nowAge := 0,
    runtimeAge := fun _ => "" }

/-- A pod that is being deleted while its container waits in `CrashLoopBackOff`. -/
def deletedCrashingPod : Apiv1.Pod :=
  { Name := "web-0"
    DeletionTimestamp := some ⟨1700000000⟩
    Containers := [⟨"app", "nginx:1.25"⟩]
    Phase := "Running"
    PodIP := "10.0.0.7"
    HostIP := "192.168.1.2"
    StartTime := some ⟨1690000000⟩
    ContainerStatuses := [⟨"app", ⟨some ⟨"CrashLoopBackOff"⟩, none⟩, false, 7, "docker://1"⟩] }

/-- A pod whose only container runs the image `nginx`, a reference without a tag. -/
def untaggedPod : Apiv1.Pod :=
  { Name := "web-0"
    DeletionTimestamp := none
    Containers := [⟨"app", "nginx"⟩]
    Phase := "Pending"
    PodIP := ""
    HostIP := ""
    StartTime := none
    ContainerStatuses := [] }

/-! ## What the connection can deliver

`Conn.ReadMessage` replays any script of results. The connection of
`github.com/gorilla/websocket` is more constrained, by the documentation of its
`ReadMessage` and `NextReader`: the message type of a message is `TextMessage` or
`BinaryMessage`; control frames, the close frame among them, are handled inside the library
and are never returned as messages; a failure is returned with the message type `noFrame`;
and read errors are permanent: once a call has returned an error, every later call returns
that error. -/

/-- Constant `noFrame` of `github.com/gorilla/websocket`: the message type `ReadMessage`
returns when no message could be started. -/
def noFrame : Int := -1

/-- The result `(noFrame, nil, e)` by which `ReadMessage` reports that the connection has
failed with the error `e`. A close frame sent by the peer arrives in this form, `e` being the
`*websocket.CloseError` the library makes from the frame. -/
def readFailure (e : GoError) : Inbound := ⟨noFrame, [], some e⟩

/-- The error `ReadMessage` returns for a close frame with status 1000 and no reason: the
text of `(&websocket.CloseError{Code: 1000}).Error()`. -/
def closeNormal : GoError := ⟨"websocket: close 1000 (normal)"⟩

/-- A result `ReadMessage` can return: a text or binary message, with a nil error or, when
the connection failed while the message was being read, with the bytes read so far and the
error; or `(noFrame, nil, err)` with a non-nil error. -/
def Inbound.Real (m : Inbound) : Prop :=
  m.messageType = TextMessage ∨ m.messageType = BinaryMessage ∨
    (m.messageType = noFrame ∧ m.data = [] ∧ m.err ≠ none)

instance (m : Inbound) : Decidable m.Real := by
  unfold Inbound.Real; infer_instance

/-- A connection that keeps to the contract of `ReadMessage`: every result is one the library
can return, and once a result carries an error every later result is the failure with that
same error. -/
def Conn.Conforms (c : Conn) : Prop :=
  (∀ m ∈ c.inbound, m.Real) ∧
    c.inbound.Pairwise fun a b => a.err = none ∨ b = ⟨noFrame, [], a.err⟩

instance (c : Conn) : Decidable c.Conforms := by
  unfold Conn.Conforms; infer_instance

/-- What holds of every state of a session on a conforming connection (see `run_sound`):
the activity channel is the open channel of capacity 1 and holds at most one signal; what
is left of the connection conforms; the watchdog has ended only if an error is recorded; once
an error is recorded every result still to come is the failure with that error; and a `Read`
waiting in its deferred send has recorded its own error result. -/
def System.Sound (s : System) : Prop :=
  s.term.Valid ∧ s.term.readNum.buf.length ≤ 1 ∧ s.term.conn.Conforms ∧
    (s.watchdog = .stopped → s.term.err ≠ none) ∧
    (∀ m ∈ s.term.conn.inbound, s.term.err = none ∨ m = ⟨noFrame, [], s.term.err⟩) ∧
    (∀ r, s.parked = some r → r.err = s.term.err)

/-- The steps by which a waiting `Read` is let through: the steps of the watchdog goroutine
other than the expiry of its countdown, and the completion of the deferred send. -/
def Event.handoff : Event → Bool
  | .wdArm => true
  | .wdSignal => true
  | .wdCheck => true
  | .readResume => true
  | _ => false

/-- The call `Read(p)` made in the state `s` returns the results `r`:
* steps of the watchdog and of the call alone make it return `r`; and
* whatever the session does once the call is made, the call has returned `r`, or it is
  waiting in its deferred send with the results `r` and steps of the watchdog and of the call
  alone make it return `r`: nothing can leave it waiting for ever. -/
def System.ReadReturns (s : System) (p : Bytes) (r : ReadReturn) : Prop :=
  (∃ ws s', (∀ e ∈ ws, e.handoff = true) ∧ s.run (.read p :: ws) = some s' ∧
      s'.parked = none ∧ s'.returns = s.returns ++ [r]) ∧
    ∀ fs s1, s.run (.read p :: fs) = some s1 →
      (∃ l, s1.returns = s.returns ++ r :: l) ∨
        (s1.parked = some r ∧ s1.returns = s.returns ∧
          ∃ ws s2, (∀ e ∈ ws, e.handoff = true) ∧ s1.run ws = some s2 ∧
            s2.parked = none ∧ s2.returns = s.returns ++ [r])

/-- The session `NewWebTerminal(conn, 80, 24)` has made, at clock 0, before its watchdog has
taken a step. -/
def freshSession (conn : Conn) : System :=
  { term :=
      { conn := conn
        size := ⟨[⟨80, 24⟩], 1, false⟩
        timeout := Minute * 20
        readNum := ⟨[], 1, false⟩
        canClose := false
        err := none }
    now := 0
    watchdog := .loopTop
    parked := none
    returns := [] }

/-- The session on `twoMessageConn` after a `Read` into three bytes has returned `ls`: the
signal of that call is in the slot, the watchdog has not yet taken a step, and the newline is
the next message. -/
def afterLsSession : System :=
  { term :=
      { conn := ⟨[⟨1, [10], none⟩], [], [], 1⟩
        size := ⟨[⟨80, 24⟩], 1, false⟩
        timeout := Minute * 20
        readNum := ⟨[2], 1, false⟩
        canClose := false
        err := none }
    now := 0
    watchdog := .loopTop
    parked := none
    returns := [⟨2, none, [108, 115, 0]⟩] }

/-- A connection on which the client sends the heartbeat sentinel and then the byte `a`. -/
def heartbeatByteConn : Conn :=
  ⟨[⟨1, stringBytes healthCheck, none⟩, ⟨1, [97], none⟩], [], [], 0⟩

/-- A connection that the peer closes with status 1000 before sending anything: every
`ReadMessage` call returns the close error. -/
def closedConn : Conn :=
  ⟨[readFailure closeNormal, readFailure closeNormal, readFailure closeNormal], [], [], 0⟩

/-- The session on `closedConn` after the watchdog has armed its countdown and a `Read` into
two bytes has returned the close error: the error is recorded and the signal of the call is
in the slot. -/
def closedAfterRead : System :=
  { term :=
      { conn := ⟨[readFailure closeNormal, readFailure closeNormal], [], [], 1⟩
        size := ⟨[⟨80, 24⟩], 1, false⟩
        timeout := Minute * 20
        readNum := ⟨[1], 1, false⟩
        canClose := false
        err := some closeNormal }
    now := 0
    watchdog := .selecting (Minute * 20)
    parked := none
    returns := [⟨1, some closeNormal, [4, 0]⟩] }

/-- The state of `closedAfterRead` after the watchdog has taken the signal and left its loop
and a second `Read` into two bytes has returned. -/
def closedAfterSecondRead : System :=
  { term :=
      { conn := ⟨[readFailure closeNormal], [], [], 2⟩
        size := ⟨[⟨80, 24⟩], 1, false⟩
        timeout := Minute * 20
        readNum := ⟨[1], 1, false⟩
        canClose := false
        err := some closeNormal }
    now := 0
    watchdog := .stopped
    parked := none
    returns := [⟨1, some closeNormal, [4, 0]⟩, ⟨1, some closeNormal, [4, 0]⟩] }

end Api

/-!
# Package `kind`: rendering and reading back manifests

Each `RenderYaml` encodes the object built by `render` with `json.Marshal` and
`yaml.JSONToYAML`, and each `Deserialize…` function decodes its input with
`yaml.YAMLToJSON` and `json.Unmarshal` before it reads the object. Those four are library
functions; a `Deserialize…` function is modelled from the result of the decoding on, and
"the rendered manifest" is a manifest whose decoding gives back the object `render` built.
Pointers are `Option`, slices are `List`, `map[string]string` is a list of pairs.
-/

namespace Kind

/-- A Go `map[string]string`, as the list of its entries. -/
abbrev StringMap := List (String × String)

/-- Go `m[k]` on a `map[string]string`: the value stored under `k`, `""` when there is none. -/
def StringMap.get (m : StringMap) (k : String) : String :=
  match m.find? (fun kv => kv.1 = k) with
  | some kv => kv.2
  | none => ""

/-! ## `ingress.go` -/

/-- The type `networkv1.ServiceBackendPort`. -/
structure Networkv1.ServiceBackendPort where
  Name : String
  Number : Int
deriving DecidableEq, Repr

/-- The type `networkv1.IngressServiceBackend`. -/
structure Networkv1.IngressServiceBackend where
  Name : String
  Port : Networkv1.ServiceBackendPort
deriving DecidableEq, Repr

/-- The type `networkv1.IngressBackend`; `Service` is a pointer. -/
structure Networkv1.IngressBackend where
  Service : Option Networkv1.IngressServiceBackend
deriving DecidableEq, Repr

/-- The type `networkv1.HTTPIngressPath`; `PathType` is a pointer. -/
structure Networkv1.HTTPIngressPath where
  Path : String
  PathType : Option String
  Backend : Networkv1.IngressBackend
deriving DecidableEq, Repr

/-- The type `networkv1.HTTPIngressRuleValue`. -/
structure Networkv1.HTTPIngressRuleValue where
  Paths : List Networkv1.HTTPIngressPath
deriving DecidableEq, Repr

/-- The type `networkv1.IngressRule`; `HTTP` (of the embedded `IngressRuleValue`) is a
pointer. -/
structure Networkv1.IngressRule where
  Host : String
  HTTP : Option Networkv1.HTTPIngressRuleValue
deriving DecidableEq, Repr

/-- The type `networkv1.Ingress`, with the fields of `TypeMeta`, `ObjectMeta` and `Spec`
that `render` sets. -/
structure Networkv1.Ingress where
  APIVersion : String
  Kind : String
  Name : String
  Labels : StringMap
  Annotations : StringMap
  Rules : List Networkv1.IngressRule
deriving DecidableEq, Repr

/-- Constant `networkv1.PathTypePrefix`. -/
def PathTypePrefix : String := "Prefix"

def ConstIngressApiVersion : String := "networking.k8s.io/v1"

structure ingress where
  Name : String
  IngressController : String
  Domain : String
  Path : String
  PortName : String
  PortNumber : Int
deriving DecidableEq, Repr

def NewIngress (name ingressController domain path portName : String) (portNumber : Int) :
    ingress :=
  { Name := name
    IngressController := ingressController
    Domain := domain
    Path := path
    PortName := portName
    PortNumber := portNumber }

/-- `func (ingress *ingress) render() *networkv1.Ingress`. The helper `toInt32` of the
package is not among the sources and is a parameter. -/
def ingress.render (toInt32 : Int → Int) (i : ingress) : Networkv1.Ingress :=
  { APIVersion := ConstIngressApiVersion
    Kind := "Ingress"
    Name := i.Name
    Labels := [("app", i.Name)]
    Annotations := [("kubernetes.io/ingress.class", i.IngressController)]
    Rules :=
      [{ Host := i.Domain
         HTTP := some
           { Paths :=
               [{ Path := i.Path
                  PathType := some PathTypePrefix
                  Backend :=
                    { Service := some
                        { Name := i.Name
                          Port := { Name := "", Number := toInt32 i.PortNumber } } } }] } }] }

/-- The map `DeserializeIngress` returns, by key. -/
structure IngressFields where
  ingress_controller : String
  ingress_domain : String
  ingress_path : String
  ingress_port_name : String
  ingress_port_number : Int
deriving DecidableEq, Repr

/-- `func DeserializeIngress(b []byte) (mp map[string]interface{}, err error)`, given the
result `decoded` of decoding `b` into a `networkv1.Ingress`. -/
def DeserializeIngress (decoded : Except Api.GoError Networkv1.Ingress) :
    Api.Outcome IngressFields :=
  match decoded with
  | .error e => .err e
  | .ok ing =>
    (Api.index ing.Rules 0).bind fun rule =>
    (Api.deref rule.HTTP).bind fun http =>
    (Api.index http.Paths 0).bind fun path =>
    (Api.deref path.Backend.Service).bind fun service =>
      .ok
        { ingress_controller := ing.Annotations.get "kubernetes.io/ingress.class"
          ingress_domain := rule.Host
          ingress_path := path.Path
          ingress_port_name := service.Port.Name
          ingress_port_number := service.Port.Number }

/-! ## `kustomize.go` -/

/-- The type `types.Image` of `sigs.k8s.io/kustomize/api/types`. -/
structure KustTypes.Image where
  Name : String
  NewName : String
  NewTag : String
  Digest : String
deriving DecidableEq, Repr

/-- The type `types.Replica`. -/
structure KustTypes.Replica where
  Name : String
  Count : Int
deriving DecidableEq, Repr

/-- The type `types.Kustomization`, with the fields `render` sets. -/
structure KustTypes.Kustomization where
  Kind : String
  APIVersion : String
  Resources : List String
  NamePrefix : String
  Namespace : String
  CommonLabels : StringMap
  CommonAnnotations : StringMap
  PatchesStrategicMerge : List String
  Images : List KustTypes.Image
  Replicas : List KustTypes.Replica
  Configurations : List String
  OpenAPI : StringMap
deriving DecidableEq, Repr

/-- The map `DeserializeKustomizationConfig` returns, by key. -/
structure KustomizationFields where
  replicas : Int
  tag : String
  node_labels : StringMap
  is_hpa_enable : Bool
deriving DecidableEq, Repr

/-- The loop `for _, resource := range kus.Resources { if resource == "hpa.yaml"
{ isHpaEnable = true } }`, from the value `isHpaEnable` has before it. -/
def hpaEnabled (isHpaEnable : Bool) : List String → Bool
  | [] => isHpaEnable
  | resource :: rest =>
    if resource = "hpa.yaml" then hpaEnabled true rest else hpaEnabled isHpaEnable rest

/-- `func DeserializeKustomizationConfig(b []byte) (mp map[string]interface{}, err error)`,
given the result `decoded` of `yaml.YAMLToJSON(b)` followed by
`json.Unmarshal(bytes, &kus)`: an error, or the pointer `kus` as the call leaves it. The
variable `kus` is itself a pointer, so `Unmarshal` is handed a pointer to a pointer: for the
JSON value `null`, which is what an empty manifest converts to, it sets `kus` to nil
(`none`) and returns a nil error. The first use of `kus`, in `len(kus.Images)`, dereferences
it. -/
def DeserializeKustomizationConfig
    (decoded : Except Api.GoError (Option KustTypes.Kustomization)) :
    Api.Outcome KustomizationFields :=
  match decoded with
  | .error e => .err e
  | .ok ptr =>
    (Api.deref ptr).bind fun kus =>
    let newTag :=
      match kus.Images with
      | [] => "latest"
      | image :: _ => image.NewTag
    let isHpaEnable := hpaEnabled false kus.Resources
    let replicas :=
      match kus.Replicas with
      | [] => 0
      | replica :: _ => replica.Count
    .ok
      { replicas := replicas
        tag := newTag
        node_labels := kus.CommonLabels
        is_hpa_enable := isHpaEnable }

/-! ## `application.go` -/

/-- The type `argocdapp.OperationState` as `DeserializationApplication` reads it. -/
structure Argocdapp.OperationState where
  StartedAt : Api.Time
deriving DecidableEq, Repr

/-- The type `argocdapp.HealthStatus`. -/
structure Argocdapp.HealthStatus where
  Status : String
  Message : String
deriving DecidableEq, Repr

/-- The type `argocdapp.Application` as `DeserializationApplication` reads it: `Name` is
`ObjectMeta.Name`; `Health`, `Images` (of `Summary`) and `OperationState`, a pointer, are
fields of `Status`. -/
structure Argocdapp.Application where
  Name : String
  Health : Argocdapp.HealthStatus
  Images : List String
  OperationState : Option Argocdapp.OperationState
deriving DecidableEq, Repr

/-- Constant `health.HealthStatusMissing`. -/
def HealthStatusMissing : String := "Missing"

/-- Constant `health.HealthStatusHealthy`. -/
def HealthStatusHealthy : String := "Healthy"

/-- Constant `health.HealthStatusDegraded`. -/
def HealthStatusDegraded : String := "Degraded"

/-- Constant `health.HealthStatusSuspended`. -/
def HealthStatusSuspended : String := "Suspended"

structure ApplicationSummary where
  Name : String
  Images : List String
  HealthStatus : String
  StartedAt : String
  HealthMessage : String
  IsPause : Bool
  IsReady : Bool
  IsFailed : Bool
deriving DecidableEq, Repr

/-- The locals `startedAt`, `isReady`, `isFailed`, `isPause` of
`DeserializationApplication`. -/
structure ApplicationLocals where
  startedAt : String
  isReady : Bool
  isFailed : Bool
  isPause : Bool
deriving DecidableEq, Repr

/-- The `switch applicationConfig.Status.Health.Status` of `DeserializationApplication`,
from the initial values of the locals; `format` is `Time.Format(common.TimeFormat)`. -/
def applicationSwitch (format : Api.Time → String) (app : Argocdapp.Application) :
    Api.Outcome ApplicationLocals :=
  let locals : ApplicationLocals :=
    { startedAt := "0000-00-00 00:00:00", isReady := false, isFailed := false,
      isPause := false }
  if app.Health.Status = HealthStatusMissing then
    (Api.deref app.OperationState).bind fun operationState =>
      .ok { locals with startedAt := format operationState.StartedAt }
  else if app.Health.Status = HealthStatusHealthy then .ok { locals with isReady := true }
  else if app.Health.Status = HealthStatusDegraded then .ok { locals with isFailed := true }
  else if app.Health.Status = HealthStatusSuspended then .ok { locals with isPause := true }
  else .ok locals

/-- `func DeserializationApplication(data []byte) (as ApplicationSummary, err error)`, given
the result `decoded` of `json.Unmarshal(data, &applicationConfig)`: an error, or the pointer
`applicationConfig` as the call leaves it. The variable is itself a pointer, so for the JSON
value `null` the call sets it to nil (`none`) and returns a nil error; the `switch` then
dereferences it. -/
def DeserializationApplication (format : Api.Time → String)
    (decoded : Except Api.GoError (Option Argocdapp.Application)) :
    Api.Outcome ApplicationSummary :=
  match decoded with
  | .error e => .err e
  | .ok ptr =>
    (Api.deref ptr).bind fun app =>
    (applicationSwitch format app).bind fun locals =>
      .ok
        { Name := app.Name
          Images := app.Images
          HealthStatus := app.Health.Status
          StartedAt := locals.startedAt
          HealthMessage := app.Health.Message
          IsPause := locals.isPause
          IsReady := locals.isReady
          IsFailed := locals.isFailed }

/-- A stand-in for `Time.Format(common.TimeFormat)`, used to run the function on examples. -/
def exampleFormat : Api.Time → String := fun _ => "2023-11-14 22:13:20"

/-- An application as decoded from
`{"metadata":{"name":"shop"},"status":{"health":{"status":"Missing"}}}`: its health status is
`Missing` and it has no `operationState`. -/
def missingApplication : Argocdapp.Application :=
  { Name := "shop", Health := ⟨"Missing", ""⟩, Images := [], OperationState := none }

/-- A healthy application with one image and an operation state. -/
def healthyApplication : Argocdapp.Application :=
  { Name := "shop"
    Health := ⟨"Healthy", ""⟩
    Images := ["registry.local/shop:1.4"]
    OperationState := some ⟨⟨1700000000⟩⟩ }

/-! ## `deployment.go` -/

/-- The type `intstr.IntOrString`: `Typ` (the field `Type`) is 0 for an integer and 1 for a
string. -/
structure Intstr.IntOrString where
  Typ : Int
  IntVal : Int
  StrVal : String
deriving DecidableEq, Repr

/-- The type `resource.Quantity`, as the text its method `String()` gives. -/
structure Resource.Quantity where
  text : String
deriving DecidableEq, Repr

/-- The type `apiv1.ObjectFieldSelector`. -/
structure Apiv1.ObjectFieldSelector where
  APIVersion : String
  FieldPath : String
deriving DecidableEq, Repr

/-- The type `apiv1.EnvVar`; `FieldRef` is the pointer `ValueFrom.FieldRef`. -/
structure Apiv1.EnvVar where
  Name : String
  Value : String
  FieldRef : Option Apiv1.ObjectFieldSelector
deriving DecidableEq, Repr

/-- The type `apiv1.ContainerPort`. -/
structure Apiv1.ContainerPort where
  Name : String
  Protocol : String
  ContainerPort : Int
deriving DecidableEq, Repr

/-- The type `apiv1.ExecAction`. -/
structure Apiv1.ExecAction where
  Command : List String
deriving DecidableEq, Repr

/-- The type `apiv1.Handler` as a lifecycle hook; `Exec` is a pointer. -/
structure Apiv1.Handler where
  Exec : Option Apiv1.ExecAction
deriving DecidableEq, Repr

/-- The type `apiv1.Lifecycle`; both hooks are pointers. -/
structure Apiv1.Lifecycle where
  PostStart : Option Apiv1.Handler
  PreStop : Option Apiv1.Handler
deriving DecidableEq, Repr

/-- The type `apiv1.HTTPGetAction`. -/
structure Apiv1.HTTPGetAction where
  Path : String
  Port : Intstr.IntOrString
  Scheme : String
deriving DecidableEq, Repr

/-- The type `apiv1.Probe`; `HTTPGet` is the pointer `Handler.HTTPGet`. -/
structure Apiv1.Probe where
  HTTPGet : Option Apiv1.HTTPGetAction
  InitialDelaySeconds : Int
  TimeoutSeconds : Int
  PeriodSeconds : Int
  SuccessThreshold : Int
  FailureThreshold : Int
deriving DecidableEq, Repr

/-- The type `apiv1.ResourceList`, a map from resource name to quantity. -/
abbrev Apiv1.ResourceList := List (String × Resource.Quantity)

/-- Method `Name` of `apiv1.ResourceList` behind `Cpu()` and `Memory()`: the quantity stored
under the name, or the zero quantity, whose text is `0`. -/
def Apiv1.ResourceList.quantity (rl : Apiv1.ResourceList) (name : String) : Resource.Quantity :=
  match rl.find? (fun kv => kv.1 = name) with
  | some kv => kv.2
  | none => ⟨"0"⟩

/-- The type `apiv1.ResourceRequirements`. -/
structure Apiv1.ResourceRequirements where
  Limits : Apiv1.ResourceList
  Requests : Apiv1.ResourceList
deriving DecidableEq, Repr

/-- The type `apiv1.Container`, with the fields `DeserializeDeployment` reads; the probes and
the lifecycle are pointers. -/
structure Apiv1.Container where
  Name : String
  Image : String
  Command : List String
  Ports : List Apiv1.ContainerPort
  Env : List Apiv1.EnvVar
  Resources : Apiv1.ResourceRequirements
  LivenessProbe : Option Apiv1.Probe
  ReadinessProbe : Option Apiv1.Probe
  Lifecycle : Option Apiv1.Lifecycle
deriving DecidableEq, Repr

/-- The type `apiv1.PodSpec`, with the fields `DeserializeDeployment` reads. -/
structure Apiv1.PodSpec where
  NodeSelector : StringMap
  Containers : List Apiv1.Container
  TerminationGracePeriodSeconds : Option Int
deriving DecidableEq, Repr

/-- The type `appsv1.RollingUpdateDeployment`; both fields are pointers. -/
structure Appsv1.RollingUpdateDeployment where
  MaxUnavailable : Option Intstr.IntOrString
  MaxSurge : Option Intstr.IntOrString
deriving DecidableEq, Repr

/-- The type `appsv1.Deployment`, with the fields `DeserializeDeployment` reads: `Name` is
`ObjectMeta.Name`, `RollingUpdate` the pointer `Spec.Strategy.RollingUpdate`, `Template` is
`Spec.Template.Spec`. What `render` puts in the manifest besides (labels, selector,
volumes, DNS options, image pull secret) is never read back and is left out. -/
structure Appsv1.Deployment where
  Name : String
  RollingUpdate : Option Appsv1.RollingUpdateDeployment
  Template : Apiv1.PodSpec
deriving DecidableEq, Repr

structure ContainerPort where
  Name : String
  Port : Int
deriving DecidableEq, Repr

structure ContainerEnv where
  Key : String
  Value : String
deriving DecidableEq, Repr

structure Label where
  Key : String
  Value : String
deriving DecidableEq, Repr

/-- The struct `deployment`, with the fields `render` reads. -/
structure deployment where
  Name : String
  ProjectEnv : String
  StartCommand : String
  PostStart : String
  PreStop : String
  MinMem : Int
  MaxMem : Int
  MinCpu : String
  MaxCpu : String
  MaxSurge : String
  MaxUnavailable : String
  HealthCheckPath : String
  HealthCheckPort : Int
  TerminationGrace : Int
  ContainerPorts : List ContainerPort
  ReadinessInitialDelaySeconds : Int
  ReadinessPeriodSeconds : Int
  ReadinessTimeoutSeconds : Int
  ReadinessSuccessThreshold : Int
  ReadinessFailureThreshold : Int
  LivenessInitialDelaySeconds : Int
  LivenessPeriodSeconds : Int
  LivenessTimeoutSeconds : Int
  LivenessSuccessThreshold : Int
  LivenessFailureThreshold : Int
  ContainerEnvs : List ContainerEnv
  NodeSelector : List Label
deriving DecidableEq, Repr

def defaultEnvKeys : List String :=
  ["APP_NAME", "TIME", "POD_NAME", "POD_IP", "NODE_NAME", "NODE_IP"]

/-- The function `common.Contains` of the library `github.com/zhengyansheng/common`: whether
the slice holds the string. -/
def Contains (xs : List String) (x : String) : Bool := xs.contains x

/-- Go conversion `int32(n)` of an `int`: the value modulo `2^32`, as a signed number. -/
def int32 (n : Int) : Int := (n + 2147483648) % 4294967296 - 2147483648

/-- The value of an `int` expression on a 64-bit platform: modulo `2^64`, as a signed number. -/
def int64 (n : Int) : Int :=
  (n + 9223372036854775808) % 18446744073709551616 - 9223372036854775808

/-- Go `m[k] = v` on a `map[string]string`. -/
def StringMap.set (m : StringMap) (k v : String) : StringMap :=
  match m with
  | [] => [(k, v)]
  | kv :: rest => if kv.1 = k then (k, v) :: rest else kv :: StringMap.set rest k v

/-- What `render` and `DeserializeDeployment` take from outside the package; `ρ` is the type
of the numbers `common.CustomUnitGiInter` returns.
* `now`: `time.Now().Format(common.SecLocalTimeFormat)`.
* `mustParse`: `resource.MustParse`, `none` when it panics.
* `newQuantity`: `resource.NewQuantity(v, resource.BinarySI)`.
* `intstrParse`, `intstrString`: `intstr.Parse` and the method `String` of `IntOrString`.
* `customUnitGiInter`: `common.CustomUnitGiInter`. -/
structure DeploymentEnv (ρ : Type) where
  now : String
  mustParse : String → Option Resource.Quantity
  newQuantity : Int → Resource.Quantity
  intstrParse : String → Intstr.IntOrString
  intstrString : Intstr.IntOrString → String
  customUnitGiInter : String → Except Api.GoError ρ

/-- The panic of `resource.MustParse` on a string that is not a quantity. -/
def cannotParseQuantity : String := "cannot parse quantity"

/-- The call `resource.MustParse(s)`. -/
def mustParse {ρ : Type} (env : DeploymentEnv ρ) (s : String) : Api.Outcome Resource.Quantity :=
  match env.mustParse s with
  | some q => .ok q
  | none => .panic cannotParseQuantity

/-- The environment variables `render` puts before the user's: six that the cluster fills
in and two that carry the project environment. -/
def renderedEnvs {ρ : Type} (env : DeploymentEnv ρ) (deploy : deployment) :
    List Apiv1.EnvVar :=
  [ ⟨"APP_NAME", deploy.Name, none⟩,
    ⟨"TIME", env.now, none⟩,
    ⟨"POD_NAME", "", some ⟨"v1", "metadata.name"⟩⟩,
    ⟨"POD_IP", "", some ⟨"v1", "status.podIP"⟩⟩,
    ⟨"NODE_NAME", "", some ⟨"v1", "spec.nodeName"⟩⟩,
    ⟨"NODE_IP", "", some ⟨"v1", "status.hostIP"⟩⟩,
    ⟨"spring.profiles.active", deploy.ProjectEnv, none⟩,
    ⟨"env", deploy.ProjectEnv, none⟩ ]

/-- A probe as `render` builds it. -/
def renderedProbe (path : String) (port failure initialDelay period success timeout : Int) :
    Apiv1.Probe :=
  { HTTPGet := some { Path := path, Port := ⟨0, int32 port, ""⟩, Scheme := "HTTP" }
    InitialDelaySeconds := int32 initialDelay
    TimeoutSeconds := int32 timeout
    PeriodSeconds := int32 period
    SuccessThreshold := int32 success
    FailureThreshold := int32 failure }

/-- `func (deploy *deployment) render() *appsv1.Deployment`. -/
def deployment.render {ρ : Type} (env : DeploymentEnv ρ) (deploy : deployment) :
    Api.Outcome Appsv1.Deployment :=
  let nodeSelector :=
    deploy.NodeSelector.foldl (fun m node => StringMap.set m node.Key node.Value) []
  let containerPorts : List Apiv1.ContainerPort :=
    deploy.ContainerPorts.map fun p => ⟨p.Name, "TCP", int32 p.Port⟩
  let containerEnvs : List Apiv1.EnvVar :=
    renderedEnvs env deploy ++ deploy.ContainerEnvs.map fun e => ⟨e.Key, e.Value, none⟩
  let maxSurge := env.intstrParse deploy.MaxSurge
  let maxUnavailable := env.intstrParse deploy.MaxUnavailable
  (mustParse env deploy.MaxCpu).bind fun maxCpu =>
  (mustParse env deploy.MinCpu).bind fun minCpu =>
    .ok
      { Name := deploy.Name
        RollingUpdate := some { MaxSurge := some maxSurge, MaxUnavailable := some maxUnavailable }
        Template :=
          { NodeSelector := nodeSelector
            Containers :=
              [{ Name := deploy.Name
                 Image := deploy.Name
                 Ports := containerPorts
                 Command := ["sh", "-c", deploy.StartCommand]
                 Lifecycle := some
                   { PostStart := some ⟨some ⟨["sh", "-c", deploy.PostStart]⟩⟩
                     PreStop := some ⟨some ⟨["sh", "-c", deploy.PreStop]⟩⟩ }
                 ReadinessProbe := some
                   (renderedProbe deploy.HealthCheckPath deploy.HealthCheckPort
                     deploy.ReadinessFailureThreshold deploy.ReadinessInitialDelaySeconds
                     deploy.ReadinessPeriodSeconds deploy.ReadinessSuccessThreshold
                     deploy.ReadinessTimeoutSeconds)
                 LivenessProbe := some
                   (renderedProbe deploy.HealthCheckPath deploy.HealthCheckPort
                     deploy.LivenessFailureThreshold deploy.LivenessInitialDelaySeconds
                     deploy.LivenessPeriodSeconds deploy.LivenessSuccessThreshold
                     deploy.LivenessTimeoutSeconds)
                 Resources :=
                   { Limits :=
                       [("cpu", maxCpu),
                        ("memory", env.newQuantity (int64 (deploy.MaxMem * 1024 * 1024)))]
                     Requests :=
                       [("cpu", minCpu),
                        ("memory", env.newQuantity (int64 (deploy.MinMem * 1024 * 1024)))] }
                 Env := containerEnvs }]
            TerminationGracePeriodSeconds := some (int64 deploy.TerminationGrace) } }

/-- The map `DeserializeDeployment` returns, by key. -/
structure DeploymentFields (ρ : Type) where
  name : String
  start_cmd : String
  pre_stop : String
  post_start : String
  min_cpu : ρ
  min_mem : ρ
  max_cpu : ρ
  max_mem : ρ
  health_check_path : String
  health_check_port : Int
  max_surge : String
  max_unavailable : String
  readiness_initial_delay_seconds : Int
  readiness_period_seconds : Int
  readiness_timeout_seconds : Int
  readiness_success_threshold : Int
  readiness_failure_threshold : Int
  liveness_initial_delay_seconds : Int
  liveness_period_seconds : Int
  liveness_timeout_seconds : Int
  liveness_success_threshold : Int
  liveness_failure_threshold : Int
  container_port_name : String
  container_port_number : Int
  termination_grace : Int
  container_envs : List ContainerEnv
  node_selector : List Label

/-- A call `v, err := f(...)` followed by `if err != nil { return nil, err }`. -/
def orReturn {α : Type} (r : Except Api.GoError α) : Api.Outcome α :=
  match r with
  | .ok a => .ok a
  | .error e => .err e

/-- The command of a lifecycle hook, `hook.Exec.Command`, through its two pointers. -/
def hookCommand (hook : Option Apiv1.Handler) : Api.Outcome (List String) :=
  (Api.deref hook).bind fun handler =>
  (Api.deref handler.Exec).bind fun exec => .ok exec.Command

/-- `func DeserializeDeployment(b []byte) (mp map[string]interface{}, err error)`, given the
result `decoded` of decoding `b` into an `appsv1.Deployment`. The entries of
`node_selector` come from a `range` over a map, whose order Go does not fix; they are
given in the order of the entries of the map. -/
def DeserializeDeployment {ρ : Type} (env : DeploymentEnv ρ)
    (decoded : Except Api.GoError Appsv1.Deployment) : Api.Outcome (DeploymentFields ρ) :=
  match decoded with
  | .error e => .err e
  | .ok dpl =>
    (Api.index dpl.Template.Containers 0).bind fun first =>
    let containerEnvs : List ContainerEnv :=
      (first.Env.filter fun envVar => !Contains defaultEnvKeys envVar.Name).map
        fun envVar => ⟨envVar.Name, envVar.Value⟩
    let retainNodeSelector : List Label :=
      dpl.Template.NodeSelector.map fun kv => ⟨kv.1, kv.2⟩
    (Api.index dpl.Template.Containers 0).bind fun container =>
    let minCpu := (container.Resources.Requests.quantity "cpu").text
    let minMem := (container.Resources.Requests.quantity "memory").text
    let maxCpu := (container.Resources.Limits.quantity "cpu").text
    let maxMem := (container.Resources.Limits.quantity "memory").text
    (orReturn (env.customUnitGiInter minCpu)).bind fun minCpuFloat =>
    (orReturn (env.customUnitGiInter minMem)).bind fun minMemFloat =>
    (orReturn (env.customUnitGiInter maxCpu)).bind fun maxCpuFloat =>
    (orReturn (env.customUnitGiInter maxMem)).bind fun maxMemFloat =>
    (Api.index container.Command 2).bind fun startCmd =>
    (Api.deref container.Lifecycle).bind fun lifecycle =>
    (hookCommand lifecycle.PreStop).bind fun preStopCommand =>
    (Api.index preStopCommand 2).bind fun preStop =>
    (hookCommand lifecycle.PostStart).bind fun postStartCommand =>
    (Api.index postStartCommand 2).bind fun postStart =>
    (Api.deref container.ReadinessProbe).bind fun readiness =>
    (Api.deref readiness.HTTPGet).bind fun httpGet =>
    (Api.deref dpl.RollingUpdate).bind fun rollingUpdate =>
    (Api.deref rollingUpdate.MaxSurge).bind fun maxSurge =>
    (Api.deref rollingUpdate.MaxUnavailable).bind fun maxUnavailable =>
    (Api.deref container.LivenessProbe).bind fun liveness =>
    (Api.index container.Ports 0).bind fun port =>
    (Api.deref dpl.Template.TerminationGracePeriodSeconds).bind fun terminationGrace =>
      .ok
        { name := dpl.Name
          start_cmd := startCmd
          pre_stop := preStop
          post_start := postStart
          min_cpu := minCpuFloat
          min_mem := minMemFloat
          max_cpu := maxCpuFloat
          max_mem := maxMemFloat
          health_check_path := httpGet.Path
          health_check_port := httpGet.Port.IntVal
          max_surge := env.intstrString maxSurge
          max_unavailable := env.intstrString maxUnavailable
          readiness_initial_delay_seconds := readiness.InitialDelaySeconds
          readiness_period_seconds := readiness.PeriodSeconds
          readiness_timeout_seconds := readiness.TimeoutSeconds
          readiness_success_threshold := readiness.SuccessThreshold
          readiness_failure_threshold := readiness.FailureThreshold
          liveness_initial_delay_seconds := liveness.InitialDelaySeconds
          liveness_period_seconds := liveness.PeriodSeconds
          liveness_timeout_seconds := liveness.TimeoutSeconds
          liveness_success_threshold := liveness.SuccessThreshold
          liveness_failure_threshold := liveness.FailureThreshold
          container_port_name := port.Name
          container_port_number := port.ContainerPort
          termination_grace := terminationGrace
          container_envs := containerEnvs
          node_selector := retainNodeSelector }

/-- Stand-ins for what `render` and `DeserializeDeployment` take from outside, used to run
them on examples: every quantity string parses to itself, every memory quantity has the
text `mem`, an `IntOrString` is a string, and `CustomUnitGiInter` returns its argument. -/
def exampleDeploymentEnv : DeploymentEnv String :=
  { now := "2024-01-01 00:00:00"
    mustParse := fun s => some ⟨s⟩
    newQuantity := fun _ => ⟨"mem"⟩
    intstrParse := fun s => ⟨1, 0, s⟩
    intstrString := fun v => v.StrVal
    customUnitGiInter := fun s => .ok s }

/-- A deployment with one container port and two environment variables of the user, one of
which is named `TIME`. -/
def exampleDeployment : deployment :=
  { Name := "shop"
    ProjectEnv := "prod"
    StartCommand := "java -jar app.jar"
    PostStart := "true"
    PreStop := "sleep 5"
    MinMem := 256
    MaxMem := 512
    MinCpu := "250m"
    MaxCpu := "500m"
    MaxSurge := "25%"
    MaxUnavailable := "0"
    HealthCheckPath := "/healthz"
    HealthCheckPort := 8080
    TerminationGrace := 30
    ContainerPorts := [⟨"http", 8080⟩]
    ReadinessInitialDelaySeconds := 5
    ReadinessPeriodSeconds := 10
    ReadinessTimeoutSeconds := 1
    ReadinessSuccessThreshold := 1
    ReadinessFailureThreshold := 3
    LivenessInitialDelaySeconds := 5
    LivenessPeriodSeconds := 10
    LivenessTimeoutSeconds := 1
    LivenessSuccessThreshold := 1
    LivenessFailureThreshold := 3
    ContainerEnvs := [⟨"JAVA_OPTS", "-Xmx1g"⟩, ⟨"TIME", "UTC"⟩]
    NodeSelector := [⟨"disk", "ssd"⟩] }

/-- The entry `container_envs` of the map `DeserializeDeployment` returns on the manifest
rendered from `deploy`; `none` when rendering or reading back fails or panics. -/
def renderedContainerEnvs {ρ : Type} (env : DeploymentEnv ρ) (deploy : deployment) :
    Option (List ContainerEnv) :=
  match deploy.render env with
  | .ok rendered =>
    match DeserializeDeployment env (.ok rendered) with
    | .ok mp => some mp.container_envs
    | .err _ => none
    | .panic _ => none
  | .err _ => none
  | .panic _ => none

end Kind

namespace Api

/-! ## General facts about the embedding -/

theorem copy_fst (dst src : Bytes) : (copy dst src).1 = min dst.length src.length := rfl

theorem copy_snd (dst src : Bytes) :
    (copy dst src).2 = src.take (min dst.length src.length) ++ dst.drop (min dst.length src.length) := rfl

theorem copy_length (dst src : Bytes) : (copy dst src).2.length = dst.length := by
  simp only [copy_snd, List.length_append, List.length_take, List.length_drop]
  omega

theorem copy_take (dst src : Bytes) :
    (copy dst src).2.take (copy dst src).1 = src.take (copy dst src).1 := by
  simp only [copy_fst, copy_snd]
  rw [List.take_append_of_le_length (by simp), List.take_take, min_self]

theorem copy_drop (dst src : Bytes) :
    (copy dst src).2.drop (copy dst src).1 = dst.drop (copy dst src).1 := by
  simp only [copy_fst, copy_snd]
  rw [List.drop_append_of_le_length (by simp)]
  rw [List.drop_eq_nil_of_le (by simp), List.nil_append]

/-- The deferred send with the slot free: the call returns and the slot holds `n`. -/
theorem postReadNum_free (v : ReadValues) (hv : v.term.Valid) (hb : v.term.readNum.buf = []) :
    WebTerminal.postReadNum v =
      .returned { v with term := { v.term with readNum := { v.term.readNum with buf := [v.n] } } } := by
  obtain ⟨hcap, hcl⟩ := hv
  simp [WebTerminal.postReadNum, Chan.send, hcap, hcl, hb]

/-- The deferred send with the slot occupied: the call waits. -/
theorem postReadNum_occupied (v : ReadValues) (hv : v.term.Valid) (hb : v.term.readNum.buf ≠ []) :
    WebTerminal.postReadNum v = .awaitingSlot v := by
  obtain ⟨hcap, hcl⟩ := hv
  have hlen : ¬ v.term.readNum.buf.length < 1 := by
    cases h : v.term.readNum.buf with
    | nil => exact absurd h hb
    | cons x xs => simp
  simp [WebTerminal.postReadNum, Chan.send, hcap, hcl, hlen]

/-- The deferred send never touches anything but `readNum`. -/
theorem postReadNum_returned (v v' : ReadValues) (h : WebTerminal.postReadNum v = .returned v') :
    v'.n = v.n ∧ v'.err = v.err ∧ v'.p = v.p ∧ v'.term.canClose = v.term.canClose ∧
      v'.term.conn = v.term.conn ∧ v'.term.err = v.term.err ∧ v'.term.size = v.term.size ∧
      v'.term.timeout = v.term.timeout ∧ v'.term.readNum.cap = v.term.readNum.cap ∧
      v'.term.readNum.closed = v.term.readNum.closed := by
  unfold WebTerminal.postReadNum Chan.send at h
  split_ifs at h
  all_goals simp at h
  subst h
  simp

theorem postReadNum_awaiting (v v' : ReadValues) (h : WebTerminal.postReadNum v = .awaitingSlot v') :
    v' = v := by
  unfold WebTerminal.postReadNum Chan.send at h
  split_ifs at h
  all_goals simp at h
  exact h.symm

/-- On a session that is not closing, `Read` takes the next inbound message and runs the
branch that message selects, ending in the deferred function. -/
theorem Read_open (a : WebTerminal) (p : Bytes) (m : Inbound) (rest : List Inbound)
    (hc : a.canClose = false) (hin : a.conn.inbound = m :: rest) :
    a.Read p =
      (let a1 : WebTerminal := { a with conn := { a.conn with inbound := rest, reads := a.conn.reads + 1 } }
       if m.messageType = CloseMessage then
         a1.readDeferred 0 (some (errorsNew "websocket CloseMessage 8")) p
       else if m.data = stringBytes healthCheck then a1.readDeferred 0 none p
       else if m.err ≠ none then
         a1.readDeferred (copy p (stringBytes END_OF_TRANSMISSION)).1 m.err
           (copy p (stringBytes END_OF_TRANSMISSION)).2
       else a1.readDeferred (copy p m.data).1 m.err (copy p m.data).2) := by
  simp [WebTerminal.Read, hc, Conn.ReadMessage, hin]

/-- Every way `Read` can end leaves `canClose`, `size`, `timeout` and the shape of
`readNum` as they were. -/
theorem Read_frame (a : WebTerminal) (p : Bytes) (v : ReadValues)
    (h : a.Read p = .returned v ∨ a.Read p = .awaitingSlot v) :
    v.term.canClose = a.canClose ∧ v.term.size = a.size ∧ v.term.timeout = a.timeout ∧
      v.term.readNum.cap = a.readNum.cap ∧ v.term.readNum.closed = a.readNum.closed := by
  have key : ∀ (a1 : WebTerminal) (n : Nat) (e : Option GoError) (q : Bytes),
      (a1.readDeferred n e q = .returned v ∨ a1.readDeferred n e q = .awaitingSlot v) →
      v.term.canClose = a1.canClose ∧ v.term.size = a1.size ∧ v.term.timeout = a1.timeout ∧
        v.term.readNum.cap = a1.readNum.cap ∧ v.term.readNum.closed = a1.readNum.closed := by
    intro a1 n e q hq
    unfold WebTerminal.readDeferred at hq
    rcases hq with hq | hq
    · have := postReadNum_returned _ _ hq
      simp at this
      simp [this]
    · have := postReadNum_awaiting _ _ hq
      subst this
      simp
  unfold WebTerminal.Read at h
  by_cases hc : a.canClose = true
  · simp [hc] at h
    subst h
    simp [hc]
  · simp [hc] at h
    cases hr : a.conn.ReadMessage with
    | none => simp [hr] at h
    | some r =>
      obtain ⟨m, conn1⟩ := r
      simp only [hr] at h
      split_ifs at h
      all_goals
        have := key _ _ _ _ h
        have hf : a.canClose = false := by simpa using hc
        rw [hf]
        exact this

theorem Write_frame (a : WebTerminal) (p : Bytes) :
    (a.Write p).term.canClose = a.canClose ∧ (a.Write p).term.err = a.err ∧
      (a.Write p).term.readNum = a.readNum ∧ (a.Write p).term.timeout = a.timeout ∧
      (a.Write p).term.size = a.size := by
  simp [WebTerminal.Write]

theorem Next_frame (a a' : WebTerminal) (v : Option TerminalSize) (h : a.Next = .done (v, a')) :
    a'.canClose = a.canClose ∧ a'.err = a.err ∧ a'.readNum = a.readNum ∧
      a'.timeout = a.timeout ∧ a'.conn = a.conn := by
  unfold WebTerminal.Next at h
  split at h
  · simp at h
  · simp at h
  · split at h
    · simp at h
      obtain ⟨-, rfl⟩ := h
      simp
    · simp at h
    · simp at h
  · simp at h
    obtain ⟨-, rfl⟩ := h
    simp

theorem watchRead_readNum (a a' : WebTerminal) (h : a.watchRead .readNum = some a') :
    a'.canClose = a.canClose ∧ a'.err = a.err ∧ a'.timeout = a.timeout ∧ a'.conn = a.conn ∧
      a'.size = a.size ∧ a'.readNum.cap = a.readNum.cap ∧
      a'.readNum.closed = a.readNum.closed ∧ a'.readNum.buf = a.readNum.buf.tail := by
  simp only [WebTerminal.watchRead] at h
  split at h
  · rename_i x ch hr
    simp at h
    subst h
    unfold Chan.recv at hr
    split at hr
    · simp at hr
      obtain ⟨-, rfl⟩ := hr
      simp [*]
    · split_ifs at hr
      simp at hr
      obtain ⟨-, rfl⟩ := hr
      simp [*]
  · simp at h
  · simp at h

/-- No step of the session clears `canClose`. -/
theorem step_canClose (s s' : System) (e : Event) (h : s.step e = some s')
    (hc : s.term.canClose = true) : s'.term.canClose = true := by
  cases e with
  | tick d => simp [System.step] at h; subst h; exact hc
  | wdArm =>
    simp only [System.step] at h
    split at h
    · simp at h; subst h; exact hc
    · simp at h
  | wdTimeout =>
    simp only [System.step] at h
    split at h
    · split_ifs at h
      simp [WebTerminal.watchRead] at h
      subst h; rfl
    · simp at h
  | wdSignal =>
    simp only [System.step] at h
    split at h
    · simp only [Option.map_eq_some'] at h
      obtain ⟨t, ht, rfl⟩ := h
      simp [(watchRead_readNum _ _ ht).1, hc]
    · simp at h
  | wdCheck =>
    simp only [System.step] at h
    split at h
    · split_ifs at h
      all_goals simp at h
      all_goals subst h
      all_goals exact hc
    · simp at h
  | read p =>
    simp only [System.step] at h
    split at h
    · simp at h
    · split at h
      · rename_i v hr
        simp at h; subst h
        simp [(Read_frame _ _ _ (Or.inl hr)).1, hc]
      · rename_i v hr
        simp at h; subst h
        simp [(Read_frame _ _ _ (Or.inr hr)).1, hc]
      · simp at h
      · simp at h
  | readResume =>
    simp only [System.step] at h
    split at h
    · simp at h
    · split at h
      · rename_i r v hr
        simp at h; subst h
        have := (postReadNum_returned _ _ hr).2.2.2.1
        simp at this
        simp [this, hc]
      · simp at h
  | write p =>
    simp [System.step] at h; subst h
    simp [(Write_frame _ _).1, hc]
  | next =>
    simp only [System.step] at h
    split at h
    · rename_i v t hn
      simp at h; subst h
      simp [(Next_frame _ _ _ hn).1, hc]
    · simp at h
    · simp at h

/-- Every step keeps `readNum` an open channel of capacity 1. -/
theorem step_valid (s s' : System) (e : Event) (h : s.step e = some s')
    (hv : s.term.Valid) : s'.term.Valid := by
  unfold WebTerminal.Valid at hv ⊢
  cases e with
  | tick d => simp [System.step] at h; subst h; exact hv
  | wdArm =>
    simp only [System.step] at h
    split at h
    · simp at h; subst h; exact hv
    · simp at h
  | wdTimeout =>
    simp only [System.step] at h
    split at h
    · split_ifs at h
      simp [WebTerminal.watchRead] at h
      subst h; exact hv
    · simp at h
  | wdSignal =>
    simp only [System.step] at h
    split at h
    · simp only [Option.map_eq_some'] at h
      obtain ⟨t, ht, rfl⟩ := h
      have := watchRead_readNum _ _ ht
      simp [this, hv]
    · simp at h
  | wdCheck =>
    simp only [System.step] at h
    split at h
    · split_ifs at h
      all_goals simp at h
      all_goals subst h
      all_goals exact hv
    · simp at h
  | read p =>
    simp only [System.step] at h
    split at h
    · simp at h
    · split at h
      · rename_i v hr
        simp at h; subst h
        have := Read_frame _ _ _ (Or.inl hr)
        simp [this, hv]
      · rename_i v hr
        simp at h; subst h
        have := Read_frame _ _ _ (Or.inr hr)
        simp [this, hv]
      · simp at h
      · simp at h
  | readResume =>
    simp only [System.step] at h
    split at h
    · simp at h
    · split at h
      · rename_i r v hr
        simp at h; subst h
        have := postReadNum_returned _ _ hr
        simp at this
        simp [this, hv]
      · simp at h
  | write p =>
    simp [System.step] at h; subst h
    simp [(Write_frame _ _).2.2.1, hv]
  | next =>
    simp only [System.step] at h
    split at h
    · rename_i v t hn
      simp at h; subst h
      simp [(Next_frame _ _ _ hn).2.2.1, hv]
    · simp at h
    · simp at h

/-- Every state a session reaches satisfies `WebTerminal.Valid`. -/
theorem System.run_valid (conn : Conn) (w h : UInt16) (now : Nat) (es : List Event)
    (s0 s : System) (h0 : System.start conn w h now = some s0) (hr : s0.run es = some s) :
    s.term.Valid := by
  have hv0 : s0.term.Valid := by
    simp [System.start, NewWebTerminal, Chan.send, Chan.make] at h0
    subst h0
    simp [WebTerminal.Valid, Chan.make]
  clear h0
  induction es generalizing s0 with
  | nil => simp [System.run] at hr; subst hr; exact hv0
  | cons e es ih =>
    simp only [System.run, Option.bind_eq_some] at hr
    obtain ⟨s1, h1, h2⟩ := hr
    exact ih s1 h2 (step_valid _ _ _ h1 hv0)

theorem run_canClose (s s' : System) (es : List Event) (hrun : s.run es = some s')
    (hc : s.term.canClose = true) : s'.term.canClose = true := by
  induction es generalizing s with
  | nil => simp [System.run] at hrun; subst hrun; exact hc
  | cons e es ih =>
    simp only [System.run, Option.bind_eq_some] at hrun
    obtain ⟨s1, h1, h2⟩ := hrun
    exact ih s1 h2 (step_canClose _ _ _ h1 hc)

/-- The deferred function of `Read` on a valid session: with the slot empty it stores `err`,
posts `n` and the call returns; with the slot occupied it stores `err` and the call waits. -/
theorem readDeferred_cases (a : WebTerminal) (n : Nat) (e : Option GoError) (q : Bytes)
    (hv : a.Valid) :
    (a.readNum.buf = [] ∧
        a.readDeferred n e q =
          .returned ⟨n, e, q, { a with err := e, readNum := { a.readNum with buf := [n] } }⟩) ∨
      (a.readNum.buf ≠ [] ∧ a.readDeferred n e q = .awaitingSlot ⟨n, e, q, { a with err := e }⟩) := by
  by_cases hb : a.readNum.buf = []
  · left
    refine ⟨hb, ?_⟩
    unfold WebTerminal.readDeferred
    rw [postReadNum_free _ hv hb]
  · right
    refine ⟨hb, ?_⟩
    unfold WebTerminal.readDeferred
    rw [postReadNum_occupied _ hv hb]

/-- Whatever way the deferred function ends, the results are the ones handed to it and the
session records the error result. -/
theorem readDeferred_values (a : WebTerminal) (n : Nat) (e : Option GoError) (q : Bytes)
    (v : ReadValues)
    (h : a.readDeferred n e q = .returned v ∨ a.readDeferred n e q = .awaitingSlot v) :
    v.n = n ∧ v.err = e ∧ v.p = q ∧ v.term.err = e := by
  unfold WebTerminal.readDeferred at h
  rcases h with h | h
  · have := postReadNum_returned _ _ h
    simp at this
    simp [this]
  · have := postReadNum_awaiting _ _ h
    subst this
    simp

/-- The error result of a `Read` that received the message `m`. -/
theorem Read_open_err (a : WebTerminal) (p : Bytes) (m : Inbound) (rest : List Inbound)
    (v : ReadValues) (hc : a.canClose = false) (hin : a.conn.inbound = m :: rest)
    (h : a.Read p = .returned v ∨ a.Read p = .awaitingSlot v) :
    v.term.err = v.err ∧
      v.err =
        if m.messageType = CloseMessage then some (errorsNew "websocket CloseMessage 8")
        else if m.data = stringBytes healthCheck then none
        else m.err := by
  rw [Read_open a p m rest hc hin] at h
  simp only at h
  split_ifs at h with h1 h2 h3
  all_goals
    have hv := readDeferred_values _ _ _ _ _ h
    refine ⟨hv.2.2.2.trans hv.2.1.symm, ?_⟩
    simp [hv.2.1, h1]
  all_goals simp [h2]

theorem stringBytes_END_OF_TRANSMISSION : stringBytes END_OF_TRANSMISSION = [4] := by decide

theorem run_append (s : System) (es fs : List Event) :
    s.run (es ++ fs) = (s.run es).bind fun s1 => s1.run fs := by
  induction es generalizing s with
  | nil => simp [System.run]
  | cons e es ih =>
    simp only [List.cons_append, System.run]
    cases s.step e with
    | none => simp
    | some s1 => simpa using ih s1

/-! ## Sessions on a conforming connection -/

theorem real_not_close (m : Inbound) (h : m.Real) : m.messageType ≠ CloseMessage := by
  rcases h with h | h | ⟨h, -, -⟩ <;> rw [h] <;> decide

/-- The first result of a conforming connection, and what is left after it. -/
theorem conforms_cons (c : Conn) (m : Inbound) (rest : List Inbound) (h : c.Conforms)
    (hin : c.inbound = m :: rest) :
    m.Real ∧ (∀ m' ∈ rest, m.err = none ∨ m' = ⟨noFrame, [], m.err⟩) ∧
      ∀ c' : Conn, c'.inbound = rest → c'.Conforms := by
  obtain ⟨h1, h2⟩ := h
  rw [hin] at h1 h2
  rw [List.pairwise_cons] at h2
  refine ⟨h1 m (List.mem_cons_self _ _), h2.1, ?_⟩
  intro c' hc'
  refine ⟨?_, ?_⟩
  · rw [hc']
    intro m' hm'
    exact h1 m' (List.mem_cons_of_mem _ hm')
  · rw [hc']
    exact h2.2

/-- A completed deferred send leaves at most the one signal in the slot. -/
theorem postReadNum_slot (v v' : ReadValues) (h : WebTerminal.postReadNum v = .returned v') :
    v'.term.readNum.buf.length ≤ v.term.readNum.cap := by
  unfold WebTerminal.postReadNum Chan.send at h
  split_ifs at h with h1 h2
  all_goals simp at h
  subst h
  simp
  omega

/-- No step takes back a result a `Read` has returned. -/
theorem step_returns (s s' : System) (e : Event) (h : s.step e = some s') :
    ∃ l, s'.returns = s.returns ++ l := by
  cases e with
  | tick d => simp [System.step] at h; subst h; exact ⟨[], by simp⟩
  | wdArm =>
    simp only [System.step] at h
    split at h
    · simp at h; subst h; exact ⟨[], by simp⟩
    · simp at h
  | wdTimeout =>
    simp only [System.step] at h
    split at h
    · split_ifs at h
      simp [WebTerminal.watchRead] at h
      subst h; exact ⟨[], by simp⟩
    · simp at h
  | wdSignal =>
    simp only [System.step] at h
    split at h
    · simp only [Option.map_eq_some'] at h
      obtain ⟨t, -, rfl⟩ := h
      exact ⟨[], by simp⟩
    · simp at h
  | wdCheck =>
    simp only [System.step] at h
    split at h
    · split_ifs at h
      all_goals simp at h
      all_goals subst h
      all_goals exact ⟨[], by simp⟩
    · simp at h
  | read p =>
    simp only [System.step] at h
    split at h
    · simp at h
    · split at h
      · simp at h; subst h; exact ⟨_, rfl⟩
      · simp at h; subst h; exact ⟨[], by simp⟩
      · simp at h
      · simp at h
  | readResume =>
    simp only [System.step] at h
    split at h
    · simp at h
    · split at h
      · simp at h; subst h; exact ⟨_, rfl⟩
      · simp at h
  | write p => simp [System.step] at h; subst h; exact ⟨[], by simp⟩
  | next =>
    simp only [System.step] at h
    split at h
    · simp at h; subst h; exact ⟨[], by simp⟩
    · simp at h
    · simp at h

theorem run_returns (s s' : System) (es : List Event) (h : s.run es = some s') :
    ∃ l, s'.returns = s.returns ++ l := by
  induction es generalizing s with
  | nil => simp [System.run] at h; subst h; exact ⟨[], by simp⟩
  | cons e es ih =>
    simp only [System.run, Option.bind_eq_some] at h
    obtain ⟨s1, h1, h2⟩ := h
    obtain ⟨l1, hl1⟩ := step_returns s s1 e h1
    obtain ⟨l2, hl2⟩ := ih s1 h2
    exact ⟨l1 ++ l2, by rw [hl2, hl1, List.append_assoc]⟩

/-- A step that leaves the activity channel, the recorded error, the results still to come
and the waiting `Read` as they were, and does not end the watchdog unless an error is
recorded, keeps the session sound. -/
theorem sound_of_frame (s s' : System) (hs : s.Sound)
    (hrn : s'.term.readNum = s.term.readNum)
    (hin : s'.term.conn.inbound = s.term.conn.inbound) (herr : s'.term.err = s.term.err)
    (hpk : s'.parked = s.parked)
    (hwd : s'.watchdog = .stopped → s.watchdog = .stopped ∨ s.term.err ≠ none) : s'.Sound := by
  obtain ⟨hv, hl, hg, hst, hf, hp⟩ := hs
  refine ⟨?_, ?_, ?_, ?_, ?_, ?_⟩
  · simpa [WebTerminal.Valid, hrn] using hv
  · simpa [hrn] using hl
  · exact ⟨by rw [hin]; exact hg.1, by rw [hin]; exact hg.2⟩
  · intro h
    rw [herr]
    rcases hwd h with h' | h'
    · exact hst h'
    · exact h'
  · rw [hin, herr]; exact hf
  · rw [hpk, herr]; exact hp

/-- What a `Read` on a conforming connection hands to its deferred function: the branch for
the close frame is never taken, and the error result is nil or the error of the result read. -/
theorem Read_conforming (a : WebTerminal) (p : Bytes) (m : Inbound) (rest : List Inbound)
    (hc : a.canClose = false) (hin : a.conn.inbound = m :: rest) (hreal : m.Real) :
    ∃ n eb q,
      a.Read p = WebTerminal.readDeferred
        { a with conn := { a.conn with inbound := rest, reads := a.conn.reads + 1 } } n eb q ∧
      (eb = none ∨ eb = m.err) ∧ (m.data ≠ stringBytes healthCheck → eb = m.err) := by
  have hnc := real_not_close m hreal
  rw [Read_open a p m rest hc hin]
  simp only [hnc, if_false]
  by_cases h2 : m.data = stringBytes healthCheck
  · exact ⟨0, none, p, by simp [h2], Or.inl rfl, fun h => absurd h2 h⟩
  · by_cases h3 : m.err ≠ none
    · exact ⟨(copy p (stringBytes END_OF_TRANSMISSION)).1, m.err,
        (copy p (stringBytes END_OF_TRANSMISSION)).2, by simp [h2, h3], Or.inr rfl, fun _ => rfl⟩
    · exact ⟨(copy p m.data).1, m.err, (copy p m.data).2, by simp [h2, h3], Or.inr rfl,
        fun _ => rfl⟩

theorem readFailure_not_heartbeat : ([] : Bytes) ≠ stringBytes healthCheck := by decide

/-- Every step keeps a session on a conforming connection sound. -/
theorem step_sound (s s' : System) (e : Event) (h : s.step e = some s') (hs : s.Sound) :
    s'.Sound := by
  cases e with
  | tick d =>
    simp [System.step] at h; subst h
    exact sound_of_frame _ _ hs rfl rfl rfl rfl (fun h => Or.inl h)
  | wdArm =>
    simp only [System.step] at h
    split at h
    · simp at h; subst h
      exact sound_of_frame _ _ hs rfl rfl rfl rfl (fun h => by simp at h)
    · simp at h
  | wdTimeout =>
    simp only [System.step] at h
    split at h
    · split_ifs at h
      simp [WebTerminal.watchRead] at h
      subst h
      exact sound_of_frame _ _ hs rfl rfl rfl rfl (fun h => by simp at h)
    · simp at h
  | wdSignal =>
    simp only [System.step] at h
    split at h
    · simp only [Option.map_eq_some'] at h
      obtain ⟨t, ht, rfl⟩ := h
      obtain ⟨-, herr, -, hconn, -, hcap, hcl, hbuf⟩ := watchRead_readNum _ _ ht
      obtain ⟨hv, hl, hg, hst, hf, hp⟩ := hs
      refine ⟨⟨hcap.trans hv.1, hcl.trans hv.2⟩, ?_, ?_, ?_, ?_, ?_⟩
      · simp only [hbuf, List.length_tail]
        omega
      · simp only [hconn]; exact hg
      · intro h; simp at h
      · simp only [hconn, herr]; exact hf
      · simp only [herr]; exact hp
    · simp at h
  | wdCheck =>
    simp only [System.step] at h
    split at h
    · split_ifs at h with herr
      · simp at h; subst h
        exact sound_of_frame _ _ hs rfl rfl rfl rfl (fun _ => Or.inr herr)
      · simp at h; subst h
        exact sound_of_frame _ _ hs rfl rfl rfl rfl (fun h => by simp at h)
    · simp at h
  | read p =>
    simp only [System.step] at h
    split at h
    · simp at h
    · rename_i hpk
      cases hc : s.term.canClose with
      | true =>
        simp [WebTerminal.Read, hc, Conn.WriteMessage] at h
        subst h
        exact sound_of_frame _ _ hs rfl rfl rfl rfl (fun h => Or.inl h)
      | false =>
        cases hin : s.term.conn.inbound with
        | nil => simp [WebTerminal.Read, hc, Conn.ReadMessage, hin] at h
        | cons m rest =>
          obtain ⟨hv, hl, hg, hst, hf, hp⟩ := hs
          obtain ⟨hreal, hperm, hconf⟩ := conforms_cons _ m rest hg hin
          obtain ⟨n, eb, q, hrd, heb, hebh⟩ := Read_conforming s.term p m rest hc hin hreal
          have hv1 : WebTerminal.Valid
              { s.term with conn := { s.term.conn with inbound := rest, reads := s.term.conn.reads + 1 } } := hv
          have hstop : s.watchdog = .stopped → eb ≠ none := by
            intro hw
            have hne := hst hw
            rcases hf m (by rw [hin]; exact List.mem_cons_self _ _) with h0 | h0
            · exact absurd h0 hne
            · have hd : m.data ≠ stringBytes healthCheck := by
                rw [h0]; exact readFailure_not_heartbeat
              rw [hebh hd, h0]
              exact hne
          have hrest : ∀ m' ∈ rest, eb = none ∨ m' = ⟨noFrame, [], eb⟩ := by
            intro m' hm'
            rcases heb with h0 | h0
            · exact Or.inl h0
            · rw [h0]; exact hperm m' hm'
          rw [hrd] at h
          rcases readDeferred_cases _ n eb q hv1 with ⟨hb, hcase⟩ | ⟨hb, hcase⟩
          · rw [hcase] at h
            simp at h; subst h
            exact ⟨⟨hv.1, hv.2⟩, by simp, hconf _ rfl, hstop, hrest, by simp [hpk]⟩
          · rw [hcase] at h
            simp at h; subst h
            exact ⟨⟨hv.1, hv.2⟩, hl, hconf _ rfl, hstop, hrest, by simp⟩
  | readResume =>
    simp only [System.step] at h
    split at h
    · simp at h
    · split at h
      · rename_i r hpk v hr
        simp at h; subst h
        obtain ⟨hv, hl, hg, hst, hf, hp⟩ := hs
        have hfr := postReadNum_returned _ _ hr
        have hsl := postReadNum_slot _ _ hr
        simp only at hfr hsl
        obtain ⟨-, -, -, -, hconn, herr, -, -, hcap, hcl⟩ := hfr
        refine ⟨⟨hcap.trans hv.1, hcl.trans hv.2⟩, ?_, ?_, ?_, ?_, by simp⟩
        · simpa [hv.1] using hsl
        · simp only [hconn]; exact hg
        · simp only [herr]; exact hst
        · simp only [hconn, herr]; exact hf
      · simp at h
  | write p =>
    simp [System.step] at h; subst h
    exact sound_of_frame _ _ hs rfl rfl rfl rfl (fun h => Or.inl h)
  | next =>
    simp only [System.step] at h
    split at h
    · rename_i v t hn
      simp at h; subst h
      obtain ⟨-, herr, hrn, -, hconn⟩ := Next_frame _ _ _ hn
      exact sound_of_frame _ _ hs hrn (by simp [hconn]) herr rfl (fun h => Or.inl h)
    · simp at h
    · simp at h

theorem run_sound (s s' : System) (es : List Event) (h : s.run es = some s') (hs : s.Sound) :
    s'.Sound := by
  induction es generalizing s with
  | nil => simp [System.run] at h; subst h; exact hs
  | cons e es ih =>
    simp only [System.run, Option.bind_eq_some] at h
    obtain ⟨s1, h1, h2⟩ := h
    exact ih s1 h2 (step_sound _ _ _ h1 hs)

/-- The session `NewWebTerminal` makes on a conforming connection is sound. -/
theorem start_sound (conn : Conn) (w h : UInt16) (now : Nat) (s0 : System)
    (hg : conn.Conforms) (h0 : System.start conn w h now = some s0) : s0.Sound := by
  simp [System.start, NewWebTerminal, Chan.send, Chan.make] at h0
  subst h0
  exact ⟨by simp [WebTerminal.Valid, Chan.make], by simp [Chan.make], hg, by simp, by simp,
    by simp⟩

/-- Every state a session on a conforming connection reaches is sound. -/
theorem reach_sound (conn : Conn) (w h : UInt16) (now : Nat) (es : List Event) (s0 s : System)
    (hg : conn.Conforms) (h0 : System.start conn w h now = some s0) (hr : s0.run es = some s) :
    s.Sound :=
  run_sound s0 s es hr (start_sound conn w h now s0 hg h0)

/-- While the watchdog is running and no error is recorded, a `Read` waiting in its deferred
send is let through by steps of the watchdog and of the call alone. -/
theorem handoff_completes (s : System) (r : ReadReturn) (hv : s.term.Valid)
    (hl : s.term.readNum.buf.length ≤ 1) (he : s.term.err = none) (hw : s.watchdog ≠ .stopped)
    (hp : s.parked = some r) :
    ∃ ws s', (∀ e ∈ ws, e.handoff = true) ∧ s.run ws = some s' ∧ s'.parked = none ∧
      s'.returns = s.returns ++ [r] ∧ s'.term.conn = s.term.conn ∧
      s'.term.canClose = s.term.canClose := by
  obtain ⟨term, now, wd, parked, returns⟩ := s
  obtain ⟨conn, size, timeout, readNum, canClose, err⟩ := term
  obtain ⟨buf, cap, closed⟩ := readNum
  obtain ⟨hcap, hcl⟩ := hv
  simp only at hcap hcl hl he hw hp
  subst hcap hcl he hp
  cases buf with
  | nil =>
    refine ⟨[.readResume], ?_⟩
    simp [System.run, System.step, WebTerminal.postReadNum, Chan.send, Event.handoff]
  | cons x xs =>
    cases xs with
    | cons y ys => simp at hl
    | nil =>
      cases wd with
      | loopTop =>
        refine ⟨[.wdArm, .wdSignal, .readResume], ?_⟩
        simp [System.run, System.step, WebTerminal.postReadNum, Chan.send, Event.handoff,
          WebTerminal.watchRead, Chan.recv]
      | selecting d =>
        refine ⟨[.wdSignal, .readResume], ?_⟩
        simp [System.run, System.step, WebTerminal.postReadNum, Chan.send, Event.handoff,
          WebTerminal.watchRead, Chan.recv]
      | check =>
        refine ⟨[.wdCheck, .wdArm, .wdSignal, .readResume], ?_⟩
        simp [System.run, System.step, WebTerminal.postReadNum, Chan.send, Event.handoff,
          WebTerminal.watchRead, Chan.recv]
      | stopped => exact absurd rfl hw

/-- While a `Read` waits in its deferred send with no error recorded and the watchdog
running, a step of the session either completes that call or leaves all this as it is. -/
theorem waiting_step (s s' : System) (e : Event) (r : ReadReturn) (h : s.step e = some s')
    (hp : s.parked = some r) (he : s.term.err = none) (hw : s.watchdog ≠ .stopped) :
    (s'.parked = none ∧ s'.returns = s.returns ++ [r]) ∨
      (s'.parked = some r ∧ s'.returns = s.returns ∧ s'.term.err = none ∧
        s'.watchdog ≠ .stopped) := by
  cases e with
  | tick d => simp [System.step] at h; subst h; exact Or.inr ⟨hp, rfl, he, hw⟩
  | wdArm =>
    simp only [System.step] at h
    split at h
    · simp at h; subst h; exact Or.inr ⟨hp, rfl, he, by simp⟩
    · simp at h
  | wdTimeout =>
    simp only [System.step] at h
    split at h
    · split_ifs at h
      simp [WebTerminal.watchRead] at h
      subst h; exact Or.inr ⟨hp, rfl, he, by simp⟩
    · simp at h
  | wdSignal =>
    simp only [System.step] at h
    split at h
    · simp only [Option.map_eq_some'] at h
      obtain ⟨t, ht, rfl⟩ := h
      exact Or.inr ⟨hp, rfl, (watchRead_readNum _ _ ht).2.1.trans he, by simp⟩
    · simp at h
  | wdCheck =>
    simp only [System.step] at h
    split at h
    · simp only [he, ne_eq, not_true_eq_false, if_false] at h
      simp at h; subst h
      exact Or.inr ⟨hp, rfl, he, by simp⟩
    · simp at h
  | read p => simp [System.step, hp] at h
  | readResume =>
    simp only [System.step, hp] at h
    split at h
    · simp at h; subst h
      exact Or.inl ⟨rfl, rfl⟩
    · simp at h
  | write p =>
    simp [System.step] at h; subst h
    exact Or.inr ⟨hp, rfl, he, hw⟩
  | next =>
    simp only [System.step] at h
    split at h
    · rename_i v t hn
      simp at h; subst h
      exact Or.inr ⟨hp, rfl, (Next_frame _ _ _ hn).2.1.trans he, hw⟩
    · simp at h
    · simp at h

theorem waiting_run (s s' : System) (es : List Event) (r : ReadReturn) (h : s.run es = some s')
    (hp : s.parked = some r) (he : s.term.err = none) (hw : s.watchdog ≠ .stopped) :
    (∃ l, s'.returns = s.returns ++ r :: l) ∨
      (s'.parked = some r ∧ s'.returns = s.returns ∧ s'.term.err = none ∧
        s'.watchdog ≠ .stopped) := by
  induction es generalizing s with
  | nil => simp [System.run] at h; subst h; exact Or.inr ⟨hp, rfl, he, hw⟩
  | cons e es ih =>
    simp only [System.run, Option.bind_eq_some] at h
    obtain ⟨s1, h1, h2⟩ := h
    rcases waiting_step s s1 e r h1 hp he hw with ⟨-, hr1⟩ | ⟨hp1, hr1, he1, hw1⟩
    · obtain ⟨l, hl⟩ := run_returns s1 s' es h2
      exact Or.inl ⟨l, by rw [hl, hr1, List.append_assoc]; rfl⟩
    · rcases ih s1 h2 hp1 he1 hw1 with ⟨l, hl⟩ | ⟨hp2, hr2, he2, hw2⟩
      · exact Or.inl ⟨l, by rw [hl, hr1]⟩
      · exact Or.inr ⟨hp2, hr2.trans hr1, he2, hw2⟩

/-- The step of a `Read` whose error result is nil: the call returns, or waits in its
deferred send, with nil recorded in `err`. -/
theorem nil_read_step (s : System) (p : Bytes) (rest : List Inbound) (n : Nat) (q : Bytes)
    (hv : s.term.Valid) (hp : s.parked = none)
    (hread : s.term.Read p =
      WebTerminal.readDeferred
        { s.term with conn := { s.term.conn with inbound := rest, reads := s.term.conn.reads + 1 } }
        n none q) :
    ∃ s1, s.step (.read p) = some s1 ∧ s1.term.conn.inbound = rest ∧
      s1.term.canClose = s.term.canClose ∧ s1.term.err = none ∧ s1.watchdog = s.watchdog ∧
      ((s1.parked = none ∧ s1.returns = s.returns ++ [⟨n, none, q⟩]) ∨
        (s1.parked = some ⟨n, none, q⟩ ∧ s1.returns = s.returns)) := by
  have hv1 : WebTerminal.Valid
      { s.term with conn := { s.term.conn with inbound := rest, reads := s.term.conn.reads + 1 } } := hv
  rcases readDeferred_cases _ n none q hv1 with ⟨-, hcase⟩ | ⟨-, hcase⟩
  · exact ⟨{ term := { s.term with
                conn := { s.term.conn with inbound := rest, reads := s.term.conn.reads + 1 }
                err := none
                readNum := { s.term.readNum with buf := [n] } }
             now := s.now
             watchdog := s.watchdog
             parked := none
             returns := s.returns ++ [⟨n, none, q⟩] },
      by simp only [System.step, hp, hread, hcase], rfl, rfl, rfl, rfl, Or.inl ⟨rfl, rfl⟩⟩
  · exact ⟨{ term := { s.term with
                conn := { s.term.conn with inbound := rest, reads := s.term.conn.reads + 1 }
                err := none }
             now := s.now
             watchdog := s.watchdog
             parked := some ⟨n, none, q⟩
             returns := s.returns },
      by simp only [System.step, hp, hread, hcase], rfl, rfl, rfl, rfl, Or.inr ⟨rfl, rfl⟩⟩

/-- A `Read` whose error result is nil, made while the watchdog is running, returns. -/
theorem nil_read_returns (s : System) (p : Bytes) (rest : List Inbound) (n : Nat) (q : Bytes)
    (hs : s.Sound) (hp : s.parked = none) (hw : s.watchdog ≠ .stopped)
    (hc : s.term.canClose = false)
    (hread : s.term.Read p =
      WebTerminal.readDeferred
        { s.term with conn := { s.term.conn with inbound := rest, reads := s.term.conn.reads + 1 } }
        n none q) :
    s.ReadReturns p ⟨n, none, q⟩ ∧
      ∃ ws s', (∀ e ∈ ws, e.handoff = true) ∧ s.run (.read p :: ws) = some s' ∧
        s'.parked = none ∧ s'.returns = s.returns ++ [⟨n, none, q⟩] ∧
        s'.term.conn.inbound = rest ∧ s'.term.canClose = false := by
  obtain ⟨s1, hstep, hin1, hc1, he1, hw1, hcases⟩ := nil_read_step s p rest n q hs.1 hp hread
  have hs1 : s1.Sound := step_sound s s1 _ hstep hs
  have hex : ∃ ws s', (∀ e ∈ ws, e.handoff = true) ∧ s.run (.read p :: ws) = some s' ∧
      s'.parked = none ∧ s'.returns = s.returns ++ [⟨n, none, q⟩] ∧
      s'.term.conn.inbound = rest ∧ s'.term.canClose = false := by
    rcases hcases with ⟨hp1, hr1⟩ | ⟨hp1, hr1⟩
    · exact ⟨[], s1, by simp, by simp [System.run, hstep], hp1, hr1, hin1, hc1.trans hc⟩
    · obtain ⟨ws, s', h1, h2, h3, h4, h5, h6⟩ :=
        handoff_completes s1 ⟨n, none, q⟩ hs1.1 hs1.2.1 he1 (hw1 ▸ hw) hp1
      exact ⟨ws, s', h1, by simp only [System.run, hstep, Option.some_bind]; exact h2, h3,
        by rw [h4, hr1], by rw [h5]; exact hin1, by rw [h6, hc1]; exact hc⟩
  refine ⟨⟨?_, ?_⟩, hex⟩
  · obtain ⟨ws, s', h1, h2, h3, h4, -, -⟩ := hex
    exact ⟨ws, s', h1, h2, h3, h4⟩
  · intro fs sf hrun
    have hsf : sf.Sound := run_sound s sf _ hrun hs
    simp only [System.run, hstep, Option.some_bind] at hrun
    rcases hcases with ⟨hp1, hr1⟩ | ⟨hp1, hr1⟩
    · obtain ⟨l, hl'⟩ := run_returns s1 sf fs hrun
      exact Or.inl ⟨l, by rw [hl', hr1]; simp⟩
    · rcases waiting_run s1 sf fs ⟨n, none, q⟩ hrun hp1 he1 (hw1 ▸ hw) with
        ⟨l, hl'⟩ | ⟨hp2, hr2, he2, hw2⟩
      · exact Or.inl ⟨l, by rw [hl', hr1]⟩
      · refine Or.inr ⟨hp2, hr2.trans hr1, ?_⟩
        obtain ⟨ws, s2, h1, h2, h3, h4, -, -⟩ :=
          handoff_completes sf ⟨n, none, q⟩ hsf.1 hsf.2.1 he2 hw2 hp2
        exact ⟨ws, s2, h1, h2, h3, by rw [h4, hr2, hr1]⟩

/-- On a conforming connection, while the next result is a heartbeat or carries no error,
the watchdog is running. -/
theorem sound_alive (s : System) (m : Inbound) (rest : List Inbound) (hs : s.Sound)
    (hin : s.term.conn.inbound = m :: rest)
    (hm : m.data = stringBytes healthCheck ∨ m.err = none) : s.watchdog ≠ .stopped := by
  obtain ⟨-, -, -, hst, hf, -⟩ := hs
  intro hw
  have hne := hst hw
  rcases hf m (by rw [hin]; exact List.mem_cons_self _ _) with h0 | h0
  · exact hne h0
  · rcases hm with hm | hm
    · rw [h0] at hm
      exact readFailure_not_heartbeat hm
    · rw [h0] at hm
      exact hne hm

/-- The `Read` of an ordinary message on a sound session returns the copied bytes. -/
theorem ordinary_read_returns (s : System) (p : Bytes) (m : Inbound) (rest : List Inbound)
    (hs : s.Sound) (hp : s.parked = none) (hc : s.term.canClose = false)
    (hin : s.term.conn.inbound = m :: rest) (hh : m.data ≠ stringBytes healthCheck)
    (he : m.err = none) :
    s.ReadReturns p ⟨(copy p m.data).1, none, (copy p m.data).2⟩ ∧
      ∃ ws s', (∀ e ∈ ws, e.handoff = true) ∧ s.run (.read p :: ws) = some s' ∧
        s'.parked = none ∧
        s'.returns = s.returns ++ [⟨(copy p m.data).1, none, (copy p m.data).2⟩] ∧
        s'.term.conn.inbound = rest ∧ s'.term.canClose = false := by
  have hreal := (conforms_cons _ m rest hs.2.2.1 hin).1
  have hread : s.term.Read p =
      WebTerminal.readDeferred
        { s.term with conn := { s.term.conn with inbound := rest, reads := s.term.conn.reads + 1 } }
        (copy p m.data).1 none (copy p m.data).2 := by
    rw [Read_open s.term p m rest hc hin]
    simp [real_not_close m hreal, hh, he]
  exact nil_read_returns s p rest _ _ hs hp (sound_alive s m rest hs hin (Or.inr he)) hc hread

/-- The `Read` of a heartbeat on a sound session returns `(0, nil)`. -/
theorem heartbeat_read_returns (s : System) (p : Bytes) (m : Inbound) (rest : List Inbound)
    (hs : s.Sound) (hp : s.parked = none) (hc : s.term.canClose = false)
    (hin : s.term.conn.inbound = m :: rest) (hh : m.data = stringBytes healthCheck) :
    s.ReadReturns p ⟨0, none, p⟩ ∧
      ∃ ws s', (∀ e ∈ ws, e.handoff = true) ∧ s.run (.read p :: ws) = some s' ∧
        s'.parked = none ∧ s'.returns = s.returns ++ [⟨0, none, p⟩] ∧
        s'.term.conn.inbound = rest ∧ s'.term.canClose = false := by
  have hreal := (conforms_cons _ m rest hs.2.2.1 hin).1
  have hread : s.term.Read p =
      WebTerminal.readDeferred
        { s.term with conn := { s.term.conn with inbound := rest, reads := s.term.conn.reads + 1 } }
        0 none p := by
    rw [Read_open s.term p m rest hc hin]
    simp [real_not_close m hreal, hh]
  exact nil_read_returns s p rest _ _ hs hp (sound_alive s m rest hs hin (Or.inl hh)) hc hread

/-! ## `Read` on a closing session -/

/-- C1: on a session whose `canClose` flag is set, `Read(p)` returns `n = 0` with the
idle-timeout error `errors.New(errorTimeOut)`; the buffer `p` is as it was; the connection
has received exactly one more `WriteMessage` call, carrying the timeout notice (the error of
that call, if any, is discarded), and no `ReadMessage` call (`inbound` and `reads` are as
before); nothing else changes, and no activity signal is posted. -/
theorem Read_closing (a : WebTerminal) (p : Bytes) (hc : a.canClose = true) :
    a.Read p = .returned
      { n := 0
        err := some (errorsNew errorTimeOut)
        p := p
        term := { a with conn := { a.conn with
                    writeErrs := a.conn.writeErrs.tail
                    sent := a.conn.sent ++ [⟨1, stringBytes errorTimeOut⟩] } } } := by
  simp [WebTerminal.Read, hc, Conn.WriteMessage]

theorem Read_closing_witness :
    closingSession.canClose = true ∧
      closingSession.Read [0, 0] = .returned
        { n := 0
          err := some (errorsNew errorTimeOut)
          p := [0, 0]
          term := { closingSession with conn := { closingSession.conn with
                      writeErrs := closingSession.conn.writeErrs.tail
                      sent := closingSession.conn.sent ++ [⟨1, stringBytes errorTimeOut⟩] } } } :=
  ⟨rfl, Read_closing closingSession [0, 0] rfl⟩

/-! ## The closing flag -/

/-- C6: once `canClose` is true it is true after every further sequence of steps of the
session: `Read`, `Write` and `Next` calls, the resumption of a blocked `Read`, the
passing of time, and every watchdog step (a countdown expiring, a late activity signal
being taken, the test of `term.err`, the arming of a new countdown). -/
theorem canClose_stays_true (s s' : System) (es : List Event) (hrun : s.run es = some s')
    (hc : s.term.canClose = true) : s'.term.canClose = true :=
  run_canClose s s' es hrun hc

theorem canClose_stays_true_witness :
    lateSignalSession.run lateEvents = some lateSignalAfter ∧
      lateSignalSession.term.canClose = true ∧ lateSignalAfter.term.canClose = true :=
  ⟨by decide, by decide,
    canClose_stays_true lateSignalSession lateSignalAfter lateEvents (by decide) (by decide)⟩

/-! ## `Next` -/

theorem NextTimes_drained (a : WebTerminal) (hb : a.size.buf = []) (hcl : a.size.closed = true)
    (k : Nat) : a.NextTimes k = some (List.replicate k none, a) := by
  have hn : a.Next = .done (none, a) := by
    simp [WebTerminal.Next, Chan.recv, hb, hcl]
  induction k with
  | zero => rfl
  | succ k ih => simp [WebTerminal.NextTimes, hn, ih, List.replicate_succ]

/-- C7: for the session `NewWebTerminal(conn, w, h)` and every `k`, `k + 1` calls of
`Next` in a row all return: the first returns the size `(Width = w, Height = h)` and each of
the other `k` returns nil; after the first call the size channel is empty and closed. -/
theorem Next_delivers_once (conn : Conn) (w h : UInt16) (k : Nat) :
    ∃ t t1 : WebTerminal, NewWebTerminal conn w h = .done t ∧
      t.Next = .done (some ⟨w, h⟩, t1) ∧ t1.size.buf = [] ∧ t1.size.closed = true ∧
      t.NextTimes (k + 1) = some (some ⟨w, h⟩ :: List.replicate k none, t1) := by
  refine ⟨⟨conn, ⟨[⟨w, h⟩], 1, false⟩, Minute * 20, ⟨[], 1, false⟩, false, none⟩,
    ⟨conn, ⟨[], 1, true⟩, Minute * 20, ⟨[], 1, false⟩, false, none⟩, ?_, ?_, rfl, rfl, ?_⟩
  · simp [NewWebTerminal, Chan.send, Chan.make]
  · simp [WebTerminal.Next, Chan.recv, Chan.close]
  · simp only [WebTerminal.NextTimes]
    simp [WebTerminal.Next, Chan.recv, Chan.close]
    rw [NextTimes_drained _ rfl rfl]

/-! ## `Write` -/

/-- C8: `Write(p)` makes exactly one `WriteMessage` call, with payload `p` (message type 1),
consuming one result of the connection; it returns that call's error unchanged and
`n = len(p)`, whether or not the call failed; every other field of the session is as before.
There is no second call, hence no retry. -/
theorem Write_sends_once (a : WebTerminal) (p : Bytes) :
    (a.Write p).n = p.length ∧
      (a.Write p).err = (a.conn.WriteMessage 1 p).2 ∧
      (a.Write p).err = a.conn.writeErrs.head?.join ∧
      (a.Write p).term =
        { a with conn := { a.conn with
            writeErrs := a.conn.writeErrs.tail
            sent := a.conn.sent ++ [⟨1, p⟩] } } := by
  simp [WebTerminal.Write, Conn.WriteMessage]

/-! ## `Read` on a session that is not closing -/

/-- With the slot occupied a `Read` on a session that is not closing does not return: it
waits for a message or, having received one, waits in its deferred send with `readNum`
as it was. -/
theorem Read_occupied (a : WebTerminal) (p : Bytes) (hv : a.Valid) (hc : a.canClose = false)
    (hb : a.readNum.buf ≠ []) :
    a.Read p = .awaitingMessage ∨
      ∃ v, a.Read p = .awaitingSlot v ∧ v.term.readNum = a.readNum := by
  cases hin : a.conn.inbound with
  | nil => left; simp [WebTerminal.Read, hc, Conn.ReadMessage, hin]
  | cons m rest =>
    right
    rw [Read_open a p m rest hc hin]
    simp only [WebTerminal.readDeferred]
    split_ifs
    all_goals
      rw [postReadNum_occupied _ hv hb]
      exact ⟨_, rfl, rfl⟩

/-- A `Read` call blocked in its deferred send stays blocked through every step while the
watchdog goroutine has ended and the slot is occupied. -/
theorem stuck_step (s s' : System) (e : Event) (r : ReadReturn) (h : s.step e = some s')
    (hw : s.watchdog = .stopped) (hp : s.parked = some r) (hv : s.term.Valid)
    (hb : s.term.readNum.buf ≠ []) :
    s'.watchdog = .stopped ∧ s'.parked = some r ∧ s'.term.Valid ∧
      s'.term.readNum.buf ≠ [] ∧ s'.returns = s.returns := by
  cases e with
  | tick d => simp [System.step] at h; subst h; exact ⟨hw, hp, hv, hb, rfl⟩
  | wdArm => simp [System.step, hw] at h
  | wdTimeout => simp [System.step, hw] at h
  | wdSignal => simp [System.step, hw] at h
  | wdCheck => simp [System.step, hw] at h
  | read p => simp [System.step, hp] at h
  | readResume =>
    simp only [System.step, hp] at h
    rw [postReadNum_occupied _ hv hb] at h
    simp at h
  | write p =>
    simp [System.step] at h; subst h
    have := Write_frame s.term p
    refine ⟨hw, hp, ?_, ?_, rfl⟩
    · simpa [WebTerminal.Valid, this] using hv
    · simpa [this] using hb
  | next =>
    simp only [System.step] at h
    split at h
    · rename_i v t hn
      simp at h; subst h
      have := Next_frame _ _ _ hn
      refine ⟨hw, hp, ?_, ?_, rfl⟩
      · simpa [WebTerminal.Valid, this] using hv
      · simpa [this] using hb
    · simp at h
    · simp at h

theorem stuck_run (s s' : System) (es : List Event) (r : ReadReturn) (h : s.run es = some s')
    (hw : s.watchdog = .stopped) (hp : s.parked = some r) (hv : s.term.Valid)
    (hb : s.term.readNum.buf ≠ []) : s'.returns = s.returns ∧ s'.parked = some r := by
  induction es generalizing s with
  | nil => simp [System.run] at h; subst h; exact ⟨rfl, hp⟩
  | cons e es ih =>
    simp only [System.run, Option.bind_eq_some] at h
    obtain ⟨s1, h1, h2⟩ := h
    obtain ⟨hw1, hp1, hv1, hb1, hr1⟩ := stuck_step s s1 e r h1 hw hp hv hb
    have := ih s1 h2 hw1 hp1 hv1 hb1
    exact ⟨this.1.trans hr1, this.2⟩

/-- Once the watchdog goroutine has ended and the slot is occupied, a `Read` on a session
that is not closing never returns, whatever happens afterwards. -/
theorem dead_read_never_returns (s s' : System) (p : Bytes) (es : List Event)
    (hw : s.watchdog = .stopped) (hv : s.term.Valid) (hc : s.term.canClose = false)
    (hb : s.term.readNum.buf ≠ []) (h : s.run (.read p :: es) = some s') :
    s'.returns = s.returns := by
  simp only [System.run, Option.bind_eq_some] at h
  obtain ⟨s1, h1, h2⟩ := h
  simp only [System.step] at h1
  split at h1
  · simp at h1
  · rcases Read_occupied s.term p hv hc hb with hr | ⟨v, hr, hrn⟩
    · simp [hr] at h1
    · simp only [hr] at h1
      simp at h1
      subst h1
      have hv1 : v.term.Valid := by
        simpa [WebTerminal.Valid, hrn] using hv
      exact (stuck_run _ s' es _ h2 hw rfl hv1 (by simpa [hrn] using hb)).1

/-- C2: on a connection that keeps to the contract of `ReadMessage`, in every state a
session reaches in which it is not closing and no `Read` is in progress, when the next
inbound message (never a close frame) has a payload other than the heartbeat sentinel and
its read reported no error, the call `Read(p)` returns `n = min(len(p), len(msg))` with a nil
error, the first `n` bytes of `p` are the first `n` bytes of the message and the bytes of
`p` from `n` on are unchanged. The call returns at once when the activity slot is empty;
otherwise it returns when the watchdog, which is running in every such state, has taken the
earlier signal. -/
theorem Read_ordinary (conn : Conn) (w h : UInt16) (now : Nat) (es : List Event)
    (s0 s : System) (p : Bytes) (m : Inbound) (rest : List Inbound) (hg : conn.Conforms)
    (h0 : System.start conn w h now = some s0) (hrun : s0.run es = some s)
    (hidle : s.parked = none) (hc : s.term.canClose = false)
    (hin : s.term.conn.inbound = m :: rest) (hh : m.data ≠ stringBytes healthCheck)
    (he : m.err = none) :
    let n := min p.length m.data.length
    let q := m.data.take n ++ p.drop n
    m.messageType ≠ CloseMessage ∧
      q.take n = m.data.take n ∧ q.drop n = p.drop n ∧ q.length = p.length ∧
      s.ReadReturns p ⟨n, none, q⟩ ∧
      (s.term.readNum.buf = [] →
        ∃ v, s.term.Read p = .returned v ∧ v.n = n ∧ v.err = none ∧ v.p = q) := by
  intro n q
  have hs : s.Sound := reach_sound conn w h now es s0 s hg h0 hrun
  have hreal := (conforms_cons _ m rest hs.2.2.1 hin).1
  refine ⟨real_not_close m hreal, copy_take p m.data, copy_drop p m.data, copy_length p m.data,
    (ordinary_read_returns s p m rest hs hidle hc hin hh he).1, ?_⟩
  intro hb
  rw [Read_open s.term p m rest hc hin]
  simp only [real_not_close m hreal, hh, he, if_false, ne_eq, not_true_eq_false,
    WebTerminal.readDeferred]
  rw [postReadNum_free _ hs.1 hb]
  exact ⟨_, rfl, rfl, rfl, rfl⟩

theorem Read_ordinary_witness :
    (twoMessageConn.Conforms ∧
      System.start twoMessageConn 80 24 0 = some (freshSession twoMessageConn) ∧
      (freshSession twoMessageConn).run [.read [0, 0, 0]] = some afterLsSession ∧
      afterLsSession.parked = none ∧ afterLsSession.term.canClose = false ∧
      afterLsSession.term.conn.inbound = [⟨1, [10], none⟩] ∧
      afterLsSession.term.readNum.buf ≠ [] ∧
      ([10] : Bytes) ≠ stringBytes healthCheck) ∧
      afterLsSession.ReadReturns [0] ⟨1, none, [10]⟩ :=
  ⟨by decide,
    (Read_ordinary twoMessageConn 80 24 0 [.read [0, 0, 0]] (freshSession twoMessageConn)
      afterLsSession [0] ⟨1, [10], none⟩ [] (by decide) (by decide) (by decide) rfl rfl rfl
      (by decide) rfl).2.2.2.2.1⟩

/-! ### Heartbeat -/

/-- C3: on a connection that keeps to the contract of `ReadMessage`, in every state a
session reaches in which it is not closing and no `Read` is in progress, when the payload of
the next inbound message (never a close frame) is the heartbeat sentinel `[%heart_check%]`,
the call `Read(p)` returns `(0, nil)` and `p` is as it was: no byte of the heartbeat reaches
the caller and no error is reported. The call returns at once when the activity slot is
empty; otherwise it returns when the watchdog, which is running in every such state, has
taken the earlier signal. -/
theorem Read_heartbeat (conn : Conn) (w h : UInt16) (now : Nat) (es : List Event)
    (s0 s : System) (p : Bytes) (m : Inbound) (rest : List Inbound) (hg : conn.Conforms)
    (h0 : System.start conn w h now = some s0) (hrun : s0.run es = some s)
    (hidle : s.parked = none) (hc : s.term.canClose = false)
    (hin : s.term.conn.inbound = m :: rest) (hh : m.data = stringBytes healthCheck) :
    m.messageType ≠ CloseMessage ∧ s.ReadReturns p ⟨0, none, p⟩ ∧
      (s.term.readNum.buf = [] →
        ∃ v, s.term.Read p = .returned v ∧ v.n = 0 ∧ v.err = none ∧ v.p = p) := by
  have hs : s.Sound := reach_sound conn w h now es s0 s hg h0 hrun
  have hreal := (conforms_cons _ m rest hs.2.2.1 hin).1
  refine ⟨real_not_close m hreal,
    (heartbeat_read_returns s p m rest hs hidle hc hin hh).1, ?_⟩
  intro hb
  rw [Read_open s.term p m rest hc hin]
  simp only [real_not_close m hreal, hh, if_false, if_true, WebTerminal.readDeferred]
  rw [postReadNum_free _ hs.1 hb]
  exact ⟨_, rfl, rfl, rfl, rfl⟩

theorem Read_heartbeat_witness :
    (heartbeatByteConn.Conforms ∧
      System.start heartbeatByteConn 80 24 0 = some (freshSession heartbeatByteConn) ∧
      (freshSession heartbeatByteConn).run [] = some (freshSession heartbeatByteConn) ∧
      (freshSession heartbeatByteConn).term.canClose = false) ∧
      (freshSession heartbeatByteConn).ReadReturns [7, 7] ⟨0, none, [7, 7]⟩ :=
  ⟨by decide,
    (Read_heartbeat heartbeatByteConn 80 24 0 [] (freshSession heartbeatByteConn)
      (freshSession heartbeatByteConn) [7, 7] ⟨1, stringBytes healthCheck, none⟩
      [⟨1, [97], none⟩] (by decide) (by decide) rfl rfl rfl rfl rfl).2.1⟩

/-! ### Close frame -/

/-- C4 (the code departs from the claim): the branch `if t == websocket.CloseMessage` is
never taken, because no result of a conforming connection has the message type 8. A close
frame of the peer arrives as the failure `(noFrame, nil, e)`, `e` being the close error of
the library, and `Read(p)` on a session that is not closing, with a non-empty `p`, treats it
as a transport error: its results are `n = 1` and the error `e`, and it has written the
end-of-transmission byte `0x04` into `p[0]`; they are not `n = 0` with `p` untouched. With
the activity slot empty the call returns these results; with the slot occupied it holds them
and waits in its deferred send. The closing flag stays false. -/
theorem Read_close_frame (a : WebTerminal) (p : Bytes) (e : GoError) (rest : List Inbound)
    (hv : a.Valid) (hc : a.canClose = false) (hin : a.conn.inbound = readFailure e :: rest)
    (hp : p ≠ []) :
    let q : Bytes := 4 :: p.tail
    let a1 : WebTerminal :=
      { a with conn := { a.conn with inbound := rest, reads := a.conn.reads + 1 }, err := some e }
    (∀ c : Conn, c.Conforms → ∀ m ∈ c.inbound, m.messageType ≠ CloseMessage) ∧
      (a.readNum.buf = [] →
        a.Read p = .returned ⟨1, some e, q, { a1 with readNum := { a.readNum with buf := [1] } }⟩) ∧
      (a.readNum.buf ≠ [] → a.Read p = .awaitingSlot ⟨1, some e, q, a1⟩) ∧
      a1.canClose = false := by
  intro q a1
  obtain ⟨b, bs, rfl⟩ : ∃ b bs, p = b :: bs := by
    cases p with
    | nil => exact absurd rfl hp
    | cons b bs => exact ⟨b, bs, rfl⟩
  have hcopy : copy (b :: bs) (stringBytes END_OF_TRANSMISSION) = (1, 4 :: bs) := by
    simp [copy, stringBytes_END_OF_TRANSMISSION]
  have ht : (readFailure e).messageType ≠ CloseMessage := by
    simp [readFailure, noFrame, CloseMessage]
  have hd : (readFailure e).data ≠ stringBytes healthCheck := readFailure_not_heartbeat
  have he : (readFailure e).err = some e := rfl
  refine ⟨fun c hcf m hm => real_not_close m (hcf.1 m hm), ?_, ?_, hc⟩
  · intro hb
    rw [Read_open a (b :: bs) (readFailure e) rest hc hin]
    simp only [ht, hd, he, hcopy, if_false, WebTerminal.readDeferred]
    simp only [ne_eq, reduceCtorEq, not_false_eq_true, if_true]
    rw [postReadNum_free _ hv hb]
    rfl
  · intro hb
    rw [Read_open a (b :: bs) (readFailure e) rest hc hin]
    simp only [ht, hd, he, hcopy, if_false, WebTerminal.readDeferred]
    simp only [ne_eq, reduceCtorEq, not_false_eq_true, if_true]
    rw [postReadNum_occupied _ hv hb]
    rfl

theorem Read_close_frame_witness :
    ((freshSession closedConn).term.Valid ∧ (freshSession closedConn).term.canClose = false ∧
      ([7, 7] : Bytes) ≠ [] ∧ (freshSession closedConn).term.readNum.buf = []) ∧
      (freshSession closedConn).term.Read [7, 7] =
        .returned ⟨1, some closeNormal, [4, 7],
          { (freshSession closedConn).term with
              conn := ⟨[readFailure closeNormal, readFailure closeNormal], [], [], 1⟩
              err := some closeNormal
              readNum := ⟨[1], 1, false⟩ }⟩ :=
  ⟨by decide,
    (Read_close_frame (freshSession closedConn).term [7, 7] closeNormal
      [readFailure closeNormal, readFailure closeNormal] (by decide) rfl rfl
      (by decide)).2.1 rfl⟩

/-! ### Transport error -/

/-- C5 (as stated, refuted): in the state where the watchdog goroutine has ended and the
slot is occupied, the session is not closing, the buffer is not empty and the read of the
connection reports a transport error (no close frame, no heartbeat), yet `Read` does not
return `(1, e)`: it blocks in its deferred send and no later step makes it return. The same
happens on a connection that keeps to the contract of `ReadMessage`, once the peer has
closed it: the first `Read` records the close error and its signal ends the watchdog, the
second `Read` fills the slot, and the third, whose read reports the same error, blocks in
its deferred send and no later step makes it return. -/
theorem Read_transport_error_blocks :
    (System.start (deadWatchdogConn ⟨-1, [], some ⟨"unexpected EOF"⟩⟩) 80 24 0).bind
        (fun s => s.run deadWatchdogTrace) =
        some (deadWatchdogSession ⟨-1, [], some ⟨"unexpected EOF"⟩⟩) ∧
      (deadWatchdogSession ⟨-1, [], some ⟨"unexpected EOF"⟩⟩).term.canClose = false ∧
      (deadWatchdogSession ⟨-1, [], some ⟨"unexpected EOF"⟩⟩).term.Read [0, 0] =
        .awaitingSlot ⟨1, some ⟨"unexpected EOF"⟩, [4, 0],
          { (deadWatchdogSession ⟨-1, [], some ⟨"unexpected EOF"⟩⟩).term with
              conn := ⟨[], [], [], 3⟩
              err := some ⟨"unexpected EOF"⟩ }⟩ ∧
      (∀ es s', (deadWatchdogSession ⟨-1, [], some ⟨"unexpected EOF"⟩⟩).run
          (.read [0, 0] :: es) = some s' →
        s'.returns = (deadWatchdogSession ⟨-1, [], some ⟨"unexpected EOF"⟩⟩).returns) ∧
      closedConn.Conforms ∧
      (System.start closedConn 80 24 0).bind (fun s => s.run deadWatchdogTrace) =
        some closedAfterSecondRead ∧
      closedAfterSecondRead.term.canClose = false ∧
      closedAfterSecondRead.term.Read [0, 0] =
        .awaitingSlot ⟨1, some closeNormal, [4, 0],
          { closedAfterSecondRead.term with conn := ⟨[], [], [], 3⟩ }⟩ ∧
      ∀ es s', closedAfterSecondRead.run (.read [0, 0] :: es) = some s' →
        s'.returns = closedAfterSecondRead.returns :=
  ⟨by decide, by decide, by decide,
    fun es s' h => dead_read_never_returns _ s' [0, 0] es rfl (by decide) rfl (by decide) h,
    by decide, by decide, by decide, by decide,
    fun es s' h => dead_read_never_returns _ s' [0, 0] es rfl (by decide) rfl (by decide) h⟩

/-- C5 (amended): on a session that is not closing, for a non-empty buffer `p`, when the read
of the connection reports the error `e` and the frame is neither a close frame nor the
heartbeat sentinel, the results of `Read(p)` are `n = 1` and exactly the error `e`, with
`p[0] = 0x04` and the rest of `p` unchanged. With the activity slot empty the call returns
these results; with the slot occupied it holds them and waits in its deferred send, and
returns them as soon as the send finds the slot empty. -/
theorem Read_transport_error (a : WebTerminal) (p : Bytes) (m : Inbound) (rest : List Inbound)
    (e : GoError) (hv : a.Valid) (hc : a.canClose = false) (hin : a.conn.inbound = m :: rest)
    (ht : m.messageType ≠ CloseMessage) (hh : m.data ≠ stringBytes healthCheck)
    (he : m.err = some e) (hp : p ≠ []) :
    let q : Bytes := 4 :: p.tail
    let a1 : WebTerminal :=
      { a with conn := { a.conn with inbound := rest, reads := a.conn.reads + 1 }, err := some e }
    (a.readNum.buf = [] →
        a.Read p = .returned ⟨1, some e, q, { a1 with readNum := { a.readNum with buf := [1] } }⟩) ∧
      (a.readNum.buf ≠ [] → a.Read p = .awaitingSlot ⟨1, some e, q, a1⟩) ∧
      ∀ t : WebTerminal, t.Valid → t.readNum.buf = [] →
        WebTerminal.postReadNum ⟨1, some e, q, t⟩ =
          .returned ⟨1, some e, q, { t with readNum := { t.readNum with buf := [1] } }⟩ := by
  intro q a1
  obtain ⟨b, bs, rfl⟩ : ∃ b bs, p = b :: bs := by
    cases p with
    | nil => exact absurd rfl hp
    | cons b bs => exact ⟨b, bs, rfl⟩
  have hcopy : copy (b :: bs) (stringBytes END_OF_TRANSMISSION) = (1, 4 :: bs) := by
    simp [copy, stringBytes_END_OF_TRANSMISSION]
  refine ⟨?_, ?_, ?_⟩
  · intro hb
    rw [Read_open a (b :: bs) m rest hc hin]
    simp only [ht, hh, he, hcopy, if_false, WebTerminal.readDeferred]
    simp only [ne_eq, reduceCtorEq, not_false_eq_true, if_true]
    rw [postReadNum_free _ hv hb]
    rfl
  · intro hb
    rw [Read_open a (b :: bs) m rest hc hin]
    simp only [ht, hh, he, hcopy, if_false, WebTerminal.readDeferred]
    simp only [ne_eq, reduceCtorEq, not_false_eq_true, if_true]
    rw [postReadNum_occupied _ hv hb]
    rfl
  · intro t htv htb
    rw [postReadNum_free _ htv htb]

theorem Read_transport_error_witness :
    ((openSession [⟨-1, [], some ⟨"unexpected EOF"⟩⟩]).Valid ∧
      (openSession [⟨-1, [], some ⟨"unexpected EOF"⟩⟩]).canClose = false ∧
      (openSession [⟨-1, [], some ⟨"unexpected EOF"⟩⟩]).conn.inbound =
        [⟨-1, [], some ⟨"unexpected EOF"⟩⟩] ∧
      (-1 : Int) ≠ CloseMessage ∧ ([] : Bytes) ≠ stringBytes healthCheck ∧
      ([7, 7] : Bytes) ≠ []) ∧
      (openSession [⟨-1, [], some ⟨"unexpected EOF"⟩⟩]).Read [7, 7] =
        .returned ⟨1, some ⟨"unexpected EOF"⟩, [4, 7],
          { openSession [] with
              conn := ⟨[], [], [], 1⟩
              err := some ⟨"unexpected EOF"⟩
              readNum := ⟨[1], 1, false⟩ }⟩ :=
  ⟨by decide,
    (Read_transport_error (openSession [⟨-1, [], some ⟨"unexpected EOF"⟩⟩]) [7, 7]
      ⟨-1, [], some ⟨"unexpected EOF"⟩⟩ [] ⟨"unexpected EOF"⟩ (by decide) rfl rfl
      (by decide) (by decide) rfl (by decide)).1 rfl⟩

/-! ## The watchdog -/

/-- Once the watchdog goroutine has left its loop it takes no further step. -/
theorem step_stopped (s s' : System) (e : Event) (h : s.step e = some s')
    (hw : s.watchdog = .stopped) : s'.watchdog = .stopped := by
  cases e with
  | tick d => simp [System.step] at h; subst h; exact hw
  | wdArm => simp [System.step, hw] at h
  | wdTimeout => simp [System.step, hw] at h
  | wdSignal => simp [System.step, hw] at h
  | wdCheck => simp [System.step, hw] at h
  | read p =>
    simp only [System.step] at h
    split at h
    · simp at h
    · split at h
      all_goals simp at h
      all_goals subst h
      all_goals exact hw
  | readResume =>
    simp only [System.step] at h
    split at h
    · simp at h
    · split at h
      · simp at h; subst h; exact hw
      · simp at h
  | write p => simp [System.step] at h; subst h; exact hw
  | next =>
    simp only [System.step] at h
    split at h
    · simp at h; subst h; exact hw
    · simp at h
    · simp at h

theorem run_stopped (s s' : System) (es : List Event) (h : s.run es = some s')
    (hw : s.watchdog = .stopped) : s'.watchdog = .stopped := by
  induction es generalizing s with
  | nil => simp [System.run] at h; subst h; exact hw
  | cons e es ih =>
    simp only [System.run, Option.bind_eq_some] at h
    obtain ⟨s1, h1, h2⟩ := h
    exact ih s1 h2 (step_stopped _ _ _ h1 hw)

/-- C9 (as stated, refuted): on a fresh session with no read error recorded, the watchdog
arms its countdown, twenty minutes pass with no activity signal, the countdown expires and
sets `canClose`; the watchdog then finds `term.err == nil`, stays in its loop and arms a
second countdown of twenty minutes. -/
theorem watchdog_rearms_after_expiry :
    (System.start ⟨[], [], [], 0⟩ 80 24 0).bind
        (fun s => s.run [.wdArm, .tick (Minute * 20), .wdTimeout, .wdCheck, .wdArm]) =
      some
        { term := { openSession [] with canClose := true }
          now := Minute * 20
          watchdog := .selecting (Minute * 20 + Minute * 20)
          parked := none
          returns := [] } := by
  decide

/-- C9 (amended): when the countdown of the watchdog has elapsed and the watchdog takes the
`tf` case, it sets `canClose = true` and changes nothing else. At its test of `term.err`
it then stops if a read error is recorded, after which the watchdog takes no further step,
so no countdown is armed again; if no read error is recorded it stays in its loop and arms
a fresh countdown of the full idle timeout, `canClose` remaining true. -/
theorem watchdog_expiry (s : System) (d : Nat) (hw : s.watchdog = .selecting d)
    (hd : d ≤ s.now) :
    let s1 : System := { s with term := { s.term with canClose := true }, watchdog := .check }
    s.step .wdTimeout = some s1 ∧
      (s.term.err ≠ none →
        s1.step .wdCheck = some { s1 with watchdog := .stopped } ∧
        ∀ es s', System.run { s1 with watchdog := .stopped } es = some s' →
          s'.watchdog = .stopped) ∧
      (s.term.err = none →
        s1.step .wdCheck = some { s1 with watchdog := .loopTop } ∧
        System.step { s1 with watchdog := .loopTop } .wdArm =
          some { s1 with watchdog := .selecting (s.now + s.term.timeout) }) := by
  intro s1
  refine ⟨?_, ?_, ?_⟩
  · simp [System.step, hw, hd, WebTerminal.watchRead, s1]
  · intro he
    refine ⟨?_, fun es s' h => run_stopped _ s' es h rfl⟩
    simp [System.step, s1, he]
  · intro he
    refine ⟨?_, ?_⟩
    · simp [System.step, s1, he]
    · simp [System.step, s1]

theorem watchdog_expiry_witness :
    ((expiringSession none).watchdog = .selecting (Minute * 20) ∧
      Minute * 20 ≤ (expiringSession none).now ∧ (expiringSession none).term.err = none) ∧
      (expiringSession none).run [.wdTimeout, .wdCheck, .wdArm] =
        some
          { term := { openSession [] with canClose := true }
            now := Minute * 20
            watchdog := .selecting (Minute * 20 + Minute * 20)
            parked := none
            returns := [] } :=
  ⟨by decide, by
    have h := watchdog_expiry (expiringSession none) (Minute * 20) rfl (by decide)
    simp only [System.run, h.1, (h.2.2 rfl).1, (h.2.2 rfl).2, Option.some_bind]
    rfl⟩

/-- C10 (as stated, refuted): on a fresh session the watchdog arms its countdown, `Read`
receives a close frame and posts its activity signal, and five seconds later, well before
the countdown elapses, the signal reaches the watchdog. The closing flag stays false, but
the watchdog finds the error recorded by that `Read`, leaves its loop, and from then on
takes no step: no fresh countdown is armed. The same happens on a connection that keeps to
the contract of `ReadMessage`, when the `Read` receives the close error of a connection the
peer has closed. -/
theorem watchdog_stops_after_close_frame_signal :
    (System.start ⟨[⟨CloseMessage, [], none⟩], [], [], 0⟩ 80 24 0).bind
        (fun s => s.run [.wdArm, .read [0, 0], .tick 5000000000, .wdSignal, .wdCheck]) =
      some
        { term :=
            { openSession [] with
                conn := ⟨[], [], [], 1⟩
                err := some (errorsNew "websocket CloseMessage 8") }
          now := 5000000000
          watchdog := .stopped
          parked := none
          returns := [⟨0, some (errorsNew "websocket CloseMessage 8"), [0, 0]⟩] } ∧
      (∀ es s',
        System.run
          { term :=
              { openSession [] with
                  conn := ⟨[], [], [], 1⟩
                  err := some (errorsNew "websocket CloseMessage 8") }
            now := 5000000000
            watchdog := .stopped
            parked := none
            returns := [⟨0, some (errorsNew "websocket CloseMessage 8"), [0, 0]⟩] } es = some s' →
        s'.watchdog = .stopped) ∧
      closedConn.Conforms ∧
      ((System.start closedConn 80 24 0).bind
        (fun s => s.run [.wdArm, .read [0, 0], .tick 5000000000, .wdSignal, .wdCheck])).map
          (fun s => (s.term.canClose, s.watchdog, s.returns)) =
        some (false, .stopped, [⟨1, some closeNormal, [4, 0]⟩]) :=
  ⟨by decide, fun es s' h => run_stopped _ s' es h rfl, by decide, by decide⟩

/-- C10 (amended): when an activity signal is in the slot while the watchdog is in its
`select` (before or after the countdown has elapsed) and the watchdog takes the `readNum`
case, it removes the signal and leaves the closing flag and every other field unchanged.
At its test of `term.err` it then arms a fresh countdown of the full idle timeout if no
read error is recorded (as after a `Read` of an ordinary payload or a heartbeat); if a read
error is recorded (as after a `Read` of a close frame or a transport error) it stops and
takes no further step. -/
theorem watchdog_signal (s : System) (d x : Nat) (rest : List Nat)
    (hw : s.watchdog = .selecting d) (hb : s.term.readNum.buf = x :: rest) :
    let s1 : System :=
      { s with term := { s.term with readNum := { s.term.readNum with buf := rest } },
               watchdog := .check }
    s.step .wdSignal = some s1 ∧ s1.term.canClose = s.term.canClose ∧
      (s.term.err = none →
        s1.step .wdCheck = some { s1 with watchdog := .loopTop } ∧
        System.step { s1 with watchdog := .loopTop } .wdArm =
          some { s1 with watchdog := .selecting (s.now + s.term.timeout) }) ∧
      (s.term.err ≠ none →
        s1.step .wdCheck = some { s1 with watchdog := .stopped } ∧
        ∀ es s', System.run { s1 with watchdog := .stopped } es = some s' →
          s'.watchdog = .stopped) := by
  intro s1
  refine ⟨?_, rfl, ?_, ?_⟩
  · simp [System.step, hw, WebTerminal.watchRead, Chan.recv, hb, s1]
  · intro he
    refine ⟨?_, ?_⟩
    · simp [System.step, s1, he]
    · simp [System.step, s1]
  · intro he
    refine ⟨?_, fun es s' h => run_stopped _ s' es h rfl⟩
    simp [System.step, s1, he]

theorem watchdog_signal_witness :
    ((signalledSession 2 none).watchdog = .selecting (Minute * 20) ∧
      (signalledSession 2 none).term.readNum.buf = [2] ∧
      (signalledSession 2 none).term.err = none) ∧
      (signalledSession 2 none).run [.wdSignal, .wdCheck, .wdArm] =
        some
          { term := openSession []
            now := 5000000000
            watchdog := .selecting (5000000000 + Minute * 20)
            parked := none
            returns := [⟨2, none, [0, 0]⟩] } :=
  ⟨by decide, by
    have h := watchdog_signal (signalledSession 2 none) (Minute * 20) 2 [] rfl rfl
    simp only [System.run, h.1, (h.2.2.1 rfl).1, (h.2.2.1 rfl).2, Option.some_bind]
    rfl⟩

/-! ## `NewWebTerminal` -/

/-- C19: for every connection and all `w`, `h`, `NewWebTerminal(conn, w, h)` completes (its one
channel send does not block) and yields a session on `conn` whose `timeout` is 20 minutes
(1 200 000 000 000 ns), whose `canClose` is false, whose `err` is nil, whose activity channel
`readNum` is empty and whose `size` channel holds exactly one pending value,
`(Width = w, Height = h)`; the watchdog goroutine has been started and is at the head of
its loop. -/
theorem NewWebTerminal_fresh (conn : Conn) (w h : UInt16) (now : Nat) :
    NewWebTerminal conn w h = .done
        { conn := conn
          size := { buf := [⟨w, h⟩], cap := 1, closed := false }
          timeout := 1200000000000
          readNum := { buf := [], cap := 1, closed := false }
          canClose := false
          err := none } ∧
      (1200000000000 : Nat) = 20 * Minute ∧
      System.start conn w h now = some
        { term :=
            { conn := conn
              size := { buf := [⟨w, h⟩], cap := 1, closed := false }
              timeout := 1200000000000
              readNum := { buf := [], cap := 1, closed := false }
              canClose := false
              err := none }
          now := now
          watchdog := .loopTop
          parked := none
          returns := [] } := by
  refine ⟨?_, by decide, ?_⟩
  · simp [NewWebTerminal, Chan.send, Chan.make, Minute]
  · simp [System.start, NewWebTerminal, Chan.send, Chan.make, Minute]

/-! ## `Write`: message type and frame -/

/-- C17 (as stated, refuted): the message `Write` sends for the bytes `hi` has message type 1,
which is `websocket.TextMessage`, not `websocket.BinaryMessage`. -/
theorem Write_sends_text_frame :
    ((openSession []).Write [104, 105]).term.conn.sent = [⟨TextMessage, [104, 105]⟩] ∧
      ((openSession []).Write [104, 105]).term.conn.sent ≠ [⟨BinaryMessage, [104, 105]⟩] := by
  decide

/-- C17 (amended): every message `Write` sends to the client carries the bytes `p` as a text
websocket frame (message type 1, `websocket.TextMessage`), not as a binary frame. -/
theorem Write_message_type (a : WebTerminal) (p : Bytes) :
    (a.Write p).term.conn.sent = a.conn.sent ++ [⟨TextMessage, p⟩] ∧
      TextMessage ≠ BinaryMessage := by
  refine ⟨?_, by decide⟩
  simp [WebTerminal.Write, Conn.WriteMessage, TextMessage]

/-- C18: for every session, every `p` and every result of the connection, `Write(p)` leaves
`canClose`, `err`, the activity channel `readNum`, `timeout` and the `size` channel as they
were; as a step of the session it changes nothing but the connection: the watchdog stays
at the same program point with the same deadline, the clock, a blocked `Read` and the
results of earlier `Read` calls are untouched. -/
theorem Write_leaves_session (s : System) (p : Bytes) :
    (s.term.Write p).term.canClose = s.term.canClose ∧
      (s.term.Write p).term.err = s.term.err ∧
      (s.term.Write p).term.readNum = s.term.readNum ∧
      (s.term.Write p).term.timeout = s.term.timeout ∧
      (s.term.Write p).term.size = s.term.size ∧
      s.step (.write p) = some
        { s with term := { s.term with conn := (s.term.conn.WriteMessage 1 p).1 } } := by
  simp [WebTerminal.Write, System.step]

/-! ## What `Read` assigns and posts -/

/-- C11: a `Read` on a closing session returns with the activity channel untouched: it posts
no signal. A `Read` on a session that is not closing and that receives something from the
connection (whatever the message: ordinary payload, heartbeat, close frame or transport
error) posts exactly one signal, as its last action before it returns: with the slot empty
it returns and the slot holds its one signal `n`; with the slot occupied it waits, has
posted nothing yet, and when its send finds the slot empty it returns with its one signal
`n` in the slot. -/
theorem Read_posts_one_signal (a : WebTerminal) (p : Bytes) :
    (a.canClose = true → ∃ v, a.Read p = .returned v ∧ v.term.readNum = a.readNum) ∧
      (a.canClose = false → a.Valid → ∀ m rest, a.conn.inbound = m :: rest →
        (a.readNum.buf = [] →
          ∃ v, a.Read p = .returned v ∧ v.term.readNum = { a.readNum with buf := [v.n] }) ∧
        (a.readNum.buf ≠ [] →
          ∃ v, a.Read p = .awaitingSlot v ∧ v.term.readNum = a.readNum ∧
            ∀ t : WebTerminal, t.Valid → t.readNum.buf = [] →
              ∃ v', WebTerminal.postReadNum { v with term := t } = .returned v' ∧
                v'.term.readNum = { t.readNum with buf := [v.n] } ∧
                v'.n = v.n ∧ v'.err = v.err ∧ v'.p = v.p)) := by
  refine ⟨?_, ?_⟩
  · intro hc
    exact ⟨_, by simp [WebTerminal.Read, hc]; rfl, rfl⟩
  · intro hc hv m rest hin
    have hv1 : WebTerminal.Valid
        { a with conn := { a.conn with inbound := rest, reads := a.conn.reads + 1 } } := hv
    rw [Read_open a p m rest hc hin]
    simp only
    refine ⟨?_, ?_⟩
    · intro hb
      split_ifs
      all_goals
        rcases readDeferred_cases _ _ _ _ hv1 with ⟨-, h⟩ | ⟨hb', -⟩
        · exact ⟨_, h, rfl⟩
        · exact absurd hb hb'
    · intro hb
      split_ifs
      all_goals
        rcases readDeferred_cases _ _ _ _ hv1 with ⟨hb', -⟩ | ⟨-, h⟩
        · exact absurd hb' hb
        · refine ⟨_, h, rfl, ?_⟩
          intro t htv htb
          exact ⟨_, postReadNum_free _ htv htb, rfl, rfl, rfl, rfl⟩

theorem Read_posts_one_signal_witness :
    ((openSession [⟨1, stringBytes healthCheck, none⟩]).canClose = false ∧
      (openSession [⟨1, stringBytes healthCheck, none⟩]).Valid ∧
      (openSession [⟨1, stringBytes healthCheck, none⟩]).conn.inbound =
        [⟨1, stringBytes healthCheck, none⟩] ∧
      (openSession [⟨1, stringBytes healthCheck, none⟩]).readNum.buf = []) ∧
      ∃ v, (openSession [⟨1, stringBytes healthCheck, none⟩]).Read [7, 7] = .returned v ∧
        v.term.readNum =
          { (openSession [⟨1, stringBytes healthCheck, none⟩]).readNum with buf := [v.n] } :=
  ⟨by decide,
    ((Read_posts_one_signal (openSession [⟨1, stringBytes healthCheck, none⟩]) [7, 7]).2 rfl
      (by decide) ⟨1, stringBytes healthCheck, none⟩ [] rfl).1 rfl⟩

/-! ## The errors `Read` and `Write` return -/

/-- C16: on a connection that keeps to the contract of `ReadMessage`, every non-nil error
among the results of `Read` is the idle-timeout error (on a closing session) or the error
the connection reported for the result read, and every non-nil error `Write` returns is the
one the connection reported for its `WriteMessage` call. The branch that makes the error
`websocket CloseMessage 8` is never taken, so the idle-timeout error is the only error of
the bridge's own making that reaches a caller. -/
theorem Read_Write_errors (a : WebTerminal) (p : Bytes) (hg : a.conn.Conforms) :
    (∀ v e, (a.Read p = .returned v ∨ a.Read p = .awaitingSlot v) → v.err = some e →
        (a.canClose = true ∧ e = errorsNew errorTimeOut) ∨
        (a.canClose = false ∧ ∃ m rest, a.conn.inbound = m :: rest ∧ m.err = some e)) ∧
      (∀ e, (a.Write p).err = some e → ∃ rest, a.conn.writeErrs = some e :: rest) := by
  refine ⟨?_, ?_⟩
  · intro v e h he
    cases hc : a.canClose with
    | true =>
      left
      refine ⟨rfl, ?_⟩
      simp [WebTerminal.Read, hc] at h
      subst h
      simpa using he.symm
    | false =>
      right
      refine ⟨rfl, ?_⟩
      cases hin : a.conn.inbound with
      | nil => simp [WebTerminal.Read, hc, Conn.ReadMessage, hin] at h
      | cons m rest =>
        refine ⟨m, rest, rfl, ?_⟩
        have h1 : m.messageType ≠ CloseMessage :=
          real_not_close m (hg.1 m (by rw [hin]; exact List.mem_cons_self _ _))
        have := (Read_open_err a p m rest v hc hin h).2
        rw [he] at this
        by_cases h2 : m.data = stringBytes healthCheck
        · simp [h1, h2] at this
        · simp [h1, h2] at this
          exact this.symm
  · intro e he
    simp only [WebTerminal.Write, Conn.WriteMessage] at he
    cases hw : a.conn.writeErrs with
    | nil => simp [hw] at he
    | cons x rest =>
      simp [hw] at he
      exact ⟨rest, by simp [he]⟩

theorem Read_Write_errors_witness :
    ((freshSession closedConn).term.conn.Conforms ∧
      (freshSession closedConn).term.Read [7, 7] =
        .returned ⟨1, some closeNormal, [4, 7],
          { (freshSession closedConn).term with
              conn := ⟨[readFailure closeNormal, readFailure closeNormal], [], [], 1⟩
              err := some closeNormal
              readNum := ⟨[1], 1, false⟩ }⟩) ∧
      (((freshSession closedConn).term.canClose = true ∧ closeNormal = errorsNew errorTimeOut) ∨
        ((freshSession closedConn).term.canClose = false ∧
          ∃ m rest, (freshSession closedConn).term.conn.inbound = m :: rest ∧
            m.err = some closeNormal)) :=
  ⟨by decide,
    (Read_Write_errors (freshSession closedConn).term [7, 7] (by decide)).1
      ⟨1, some closeNormal, [4, 7],
        { (freshSession closedConn).term with
            conn := ⟨[readFailure closeNormal, readFailure closeNormal], [], [], 1⟩
            err := some closeNormal
            readNum := ⟨[1], 1, false⟩ }⟩
      closeNormal (Or.inl (by decide)) rfl⟩

/-! ## Transport failures -/

/-- C14 (as stated, refuted): on a closing session whose connection fails the write of the
timeout notice with `write: broken pipe`, `Read` makes that write, discards its error and
returns the idle-timeout error instead of the transport error. -/
theorem notice_write_error_discarded :
    (brokenNoticeSession.conn.WriteMessage 1 (stringBytes errorTimeOut)).2 =
        some ⟨"write: broken pipe"⟩ ∧
      brokenNoticeSession.Read [0, 0] =
        .returned ⟨0, some (errorsNew errorTimeOut), [0, 0],
          { brokenNoticeSession with
              conn := ⟨[], [], [⟨1, stringBytes errorTimeOut⟩], 0⟩ }⟩ ∧
      errorsNew errorTimeOut ≠ ⟨"write: broken pipe"⟩ := by
  decide

/-- C14 (amended): `Write` returns the error of its `WriteMessage` call. A `Read` on a session
that is not closing, having received the message `m`, has as error result the remote-closed
error when `m` is a close frame, nil when the payload of `m` is the heartbeat sentinel, and
otherwise exactly the error the connection reported for `m`; it returns this result when
the activity slot is empty and waits in its deferred send when it is occupied. A `Read` on
a closing session returns the idle-timeout error whatever the write of the notice
reported: that failure is discarded. -/
theorem transport_errors_returned (a : WebTerminal) (p : Bytes) :
    (a.Write p).err = (a.conn.WriteMessage 1 p).2 ∧
      (a.canClose = true →
        ∃ v, a.Read p = .returned v ∧ v.err = some (errorsNew errorTimeOut)) ∧
      (a.canClose = false → a.Valid → ∀ m rest, a.conn.inbound = m :: rest →
        ∃ v, (a.readNum.buf = [] → a.Read p = .returned v) ∧
          (a.readNum.buf ≠ [] → a.Read p = .awaitingSlot v) ∧
          v.err =
            if m.messageType = CloseMessage then some (errorsNew "websocket CloseMessage 8")
            else if m.data = stringBytes healthCheck then none
            else m.err) := by
  refine ⟨rfl, ?_, ?_⟩
  · intro hc
    exact ⟨_, by simp [WebTerminal.Read, hc]; rfl, rfl⟩
  · intro hc hv m rest hin
    have hv1 : WebTerminal.Valid
        { a with conn := { a.conn with inbound := rest, reads := a.conn.reads + 1 } } := hv
    have key : ∀ (n : Nat) (e : Option GoError) (q : Bytes),
        ∃ v, (a.readNum.buf = [] →
            WebTerminal.readDeferred
              { a with conn := { a.conn with inbound := rest, reads := a.conn.reads + 1 } }
              n e q = .returned v) ∧
          (a.readNum.buf ≠ [] →
            WebTerminal.readDeferred
              { a with conn := { a.conn with inbound := rest, reads := a.conn.reads + 1 } }
              n e q = .awaitingSlot v) ∧ v.err = e := by
      intro n e q
      rcases readDeferred_cases _ n e q hv1 with ⟨hb, h⟩ | ⟨hb, h⟩
      · exact ⟨_, fun _ => h, fun hb' => absurd hb hb', rfl⟩
      · exact ⟨_, fun hb' => absurd hb' hb, fun _ => h, rfl⟩
    rw [Read_open a p m rest hc hin]
    simp only
    split_ifs with h1 h2 h3
    · exact key _ _ _
    · exact key _ _ _
    · exact key _ _ _
    · exact key _ _ _

theorem transport_errors_returned_witness :
    ((openSession [⟨-1, [], some ⟨"unexpected EOF"⟩⟩]).canClose = false ∧
      (openSession [⟨-1, [], some ⟨"unexpected EOF"⟩⟩]).Valid ∧
      (openSession [⟨-1, [], some ⟨"unexpected EOF"⟩⟩]).conn.inbound =
        [⟨-1, [], some ⟨"unexpected EOF"⟩⟩]) ∧
      ∃ v, ((openSession [⟨-1, [], some ⟨"unexpected EOF"⟩⟩]).readNum.buf = [] →
          (openSession [⟨-1, [], some ⟨"unexpected EOF"⟩⟩]).Read [7, 7] = .returned v) ∧
        ((openSession [⟨-1, [], some ⟨"unexpected EOF"⟩⟩]).readNum.buf ≠ [] →
          (openSession [⟨-1, [], some ⟨"unexpected EOF"⟩⟩]).Read [7, 7] = .awaitingSlot v) ∧
        v.err =
          if (-1 : Int) = CloseMessage then some (errorsNew "websocket CloseMessage 8")
          else if ([] : Bytes) = stringBytes healthCheck then none
          else some ⟨"unexpected EOF"⟩ :=
  ⟨by decide,
    (transport_errors_returned (openSession [⟨-1, [], some ⟨"unexpected EOF"⟩⟩]) [7, 7]).2.2
      rfl (by decide) ⟨-1, [], some ⟨"unexpected EOF"⟩⟩ [] rfl⟩

/-! ## The recorded error -/

/-- Once an error is recorded on a conforming connection, a step keeps it recorded, and a
`Read` that returns in that step returns it, or the idle-timeout error on a closing
session. -/
theorem recorded_step (s s' : System) (ev : Event) (e : GoError) (h : s.step ev = some s')
    (hs : s.Sound) (he : s.term.err = some e) :
    s'.term.err = some e ∧
      ∃ l, s'.returns = s.returns ++ l ∧
        ∀ r ∈ l, r.err = some e ∨
          (r.err = some (errorsNew errorTimeOut) ∧ s.term.canClose = true) := by
  cases ev with
  | tick d => simp [System.step] at h; subst h; exact ⟨he, [], by simp, by simp⟩
  | wdArm =>
    simp only [System.step] at h
    split at h
    · simp at h; subst h; exact ⟨he, [], by simp, by simp⟩
    · simp at h
  | wdTimeout =>
    simp only [System.step] at h
    split at h
    · split_ifs at h
      simp [WebTerminal.watchRead] at h
      subst h; exact ⟨he, [], by simp, by simp⟩
    · simp at h
  | wdSignal =>
    simp only [System.step] at h
    split at h
    · simp only [Option.map_eq_some'] at h
      obtain ⟨t, ht, rfl⟩ := h
      exact ⟨(watchRead_readNum _ _ ht).2.1.trans he, [], by simp, by simp⟩
    · simp at h
  | wdCheck =>
    simp only [System.step] at h
    split at h
    · split_ifs at h
      all_goals simp at h
      all_goals subst h
      all_goals exact ⟨he, [], by simp, by simp⟩
    · simp at h
  | read p =>
    simp only [System.step] at h
    split at h
    · simp at h
    · rename_i hpk
      cases hc : s.term.canClose with
      | true =>
        simp [WebTerminal.Read, hc, Conn.WriteMessage] at h
        subst h
        exact ⟨he, _, rfl, by simp⟩
      | false =>
        cases hin : s.term.conn.inbound with
        | nil => simp [WebTerminal.Read, hc, Conn.ReadMessage, hin] at h
        | cons m rest =>
          obtain ⟨hv, -, hg, -, hf, -⟩ := hs
          have hm : m = ⟨noFrame, [], some e⟩ := by
            rcases hf m (by rw [hin]; exact List.mem_cons_self _ _) with h0 | h0
            · rw [he] at h0; exact absurd h0 (by simp)
            · rw [he] at h0; exact h0
          have hreal := (conforms_cons _ m rest hg hin).1
          obtain ⟨n, eb, q, hrd, -, hebh⟩ := Read_conforming s.term p m rest hc hin hreal
          have heb : eb = some e := by
            rw [hebh (by rw [hm]; exact readFailure_not_heartbeat), hm]
          subst heb
          have hv1 : WebTerminal.Valid
              { s.term with conn := { s.term.conn with inbound := rest, reads := s.term.conn.reads + 1 } } := hv
          rw [hrd] at h
          rcases readDeferred_cases _ n (some e) q hv1 with ⟨-, hcase⟩ | ⟨-, hcase⟩
          · rw [hcase] at h
            simp at h; subst h
            exact ⟨rfl, _, rfl, by simp⟩
          · rw [hcase] at h
            simp at h; subst h
            exact ⟨rfl, [], by simp, by simp⟩
  | readResume =>
    simp only [System.step] at h
    split at h
    · simp at h
    · split at h
      · rename_i r hpk _ v hr
        simp at h; subst h
        have herr := (postReadNum_returned _ _ hr).2.2.2.2.2.1
        simp only at herr
        have hre : r.err = some e := (hs.2.2.2.2.2 r hpk).trans he
        exact ⟨herr.trans he, [r], rfl, by simp [hre]⟩
      · simp at h
  | write p =>
    simp [System.step] at h; subst h
    exact ⟨he, [], by simp, by simp⟩
  | next =>
    simp only [System.step] at h
    split at h
    · rename_i v t hn
      simp at h; subst h
      exact ⟨(Next_frame _ _ _ hn).2.1.trans he, [], by simp, by simp⟩
    · simp at h
    · simp at h

theorem recorded_run (s s' : System) (fs : List Event) (e : GoError) (h : s.run fs = some s')
    (hs : s.Sound) (he : s.term.err = some e) :
    s'.term.err = some e ∧
      ∃ l, s'.returns = s.returns ++ l ∧
        ∀ r ∈ l, r.err = some e ∨
          (r.err = some (errorsNew errorTimeOut) ∧ s'.term.canClose = true) := by
  induction fs generalizing s with
  | nil => simp [System.run] at h; subst h; exact ⟨he, [], by simp, by simp⟩
  | cons ev fs ih =>
    simp only [System.run, Option.bind_eq_some] at h
    obtain ⟨s1, h1, h2⟩ := h
    obtain ⟨he1, l1, hl1, hr1⟩ := recorded_step s s1 ev e h1 hs he
    obtain ⟨he2, l2, hl2, hr2⟩ := ih s1 h2 (step_sound _ _ _ h1 hs) he1
    refine ⟨he2, l1 ++ l2, by rw [hl2, hl1, List.append_assoc], ?_⟩
    intro r hr
    rcases List.mem_append.mp hr with hr | hr
    · rcases hr1 r hr with h0 | ⟨h0, hc⟩
      · exact Or.inl h0
      · exact Or.inr ⟨h0, run_canClose s1 s' fs h2 (step_canClose s s1 ev h1 hc)⟩
    · exact hr2 r hr

/-- C15 (as stated, refuted): the peer closes the connection as the countdown of the
watchdog runs out. The first `Read` returns the close error and records it in `err`; the
watchdog, finding its timer fired, sets `canClose` and then leaves its loop. The next `Read`
finds the session closing and returns the idle-timeout error: the recorded error, still in
`err`, is not what the call surfaces. -/
theorem recorded_error_not_surfaced :
    closedConn.Conforms ∧
      ((System.start closedConn 80 24 0).bind
        (fun s => s.run [.wdArm, .tick (Minute * 20), .read [0, 0]])).map
          (fun s => (s.term.err, s.returns)) =
        some (some closeNormal, [⟨1, some closeNormal, [4, 0]⟩]) ∧
      ((System.start closedConn 80 24 0).bind
        (fun s => s.run [.wdArm, .tick (Minute * 20), .read [0, 0], .wdTimeout, .wdCheck,
          .read [0, 0]])).map (fun s => (s.term.err, s.returns)) =
        some (some closeNormal,
          [⟨1, some closeNormal, [4, 0]⟩, ⟨0, some (errorsNew errorTimeOut), [0, 0]⟩]) ∧
      errorsNew errorTimeOut ≠ closeNormal := by
  decide

/-- C15 (amended): on a connection that keeps to the contract of `ReadMessage`, whose read
errors are permanent, once a `Read` has recorded the non-nil error `e` in `err`, every later
step of the session (`Read`, `Write`, `Next`, the watchdog, the passing of time) leaves
`err = e`, and no later `Read` succeeds: every `Read` that returns afterwards returns the
error `e`, or the idle-timeout error when the session has become closing. -/
theorem recorded_error_stays (conn : Conn) (w h : UInt16) (now : Nat) (es fs : List Event)
    (s0 s s' : System) (e : GoError) (hg : conn.Conforms)
    (h0 : System.start conn w h now = some s0) (hrun : s0.run es = some s)
    (he : s.term.err = some e) (hlater : s.run fs = some s') :
    s'.term.err = some e ∧
      ∃ l, s'.returns = s.returns ++ l ∧
        ∀ r ∈ l, r.err = some e ∨
          (r.err = some (errorsNew errorTimeOut) ∧ s'.term.canClose = true) :=
  recorded_run s s' fs e hlater (reach_sound conn w h now es s0 s hg h0 hrun) he

theorem recorded_error_stays_witness :
    (closedConn.Conforms ∧ System.start closedConn 80 24 0 = some (freshSession closedConn) ∧
      (freshSession closedConn).run [.wdArm, .read [0, 0]] = some closedAfterRead ∧
      closedAfterRead.term.err = some closeNormal ∧
      closedAfterRead.run [.wdSignal, .wdCheck, .read [0, 0]] = some closedAfterSecondRead) ∧
      closedAfterSecondRead.term.err = some closeNormal ∧
      ∃ l, closedAfterSecondRead.returns = closedAfterRead.returns ++ l ∧
        ∀ r ∈ l, r.err = some closeNormal ∨
          (r.err = some (errorsNew errorTimeOut) ∧
            closedAfterSecondRead.term.canClose = true) :=
  ⟨by decide,
    recorded_error_stays closedConn 80 24 0 [.wdArm, .read [0, 0]]
      [.wdSignal, .wdCheck, .read [0, 0]] (freshSession closedConn) closedAfterRead
      closedAfterSecondRead closeNormal (by decide) (by decide) (by decide) rfl (by decide)⟩

/-! ## The handoff from `Read` to the watchdog -/

/-- On a valid session that is not closing, with the slot occupied and a message available,
`Read` waits in its deferred send and the activity channel is as it was. -/
theorem Read_occupied_parks (a : WebTerminal) (p : Bytes) (m : Inbound) (rest : List Inbound)
    (hv : a.Valid) (hc : a.canClose = false) (hb : a.readNum.buf ≠ [])
    (hin : a.conn.inbound = m :: rest) :
    ∃ v, a.Read p = .awaitingSlot v ∧ v.term.readNum = a.readNum := by
  rcases Read_occupied a p hv hc hb with h | h
  · simp [WebTerminal.Read, hc, Conn.ReadMessage, hin] at h
    split_ifs at h
    all_goals
      simp only [WebTerminal.readDeferred] at h
      rw [postReadNum_occupied _ hv hb] at h
      simp at h
  · exact h

/-- C12 (as stated, refuted): on a fresh session the watchdog arms its countdown and the
first `Read` returns `ls`, leaving its signal in the slot. The second `Read` receives the
newline while that signal is still unconsumed: it does not return (its results are held,
the slot still contains the first signal) and it cannot return before the watchdog acts.
Once the watchdog has taken the first signal the second `Read` puts its own signal in the
slot and returns: the signal is delivered, not dropped. -/
theorem handoff_waits_for_watchdog :
    ((System.start twoMessageConn 80 24 0).bind
        (fun s => s.run [.wdArm, .read [0, 0], .read [0, 0]])).map
          (fun s => (s.parked, s.returns, s.term.readNum.buf)) =
        some (some ⟨1, none, [10, 0]⟩, [⟨2, none, [108, 115]⟩], [2]) ∧
      (System.start twoMessageConn 80 24 0).bind
        (fun s => s.run [.wdArm, .read [0, 0], .read [0, 0], .readResume]) = none ∧
      ((System.start twoMessageConn 80 24 0).bind
        (fun s => s.run [.wdArm, .read [0, 0], .read [0, 0], .wdSignal, .readResume])).map
          (fun s => (s.parked, s.returns, s.term.readNum.buf)) =
        some (none, [⟨2, none, [108, 115]⟩, ⟨1, none, [10, 0]⟩], [1]) := by
  decide

/-- C12 (amended): the handoff from `Read` to the watchdog is a blocking send on a channel of
capacity 1. On a session that is not closing, with the slot occupied by an unconsumed
earlier signal, a further `Read` that receives a message does not return: it holds its
results `r`, leaves the slot and the results of earlier calls as they were, and cannot
resume while the slot is occupied. In any later state in which the slot is empty it
resumes: it puts its own signal `r.n` in the slot (nothing is dropped) and returns `r`. -/
theorem handoff_blocks (s : System) (p : Bytes) (m : Inbound) (rest : List Inbound)
    (hp : s.parked = none) (hv : s.term.Valid) (hc : s.term.canClose = false)
    (hb : s.term.readNum.buf ≠ []) (hin : s.term.conn.inbound = m :: rest) :
    ∃ (r : ReadReturn) (s1 : System),
      s.step (.read p) = some s1 ∧ s1.parked = some r ∧ s1.returns = s.returns ∧
      s1.term.readNum = s.term.readNum ∧ s1.step .readResume = none ∧
      ∀ s2 : System, s2.parked = some r → s2.term.Valid → s2.term.readNum.buf = [] →
        s2.step .readResume = some
          { s2 with
              term := { s2.term with readNum := { s2.term.readNum with buf := [r.n] } }
              parked := none
              returns := s2.returns ++ [r] } := by
  obtain ⟨v, hr, hrn⟩ := Read_occupied_parks s.term p m rest hv hc hb hin
  have hv1 : v.term.Valid := by simpa [WebTerminal.Valid, hrn] using hv
  have hb1 : v.term.readNum.buf ≠ [] := by simpa [hrn] using hb
  refine ⟨⟨v.n, v.err, v.p⟩, { s with term := v.term, parked := some ⟨v.n, v.err, v.p⟩ },
    ?_, rfl, rfl, hrn, ?_, ?_⟩
  · simp [System.step, hp, hr]
  · simp only [System.step]
    rw [postReadNum_occupied _ hv1 hb1]
  · intro s2 hp2 hv2 hb2
    simp only [System.step, hp2]
    rw [postReadNum_free _ hv2 hb2]

theorem handoff_blocks_witness :
    ((signalledSession 2 none).parked = none ∧ (signalledSession 2 none).term.Valid ∧
      (signalledSession 2 none).term.canClose = false ∧
      (signalledSession 2 none).term.readNum.buf ≠ []) ∧
      ∃ (r : ReadReturn) (s1 : System),
        System.step
            { signalledSession 2 none with
                term := { (signalledSession 2 none).term with conn := ⟨[⟨1, [10], none⟩], [], [], 1⟩ } }
            (.read [0, 0]) = some s1 ∧
          s1.parked = some r ∧ s1.returns = (signalledSession 2 none).returns ∧
          s1.term.readNum = (signalledSession 2 none).term.readNum ∧
          s1.step .readResume = none ∧
          ∀ s2 : System, s2.parked = some r → s2.term.Valid → s2.term.readNum.buf = [] →
            s2.step .readResume = some
              { s2 with
                  term := { s2.term with readNum := { s2.term.readNum with buf := [r.n] } }
                  parked := none
                  returns := s2.returns ++ [r] } :=
  ⟨by decide,
    handoff_blocks
      { signalledSession 2 none with
          term := { (signalledSession 2 none).term with conn := ⟨[⟨1, [10], none⟩], [], [], 1⟩ } }
      [0, 0] ⟨1, [10], none⟩ [] rfl (by decide) rfl (by decide) rfl⟩

/-! ## Sequences of `Read` calls -/

/-- One round of `serveReads`: `Read` receives the ordinary message `m` and returns, and
the watchdog takes the signal and arms its next countdown. -/
theorem serve_round (s : System) (p : Bytes) (m : Inbound) (rest : List Inbound) (d : Nat)
    (hp : s.parked = none) (hv : s.term.Valid) (hc : s.term.canClose = false)
    (hb : s.term.readNum.buf = []) (hw : s.watchdog = .selecting d)
    (hin : s.term.conn.inbound = m :: rest) (ht : m.messageType ≠ CloseMessage)
    (hh : m.data ≠ stringBytes healthCheck) (he : m.err = none) :
    ∃ s1, s.run [.read p, .wdSignal, .wdCheck, .wdArm] = some s1 ∧ s1.parked = none ∧
      s1.term.Valid ∧ s1.term.canClose = false ∧ s1.term.readNum.buf = [] ∧
      s1.watchdog = .selecting (s.now + s.term.timeout) ∧ s1.term.conn.inbound = rest ∧
      s1.returns = s.returns ++ [⟨(copy p m.data).1, none, (copy p m.data).2⟩] := by
  obtain ⟨hcap, hcl⟩ := hv
  have hread : s.term.Read p = .returned
      ⟨(copy p m.data).1, none, (copy p m.data).2,
        { s.term with
            conn := { s.term.conn with inbound := rest, reads := s.term.conn.reads + 1 }
            err := none
            readNum := { s.term.readNum with buf := [(copy p m.data).1] } }⟩ := by
    rw [Read_open s.term p m rest hc hin]
    simp only [ht, hh, he, if_false, ne_eq, not_true_eq_false, WebTerminal.readDeferred]
    rw [postReadNum_free _ ⟨hcap, hcl⟩ hb]
  refine ⟨{ s with
      term := { s.term with
        conn := { s.term.conn with inbound := rest, reads := s.term.conn.reads + 1 }
        err := none
        readNum := { s.term.readNum with buf := [] } }
      watchdog := .selecting (s.now + s.term.timeout)
      returns := s.returns ++ [⟨(copy p m.data).1, none, (copy p m.data).2⟩] }, ?_, ?_⟩
  · simp only [System.run, System.step, hp, hread, Option.some_bind, hw,
      WebTerminal.watchRead, Chan.recv, Option.map_some', ne_eq, not_true_eq_false, if_false]
  · exact ⟨hp, ⟨hcap, hcl⟩, hc, rfl, rfl, rfl, rfl⟩

theorem served_cons (m : Inbound) (ms : List Inbound) (p : Bytes) (ps : List Bytes) :
    served (m :: ms) (p :: ps) =
      ⟨(copy p m.data).1, none, (copy p m.data).2⟩ :: served ms ps := rfl

/-- Each served `Read` hands over the first `min(len(p), len(msg))` bytes of its message. -/
theorem served_bytes (msgs : List Inbound) (ps : List Bytes) :
    (served msgs ps).map ReadReturn.bytes =
      List.zipWith (fun m p => m.data.take (min p.length m.data.length)) msgs ps := by
  induction msgs generalizing ps with
  | nil => rfl
  | cons m ms ih =>
    cases ps with
    | nil => rfl
    | cons p ps =>
      simp only [served_cons, List.map_cons, List.zipWith_cons_cons, ih]
      congr 1
      exact copy_take p m.data

/-- When every buffer is at least as long as its message, nothing is cut off. -/
theorem served_received (msgs : List Inbound) (ps : List Bytes)
    (h : List.Forall₂ (fun m p => m.data.length ≤ p.length) msgs ps) :
    received (served msgs ps) = payloads msgs := by
  induction h with
  | nil => rfl
  | @cons m p ms ps' hmp _ ih =>
    simp only [served_cons, received, payloads, ih]
    congr 1
    have := copy_take p m.data
    simp only [copy_fst] at this
    simp only [ReadReturn.bytes, copy_fst, this]
    exact List.take_of_length_le (by omega)

/-- C13 (as stated, refuted): the client sends `hi` and then `!`; the caller reads twice with
a buffer of one byte. The first `Read` returns the single byte `h` and the second returns
`!`: the bytes returned are `h!`, the payloads were `hi!`, and the byte `i` is dropped. -/
theorem short_buffer_drops_bytes :
    ((System.start hiBangConn 80 24 0).bind
        (fun s => s.run (.wdArm :: serveReads [[0], [0]]))).map
          (fun s => (s.returns, received s.returns, s.term.conn.inbound)) =
        some ([⟨1, none, [104]⟩, ⟨1, none, [33]⟩], [104, 33], []) ∧
      payloads hiBangConn.inbound = [104, 105, 33] := by
  decide

theorem serve_all (s : System) (msgs : List Inbound) (ps : List Bytes) (rest : List Inbound)
    (d : Nat) (hp : s.parked = none) (hv : s.term.Valid) (hc : s.term.canClose = false)
    (hb : s.term.readNum.buf = []) (hw : s.watchdog = .selecting d)
    (hin : s.term.conn.inbound = msgs ++ rest)
    (hm : ∀ m ∈ msgs, m.messageType ≠ CloseMessage ∧ m.data ≠ stringBytes healthCheck ∧
      m.err = none)
    (hl : ps.length = msgs.length) :
    ∃ s', s.run (serveReads ps) = some s' ∧ s'.returns = s.returns ++ served msgs ps ∧
      s'.term.conn.inbound = rest ∧ s'.term.canClose = false := by
  induction msgs generalizing s ps d with
  | nil =>
    have hps : ps = [] := List.length_eq_zero.mp (by simpa using hl)
    subst hps
    exact ⟨s, rfl, by simp [served], by simpa using hin, hc⟩
  | cons m ms ih =>
    obtain ⟨p, ps', rfl⟩ : ∃ p ps', ps = p :: ps' := by
      cases ps with
      | nil => simp at hl
      | cons p ps' => exact ⟨p, ps', rfl⟩
    have hm0 := hm m (List.mem_cons_self m ms)
    obtain ⟨s1, hrun, hp1, hv1, hc1, hb1, hw1, hin1, hret1⟩ :=
      serve_round s p m (ms ++ rest) d hp hv hc hb hw (by simpa using hin) hm0.1 hm0.2.1 hm0.2.2
    obtain ⟨s', hrun', hret', hin', hc'⟩ :=
      ih s1 ps' _ hp1 hv1 hc1 hb1 hw1 hin1
        (fun m' hm' => hm m' (List.mem_cons_of_mem m hm')) (by simpa using hl)
    refine ⟨s', ?_, ?_, hin', hc'⟩
    · have hs : serveReads (p :: ps') =
          [.read p, .wdSignal, .wdCheck, .wdArm] ++ serveReads ps' := rfl
      rw [hs, run_append, hrun]
      simpa using hrun'
    · rw [hret', hret1, served_cons]
      simp

/-- C13 (amended): on a session that is not closing, with the slot empty and the watchdog in
its `select`, let the next inbound messages `msgs` contain no close frame, no transport
error and no heartbeat sentinel, and let the caller call `Read` once per message with the
buffers `ps`, the watchdog taking each call's signal before the next call. Then every call
returns with a nil error, in arrival order, and hands over the first
`min(len(buffer), len(message))` bytes of its message; the bytes of a message beyond the
length of its buffer are dropped. When every buffer is at least as long as its message, the
concatenation of the bytes returned equals the concatenation of the payloads. -/
theorem reads_in_arrival_order (s : System) (msgs : List Inbound) (ps : List Bytes)
    (rest : List Inbound) (d : Nat) (hp : s.parked = none) (hv : s.term.Valid)
    (hc : s.term.canClose = false) (hb : s.term.readNum.buf = [])
    (hw : s.watchdog = .selecting d) (hin : s.term.conn.inbound = msgs ++ rest)
    (hm : ∀ m ∈ msgs, m.messageType ≠ CloseMessage ∧ m.data ≠ stringBytes healthCheck ∧
      m.err = none)
    (hl : ps.length = msgs.length) :
    ∃ s', s.run (serveReads ps) = some s' ∧ s'.returns = s.returns ++ served msgs ps ∧
      s'.term.conn.inbound = rest ∧ s'.term.canClose = false ∧
      (∀ r ∈ served msgs ps, r.err = none) ∧
      (served msgs ps).map ReadReturn.bytes =
        List.zipWith (fun m p => m.data.take (min p.length m.data.length)) msgs ps ∧
      (List.Forall₂ (fun m p => m.data.length ≤ p.length) msgs ps →
        received (served msgs ps) = payloads msgs) := by
  obtain ⟨s', h1, h2, h3, h4⟩ := serve_all s msgs ps rest d hp hv hc hb hw hin hm hl
  refine ⟨s', h1, h2, h3, h4, ?_, served_bytes msgs ps, served_received msgs ps⟩
  intro r hr
  simp only [served, List.mem_iff_get, List.get_eq_getElem, List.getElem_zipWith] at hr
  obtain ⟨i, rfl⟩ := hr
  rfl

theorem reads_in_arrival_order_witness :
    ((servingSession hiBangConn.inbound).parked = none ∧
      (servingSession hiBangConn.inbound).term.Valid ∧
      (servingSession hiBangConn.inbound).term.canClose = false ∧
      (servingSession hiBangConn.inbound).term.readNum.buf = [] ∧
      (servingSession hiBangConn.inbound).watchdog = .selecting (Minute * 20) ∧
      (servingSession hiBangConn.inbound).term.conn.inbound = hiBangConn.inbound ++ [] ∧
      (∀ m ∈ hiBangConn.inbound, m.messageType ≠ CloseMessage ∧
        m.data ≠ stringBytes healthCheck ∧ m.err = none) ∧
      roomyBuffers.length = hiBangConn.inbound.length) ∧
      ∃ s', (servingSession hiBangConn.inbound).run (serveReads roomyBuffers) = some s' ∧
        s'.returns =
          (servingSession hiBangConn.inbound).returns ++
            served hiBangConn.inbound roomyBuffers ∧
        s'.term.conn.inbound = [] ∧ s'.term.canClose = false ∧
        (∀ r ∈ served hiBangConn.inbound roomyBuffers, r.err = none) ∧
        (served hiBangConn.inbound roomyBuffers).map ReadReturn.bytes =
          List.zipWith (fun m p => m.data.take (min p.length m.data.length))
            hiBangConn.inbound roomyBuffers ∧
        (List.Forall₂ (fun m p => m.data.length ≤ p.length) hiBangConn.inbound roomyBuffers →
          received (served hiBangConn.inbound roomyBuffers) =
            payloads hiBangConn.inbound) :=
  ⟨by decide,
    reads_in_arrival_order (servingSession hiBangConn.inbound) hiBangConn.inbound
      roomyBuffers [] (Minute * 20) rfl (by decide) rfl rfl rfl rfl (by decide) rfl⟩

/-! ## `PodTTY` -/

/-- C20 (the code departs from the claim): whenever `NewSPDYExecutor` succeeds, `PodTTY` hands
`exec.Stream` options in which the bridge it created is `Stdin`, `Stdout` and `Stderr` and
`Tty` is true, but `TerminalSizeQueue` is nil: the bridge is not the resize queue, so
nothing on the remote side can call its `Next`, and the size `(cols, rows)` stays pending
in the bridge's `size` channel. -/
theorem PodTTY_omits_size_queue (stream : StreamOptions → Option GoError) (conn : Conn)
    (cols rows : UInt16) :
    ∃ (term : WebTerminal) (opts : StreamOptions),
      NewWebTerminal conn cols rows = .done term ∧
      PodTTY (.ok stream) conn cols rows = .done { err := stream opts, streamed := some opts } ∧
      opts.Stdin = some term ∧ opts.Stdout = some term ∧ opts.Stderr = some term ∧
      opts.Tty = true ∧ opts.TerminalSizeQueue = none ∧
      term.size.buf = [⟨cols, rows⟩] :=
  ⟨⟨conn, ⟨[⟨cols, rows⟩], 1, false⟩, Minute * 20, ⟨[], 1, false⟩, false, none⟩,
    ⟨some ⟨conn, ⟨[⟨cols, rows⟩], 1, false⟩, Minute * 20, ⟨[], 1, false⟩, false, none⟩,
      some ⟨conn, ⟨[⟨cols, rows⟩], 1, false⟩, Minute * 20, ⟨[], 1, false⟩, false, none⟩,
      some ⟨conn, ⟨[⟨cols, rows⟩], 1, false⟩, Minute * 20, ⟨[], 1, false⟩, false, none⟩,
      true, none⟩,
    by simp [NewWebTerminal, Chan.send, Chan.make],
    by simp [PodTTY, NewWebTerminal, Chan.send, Chan.make],
    rfl, rfl, rfl, rfl, rfl, rfl⟩

/-! ## The timeout notice -/

/-- C21 (as stated, refuted): on a session whose idle timeout has expired, three `Read` calls
each return the idle-timeout error and each send the timeout notice: the connection has
been sent three notices, not one. -/
theorem every_closing_read_sends_notice :
    (closingSystem.run [.read [0], .read [0], .read [0]]).map
        (fun s => (s.term.conn.sent, s.returns)) =
      some
        ([⟨1, stringBytes errorTimeOut⟩, ⟨1, stringBytes errorTimeOut⟩,
            ⟨1, stringBytes errorTimeOut⟩],
          [⟨0, some (errorsNew errorTimeOut), [0]⟩, ⟨0, some (errorsNew errorTimeOut), [0]⟩,
            ⟨0, some (errorsNew errorTimeOut), [0]⟩]) := by
  decide

/-- C21 (amended): every `Read` called after the idle timeout has expired sends one timeout
notice and returns the idle-timeout error without reading the connection: after `k` such
calls the connection has been sent `k` notices, one per call. -/
theorem closing_reads_send_notices (s : System) (ps : List Bytes)
    (hc : s.term.canClose = true) (hp : s.parked = none) :
    ∃ s', s.run (ps.map Event.read) = some s' ∧
      s'.term.conn.sent =
        s.term.conn.sent ++ List.replicate ps.length ⟨1, stringBytes errorTimeOut⟩ ∧
      s'.returns = s.returns ++ ps.map (fun p => ⟨0, some (errorsNew errorTimeOut), p⟩) ∧
      s'.term.conn.inbound = s.term.conn.inbound ∧ s'.term.conn.reads = s.term.conn.reads := by
  induction ps generalizing s with
  | nil => exact ⟨s, rfl, by simp, by simp, rfl, rfl⟩
  | cons p ps ih =>
    obtain ⟨s1, h1, hc1, hp1, hsent1, hret1, hin1, hreads1⟩ :
        ∃ s1, s.step (.read p) = some s1 ∧ s1.term.canClose = true ∧ s1.parked = none ∧
          s1.term.conn.sent = s.term.conn.sent ++ [⟨1, stringBytes errorTimeOut⟩] ∧
          s1.returns = s.returns ++ [⟨0, some (errorsNew errorTimeOut), p⟩] ∧
          s1.term.conn.inbound = s.term.conn.inbound ∧
          s1.term.conn.reads = s.term.conn.reads := by
      refine ⟨{ s with
          term := { s.term with conn := { s.term.conn with
                      writeErrs := s.term.conn.writeErrs.tail
                      sent := s.term.conn.sent ++ [⟨1, stringBytes errorTimeOut⟩] } }
          returns := s.returns ++ [⟨0, some (errorsNew errorTimeOut), p⟩] },
        ?_, hc, hp, rfl, rfl, rfl, rfl⟩
      simp [System.step, hp, WebTerminal.Read, hc, Conn.WriteMessage]
    obtain ⟨s', hrun, hsent, hret, hin, hreads⟩ := ih s1 hc1 hp1
    refine ⟨s', ?_, ?_, ?_, hin.trans hin1, hreads.trans hreads1⟩
    · simp only [List.map_cons, System.run, h1, Option.some_bind]
      exact hrun
    · rw [hsent, hsent1]
      simp [List.replicate_succ]
    · rw [hret, hret1]
      simp

theorem closing_reads_send_notices_witness :
    (closingSystem.term.canClose = true ∧ closingSystem.parked = none) ∧
      ∃ s', closingSystem.run (roomyBuffers.map Event.read) = some s' ∧
        s'.term.conn.sent =
          closingSystem.term.conn.sent ++
            List.replicate roomyBuffers.length ⟨1, stringBytes errorTimeOut⟩ ∧
        s'.returns =
          closingSystem.returns ++
            roomyBuffers.map (fun p => ⟨0, some (errorsNew errorTimeOut), p⟩) ∧
        s'.term.conn.inbound = closingSystem.term.conn.inbound ∧
        s'.term.conn.reads = closingSystem.term.conn.reads :=
  ⟨⟨rfl, rfl⟩, closing_reads_send_notices closingSystem roomyBuffers rfl rfl⟩

/-! ## Heartbeat followed by a message -/

/-- C22: on a connection that keeps to the contract of `ReadMessage`, in every state a
session reaches in which it is not closing and no `Read` is in progress, when the client has
sent the heartbeat sentinel and then an ordinary message `m`: the first `Read` returns
`(0, nil)` with its buffer untouched; the two calls one after the other, with steps of the
watchdog in between, return `(0, nil)` and then `n = min(len(p), len(m))` with a nil error
and the first `n` bytes of `m` in the buffer; and whatever the session does after the first
call, once that call has returned and while the session is not closing, the following
`Read` returns `m`'s bytes in this way. -/
theorem heartbeat_then_message (conn : Conn) (w h : UInt16) (now : Nat) (es : List Event)
    (s0 s : System) (p1 p2 : Bytes) (hbm m : Inbound) (rest : List Inbound)
    (hg : conn.Conforms) (h0 : System.start conn w h now = some s0)
    (hrun : s0.run es = some s) (hidle : s.parked = none) (hc : s.term.canClose = false)
    (hin : s.term.conn.inbound = hbm :: m :: rest)
    (hh1 : hbm.data = stringBytes healthCheck) (hh : m.data ≠ stringBytes healthCheck)
    (he : m.err = none) :
    let n := min p2.length m.data.length
    let q := m.data.take n ++ p2.drop n
    s.ReadReturns p1 ⟨0, none, p1⟩ ∧
      (∃ ws1 ws2 s', (∀ e ∈ ws1, e.handoff = true) ∧ (∀ e ∈ ws2, e.handoff = true) ∧
        s.run ((.read p1 :: ws1) ++ (.read p2 :: ws2)) = some s' ∧ s'.parked = none ∧
        s'.returns = s.returns ++ [⟨0, none, p1⟩, ⟨n, none, q⟩]) ∧
      ∀ fs s1, s.run (.read p1 :: fs) = some s1 → s1.parked = none →
        s1.term.canClose = false → s1.term.conn.inbound = m :: rest →
        (∃ l, s1.returns = s.returns ++ ⟨0, none, p1⟩ :: l) ∧
          s1.ReadReturns p2 ⟨n, none, q⟩ := by
  intro n q
  have hs : s.Sound := reach_sound conn w h now es s0 s hg h0 hrun
  obtain ⟨hret1, ws1, s1, hws1, hrun1, hp1, hr1, hin1, hc1⟩ :=
    heartbeat_read_returns s p1 hbm (m :: rest) hs hidle hc hin hh1
  refine ⟨hret1, ?_, ?_⟩
  · have hs1 : s1.Sound := run_sound s s1 _ hrun1 hs
    obtain ⟨-, ws2, s2, hws2, hrun2, hp2, hr2, -, -⟩ :=
      ordinary_read_returns s1 p2 m rest hs1 hp1 hc1 hin1 hh he
    refine ⟨ws1, ws2, s2, hws1, hws2, ?_, hp2, ?_⟩
    · rw [run_append, hrun1]
      exact hrun2
    · rw [hr2, hr1, List.append_assoc]
      rfl
  · intro fs sf hrunf hpf hcf hinf
    have hsf : sf.Sound := run_sound s sf _ hrunf hs
    refine ⟨?_, (ordinary_read_returns sf p2 m rest hsf hpf hcf hinf hh he).1⟩
    rcases hret1.2 fs sf hrunf with hl | ⟨hpk, -⟩
    · exact hl
    · rw [hpf] at hpk
      exact absurd hpk (by simp)

theorem heartbeat_then_message_witness :
    (heartbeatByteConn.Conforms ∧
      System.start heartbeatByteConn 80 24 0 = some (freshSession heartbeatByteConn) ∧
      (freshSession heartbeatByteConn).term.canClose = false ∧
      ([97] : Bytes) ≠ stringBytes healthCheck) ∧
      ∃ ws1 ws2 s', (∀ e ∈ ws1, e.handoff = true) ∧ (∀ e ∈ ws2, e.handoff = true) ∧
        (freshSession heartbeatByteConn).run ((.read [7, 7] :: ws1) ++ (.read [0, 0] :: ws2)) =
          some s' ∧
        s'.parked = none ∧
        s'.returns = (freshSession heartbeatByteConn).returns ++
          [⟨0, none, [7, 7]⟩, ⟨1, none, [97, 0]⟩] :=
  ⟨by decide,
    (heartbeat_then_message heartbeatByteConn 80 24 0 [] (freshSession heartbeatByteConn)
      (freshSession heartbeatByteConn) [7, 7] [0, 0] ⟨1, stringBytes healthCheck, none⟩
      ⟨1, [97], none⟩ [] (by decide) (by decide) rfl rfl rfl rfl rfl (by decide) rfl).2.1⟩

/-! ## `resourceREST` -/

/-- C28: for a namespace-scoped mapping `resourceREST` returns, with a nil error, a client for
the mapping's resource bound to the object's own namespace when that is not empty, and
otherwise sets the object's namespace to `default` and returns a client bound to `default`;
for a mapping of any other scope (cluster scope) it returns a client for the resource bound
to no namespace and leaves the object as it is; in no case does it return an error. -/
theorem resourceREST_targets (u : Unstructured) (mp : RESTMapping) :
    (mp.Scope = some RESTScopeNameNamespace → u.GetNamespace ≠ "" →
        resourceREST u mp = .ok (⟨mp.Resource, u.GetNamespace⟩, u)) ∧
      (mp.Scope = some RESTScopeNameNamespace → u.GetNamespace = "" →
        resourceREST u mp = .ok (⟨mp.Resource, "default"⟩, { u with Namespace := "default" })) ∧
      (∀ scope, mp.Scope = some scope → scope ≠ RESTScopeNameNamespace →
        resourceREST u mp = .ok (⟨mp.Resource, ""⟩, u)) ∧
      (∀ e, resourceREST u mp ≠ .err e) := by
  refine ⟨?_, ?_, ?_, ?_⟩
  · intro hs hn
    simp [resourceREST, hs, deref, Outcome.bind, hn, DynamicClientResource,
      ResourceInterface.InNamespace]
  · intro hs hn
    have hn' : u.Namespace = "" := hn
    simp [resourceREST, hs, deref, Outcome.bind, hn', DynamicClientResource,
      ResourceInterface.InNamespace, Unstructured.SetNamespace, Unstructured.GetNamespace]
  · intro scope hs hn
    simp [resourceREST, hs, deref, Outcome.bind, hn, DynamicClientResource]
  · intro e
    cases hs : mp.Scope with
    | none => simp [resourceREST, hs, deref, Outcome.bind]
    | some scope =>
      simp only [resourceREST, hs, deref, Outcome.bind]
      split_ifs <;> simp

theorem resourceREST_targets_witness :
    ((⟨⟨"apps", "v1", "deployments"⟩, some RESTScopeNameNamespace⟩ : RESTMapping).Scope =
        some RESTScopeNameNamespace ∧
      (⟨"", [("kind", "Deployment")]⟩ : Unstructured).GetNamespace = "") ∧
      resourceREST ⟨"", [("kind", "Deployment")]⟩
          ⟨⟨"apps", "v1", "deployments"⟩, some RESTScopeNameNamespace⟩ =
        .ok (⟨⟨"apps", "v1", "deployments"⟩, "default"⟩,
          { (⟨"", [("kind", "Deployment")]⟩ : Unstructured) with Namespace := "default" }) :=
  ⟨⟨rfl, rfl⟩,
    (resourceREST_targets ⟨"", [("kind", "Deployment")]⟩
      ⟨⟨"apps", "v1", "deployments"⟩, some RESTScopeNameNamespace⟩).2.1 rfl rfl⟩

/-! ## `PodDetail` -/

theorem splitChars_no_sep (sep : Char) (cs : List Char) (h : sep ∉ cs) :
    splitChars sep cs = [cs] := by
  induction cs with
  | nil => rfl
  | cons c cs ih =>
    have hc : c ≠ sep := fun e => h (by simp [e])
    have hcs : sep ∉ cs := fun e => h (List.mem_cons_of_mem c e)
    simp [splitChars, hc, ih hcs]

/-- The first loop completes when every container status that is ready has a running
state to take the start time from. -/
theorem containers_ok (env : PodDetailEnv) (l : List Apiv1.ContainerStatus)
    (h : ∀ cs ∈ l, cs.Ready = true → cs.State.Running ≠ none) :
    ∃ r, PodDetail.containers env l = .ok r := by
  induction l with
  | nil => exact ⟨_, rfl⟩
  | cons cs rest ih =>
    obtain ⟨r, hr⟩ := ih fun x hx => h x (List.mem_cons_of_mem cs hx)
    have h0 := h cs (List.mem_cons_self cs rest)
    cases hready : cs.Ready with
    | false => exact ⟨_, by simp [PodDetail.containers, hready, Outcome.bind, hr]; rfl⟩
    | true =>
      cases hrun : cs.State.Running with
      | none => exact absurd hrun (h0 hready)
      | some running =>
        exact ⟨_, by simp [PodDetail.containers, hready, hrun, deref, Outcome.bind, hr]; rfl⟩

theorem waiting_append (p : PodInfo) (l1 l2 : List Apiv1.ContainerStatus) :
    PodDetail.waiting p (l1 ++ l2) = PodDetail.waiting (PodDetail.waiting p l1) l2 := by
  induction l1 generalizing p with
  | nil => rfl
  | cons cs rest ih =>
    simp only [List.cons_append, PodDetail.waiting]
    cases cs.State.Waiting with
    | none => exact ih _
    | some w => exact ih _

theorem waiting_status_none (p : PodInfo) (l : List Apiv1.ContainerStatus)
    (h : ∀ cs ∈ l, cs.State.Waiting = none) : (PodDetail.waiting p l).Status = p.Status := by
  induction l generalizing p with
  | nil => rfl
  | cons cs rest ih =>
    have h0 := h cs (List.mem_cons_self cs rest)
    simp only [PodDetail.waiting, h0]
    exact ih _ fun x hx => h x (List.mem_cons_of_mem cs hx)

theorem waiting_status_last (p : PodInfo) (pre post : List Apiv1.ContainerStatus)
    (cs : Apiv1.ContainerStatus) (w : Apiv1.ContainerStateWaiting)
    (hw : cs.State.Waiting = some w) (hpost : ∀ x ∈ post, x.State.Waiting = none) :
    (PodDetail.waiting p (pre ++ cs :: post)).Status = w.Reason := by
  rw [waiting_append]
  simp only [PodDetail.waiting, hw]
  rw [waiting_status_none _ post hpost]

/-- C29 (the code departs from the claim): for every pod whose first container has an image
string without a `:`, `strings.Split(image, ":")` has one element and the index `[1]` in the
computation of `Tag` is out of range: `PodDetail` panics. -/
theorem PodDetail_untagged_image_panics (env : PodDetailEnv) (pod : Apiv1.Pod)
    (c0 : Apiv1.Container) (rest : List Apiv1.Container) (hc : pod.Containers = c0 :: rest)
    (hi : ':' ∉ c0.Image.data) : PodDetail env (.ok pod) = .panic indexOutOfRange := by
  simp [PodDetail, hc, index, Outcome.bind, stringsSplit, splitChars_no_sep ':' _ hi]

theorem PodDetail_untagged_image_panics_witness :
    (untaggedPod.Containers = [⟨"app", "nginx"⟩] ∧
      ':' ∉ (⟨"app", "nginx"⟩ : Apiv1.Container).Image.data) ∧
      PodDetail exampleEnv (.ok untaggedPod) = .panic indexOutOfRange :=
  ⟨by decide,
    PodDetail_untagged_image_panics exampleEnv untaggedPod ⟨"app", "nginx"⟩ [] rfl
      (by decide)⟩

/-- C25 (as stated, refuted): the pod `web-0` has its deletion timestamp set and its container
is waiting with reason `CrashLoopBackOff`; `PodDetail` reports the status
`CrashLoopBackOff`, not `Terminating`. -/
theorem PodDetail_waiting_overrides_terminating :
    deletedCrashingPod.DeletionTimestamp = some ⟨1700000000⟩ ∧
      PodDetail exampleEnv (.ok deletedCrashingPod) = .ok
        { PodInfo.zero with
            Status := "CrashLoopBackOff", Ready := "0/1", PodIP := "10.0.0.7",
            PodName := "web-0", RestartCount := 7, HostIP := "192.168.1.2", Tag := "1.25",
            Containers := [⟨"docker://1", "app", false, 7, ""⟩] } ∧
      ("CrashLoopBackOff" : PodStatus) ≠ Terminating := by
  decide

/-- C25 (amended): for every pod whose deletion timestamp is set, that has at least one
container whose image string has a second `:`-separated part, and each of whose ready
container statuses has a running state, `PodDetail` returns, and it reports
`Status = Terminating` when no container status is in a waiting state; when some container
status is in a waiting state it reports the waiting `Reason` of the last such status
instead, whatever the pod's phase. -/
theorem PodDetail_terminating (env : PodDetailEnv) (pod : Apiv1.Pod) (t : Time)
    (c0 : Apiv1.Container) (rest : List Apiv1.Container) (tag : String)
    (hd : pod.DeletionTimestamp = some t) (hc : pod.Containers = c0 :: rest)
    (htag : (stringsSplit c0.Image ':')[1]? = some tag)
    (hrun : ∀ cs ∈ pod.ContainerStatuses, cs.Ready = true → cs.State.Running ≠ none) :
    ∃ p, PodDetail env (.ok pod) = .ok p ∧
      ((∀ cs ∈ pod.ContainerStatuses, cs.State.Waiting = none) → p.Status = Terminating) ∧
      (∀ pre cs post w, pod.ContainerStatuses = pre ++ cs :: post →
        cs.State.Waiting = some w → (∀ x ∈ post, x.State.Waiting = none) →
        p.Status = w.Reason) := by
  obtain ⟨r, hr⟩ := containers_ok env pod.ContainerStatuses hrun
  simp only [PodDetail, hc, index, List.getElem?_cons_zero, Outcome.bind, htag, hd, hr]
  refine ⟨_, rfl, ?_, ?_⟩
  · intro hnone
    simp only []
    rw [waiting_status_none _ _ hnone]
  · intro pre cs post w hsplit hw hpost
    simp only []
    rw [hsplit, waiting_status_last _ pre post cs w hw hpost]

theorem PodDetail_terminating_witness :
    (deletedCrashingPod.DeletionTimestamp = some ⟨1700000000⟩ ∧
      deletedCrashingPod.Containers = [⟨"app", "nginx:1.25"⟩] ∧
      (stringsSplit (⟨"app", "nginx:1.25"⟩ : Apiv1.Container).Image ':')[1]? = some "1.25" ∧
      ∀ cs ∈ deletedCrashingPod.ContainerStatuses,
        cs.Ready = true → cs.State.Running ≠ none) ∧
      ∃ p, PodDetail exampleEnv (.ok deletedCrashingPod) = .ok p ∧
        ((∀ cs ∈ deletedCrashingPod.ContainerStatuses, cs.State.Waiting = none) →
          p.Status = Terminating) ∧
        (∀ pre cs post w, deletedCrashingPod.ContainerStatuses = pre ++ cs :: post →
          cs.State.Waiting = some w → (∀ x ∈ post, x.State.Waiting = none) →
          p.Status = w.Reason) :=
  ⟨by decide,
    PodDetail_terminating exampleEnv deletedCrashingPod ⟨1700000000⟩ ⟨"app", "nginx:1.25"⟩ []
      "1.25" rfl rfl (by decide) (by decide)⟩

end Api

/-! # Package `kind` -/

namespace Kind

/-! ## `ingress.go` -/

/-- C23 (the code departs from the claim): for every ingress built by
`NewIngress(name, controller, domain, path, portName, portNumber)`, `DeserializeIngress` of
the rendered manifest returns `ingress_controller = controller`, `ingress_domain = domain`,
`ingress_path = path` and `ingress_port_number = toInt32(portNumber)`, but
`ingress_port_name = ""`: `render` never puts `portName` in the manifest. -/
theorem DeserializeIngress_render (toInt32 : Int → Int)
    (name controller domain path portName : String) (portNumber : Int) :
    DeserializeIngress
        (.ok ((NewIngress name controller domain path portName portNumber).render toInt32)) =
      .ok
        { ingress_controller := controller
          ingress_domain := domain
          ingress_path := path
          ingress_port_name := ""
          ingress_port_number := toInt32 portNumber } := by
  simp [DeserializeIngress, ingress.render, NewIngress, Api.index, Api.deref,
    Api.Outcome.bind, StringMap.get]

/-! ## `kustomize.go` -/

theorem hpaEnabled_true (rs : List String) : hpaEnabled true rs = true := by
  induction rs with
  | nil => rfl
  | cons r rs ih =>
    simp only [hpaEnabled]
    split_ifs <;> exact ih

theorem hpaEnabled_false (rs : List String) :
    hpaEnabled false rs = true ↔ "hpa.yaml" ∈ rs := by
  induction rs with
  | nil => simp [hpaEnabled]
  | cons r rs ih =>
    simp only [hpaEnabled, List.mem_cons]
    by_cases h : r = "hpa.yaml"
    · simp [h, hpaEnabled_true]
    · simp only [h, if_false, ih]
      constructor
      · intro hm
        exact Or.inr hm
      · rintro (hm | hm)
        · exact absurd hm.symm h
        · exact hm

/-- C27 (the code departs from the claim on one kind of input): an empty manifest, or one
that holds only `null`, decodes with a nil error and leaves the pointer `kus` nil;
`DeserializeKustomizationConfig` then panics at `len(kus.Images)` and returns no entries.
For every manifest that decodes to a Kustomization it returns, with a nil error, the four
entries `tag`, `replicas`, `is_hpa_enable` and `node_labels`: `tag` is the `NewTag` of the
first image, or `latest` when there are no images; `replicas` is the `Count` of the first
replica entry, or 0 when there are none; `is_hpa_enable` is true exactly when some resource
entry equals `hpa.yaml`; `node_labels` is the manifest's `commonLabels`. -/
theorem DeserializeKustomizationConfig_fields (kus : KustTypes.Kustomization) :
    DeserializeKustomizationConfig (.ok none) = .panic Api.nilDereference ∧
      ∃ mp : KustomizationFields,
        DeserializeKustomizationConfig (.ok (some kus)) = .ok mp ∧
        mp.tag = (match kus.Images with
          | [] => "latest"
          | image :: _ => image.NewTag) ∧
        mp.replicas = (match kus.Replicas with
          | [] => 0
          | replica :: _ => replica.Count) ∧
        (mp.is_hpa_enable = true ↔ "hpa.yaml" ∈ kus.Resources) ∧
        mp.node_labels = kus.CommonLabels :=
  ⟨rfl, _, rfl, rfl, rfl, hpaEnabled_false kus.Resources, rfl⟩

/-! ## `application.go` -/

/-- What the `switch` leaves in the locals when it does not touch the operation state. -/
theorem applicationSwitch_not_missing (format : Api.Time → String)
    (app : Argocdapp.Application) (h : app.Health.Status ≠ HealthStatusMissing) :
    applicationSwitch format app = .ok
      { startedAt := "0000-00-00 00:00:00"
        isReady := decide (app.Health.Status = HealthStatusHealthy)
        isFailed := decide (app.Health.Status = HealthStatusDegraded)
        isPause := decide (app.Health.Status = HealthStatusSuspended) } := by
  unfold applicationSwitch
  simp only [h, if_false]
  by_cases hH : app.Health.Status = HealthStatusHealthy
  · simp [hH, HealthStatusHealthy, HealthStatusDegraded, HealthStatusSuspended]
  · by_cases hD : app.Health.Status = HealthStatusDegraded
    · simp [hD, HealthStatusHealthy, HealthStatusDegraded, HealthStatusSuspended]
    · by_cases hS : app.Health.Status = HealthStatusSuspended
      · simp [hS, HealthStatusHealthy, HealthStatusDegraded, HealthStatusSuspended]
      · simp [hH, hD, hS]

/-- C30 (the code departs from the claim): for every application whose health status is
`Missing` and which carries no `operationState`, the `switch` evaluates
`applicationConfig.Status.OperationState.StartedAt` through a nil pointer and
`DeserializationApplication` panics instead of returning. -/
theorem DeserializationApplication_missing_panics (format : Api.Time → String)
    (app : Argocdapp.Application) (hs : app.Health.Status = HealthStatusMissing)
    (ho : app.OperationState = none) :
    DeserializationApplication format (.ok (some app)) = .panic Api.nilDereference := by
  simp [DeserializationApplication, applicationSwitch, hs, ho, Api.deref, Api.Outcome.bind]

theorem DeserializationApplication_missing_panics_witness :
    (missingApplication.Health.Status = HealthStatusMissing ∧
      missingApplication.OperationState = none) ∧
      DeserializationApplication exampleFormat (.ok (some missingApplication)) =
        .panic Api.nilDereference :=
  ⟨⟨rfl, rfl⟩,
    DeserializationApplication_missing_panics exampleFormat missingApplication rfl rfl⟩

/-- C26 (the code departs from the claim on one kind of input): for the decoded application
`missingApplication`, whose health status is `Missing` and which has no `operationState`,
`DeserializationApplication` panics and sets nothing. For every decoded application that
has an operation state whenever its health status is `Missing`, it returns a summary in
which `IsReady` is true exactly when the status is `Healthy`, `IsFailed` exactly when it is
`Degraded`, `IsPause` exactly when it is `Suspended`, at most one of the three is true,
`StartedAt` is `0000-00-00 00:00:00` unless the status is `Missing`, and `Name`, `Images`,
`HealthStatus` and `HealthMessage` are those of the application. -/
theorem DeserializationApplication_summary (format : Api.Time → String)
    (app : Argocdapp.Application) :
    DeserializationApplication exampleFormat (.ok (some missingApplication)) =
        .panic Api.nilDereference ∧
      ((app.Health.Status = HealthStatusMissing → app.OperationState ≠ none) →
        ∃ summary : ApplicationSummary,
          DeserializationApplication format (.ok (some app)) = .ok summary ∧
          (summary.IsReady = true ↔ app.Health.Status = HealthStatusHealthy) ∧
          (summary.IsFailed = true ↔ app.Health.Status = HealthStatusDegraded) ∧
          (summary.IsPause = true ↔ app.Health.Status = HealthStatusSuspended) ∧
          ¬ (summary.IsReady = true ∧ summary.IsFailed = true) ∧
          ¬ (summary.IsReady = true ∧ summary.IsPause = true) ∧
          ¬ (summary.IsFailed = true ∧ summary.IsPause = true) ∧
          (app.Health.Status ≠ HealthStatusMissing →
            summary.StartedAt = "0000-00-00 00:00:00") ∧
          summary.Name = app.Name ∧ summary.Images = app.Images ∧
          summary.HealthStatus = app.Health.Status ∧
          summary.HealthMessage = app.Health.Message) := by
  refine ⟨by decide, ?_⟩
  intro hop
  by_cases hM : app.Health.Status = HealthStatusMissing
  · obtain ⟨op, hop'⟩ : ∃ op, app.OperationState = some op := by
      cases h : app.OperationState with
      | none => exact absurd h (hop hM)
      | some op => exact ⟨op, rfl⟩
    refine ⟨_, by simp [DeserializationApplication, applicationSwitch, hM, hop', Api.deref,
      Api.Outcome.bind]; rfl, ?_⟩
    simp [hM, HealthStatusMissing, HealthStatusHealthy, HealthStatusDegraded,
      HealthStatusSuspended]
  · refine ⟨_, by simp [DeserializationApplication, applicationSwitch_not_missing format app hM,
      Api.deref, Api.Outcome.bind]; rfl, ?_⟩
    simp only [decide_eq_true_eq, true_and, and_true, iff_self, hM, not_false_eq_true,
      forall_true_left, ne_eq]
    refine ⟨?_, ?_, ?_⟩
    · rintro ⟨h1, h2⟩
      rw [h1] at h2
      exact absurd h2 (by decide)
    · rintro ⟨h1, h2⟩
      rw [h1] at h2
      exact absurd h2 (by decide)
    · rintro ⟨h1, h2⟩
      rw [h1] at h2
      exact absurd h2 (by decide)

theorem DeserializationApplication_summary_witness :
    (healthyApplication.Health.Status = HealthStatusMissing →
        healthyApplication.OperationState ≠ none) ∧
      DeserializationApplication exampleFormat (.ok (some healthyApplication)) = .ok
        { Name := "shop"
          Images := ["registry.local/shop:1.4"]
          HealthStatus := "Healthy"
          StartedAt := "0000-00-00 00:00:00"
          HealthMessage := ""
          IsPause := false
          IsReady := true
          IsFailed := false } ∧
      ∃ summary : ApplicationSummary,
        DeserializationApplication exampleFormat (.ok (some healthyApplication)) = .ok summary ∧
        (summary.IsReady = true ↔ healthyApplication.Health.Status = HealthStatusHealthy) ∧
        (summary.IsFailed = true ↔ healthyApplication.Health.Status = HealthStatusDegraded) ∧
        (summary.IsPause = true ↔ healthyApplication.Health.Status = HealthStatusSuspended) ∧
        ¬ (summary.IsReady = true ∧ summary.IsFailed = true) ∧
        ¬ (summary.IsReady = true ∧ summary.IsPause = true) ∧
        ¬ (summary.IsFailed = true ∧ summary.IsPause = true) ∧
        (healthyApplication.Health.Status ≠ HealthStatusMissing →
          summary.StartedAt = "0000-00-00 00:00:00") ∧
        summary.Name = healthyApplication.Name ∧ summary.Images = healthyApplication.Images ∧
        summary.HealthStatus = healthyApplication.Health.Status ∧
        summary.HealthMessage = healthyApplication.Health.Message :=
  ⟨by decide, by decide,
    (DeserializationApplication_summary exampleFormat healthyApplication).2 (by decide)⟩

/-! ## The environment variables of a deployment, rendered and read back -/

/-- Reading back the user's variables: the variables rendered from them that
`DeserializeDeployment` keeps are those whose key is not a reserved name. -/
theorem user_envs_read_back (envs : List ContainerEnv) :
    ((envs.map fun e => (⟨e.Key, e.Value, none⟩ : Apiv1.EnvVar)).filter
        fun envVar => !Contains defaultEnvKeys envVar.Name).map
        (fun envVar => (⟨envVar.Name, envVar.Value⟩ : ContainerEnv)) =
      envs.filter fun e => !Contains defaultEnvKeys e.Key := by
  induction envs with
  | nil => rfl
  | cons e rest ih =>
    by_cases h : Contains defaultEnvKeys e.Key = true
    · simpa [List.filter_cons, h] using ih
    · simpa [List.filter_cons, h] using ih

/-- Of the eight variables `render` adds on its own, `DeserializeDeployment` filters out six
and keeps `spring.profiles.active` and `env`. -/
theorem renderedEnvs_read_back {ρ : Type} (env : DeploymentEnv ρ) (deploy : deployment) :
    ((renderedEnvs env deploy).filter
        fun envVar => !Contains defaultEnvKeys envVar.Name).map
        (fun envVar => (⟨envVar.Name, envVar.Value⟩ : ContainerEnv)) =
      [⟨"spring.profiles.active", deploy.ProjectEnv⟩, ⟨"env", deploy.ProjectEnv⟩] := by
  have h1 : Contains defaultEnvKeys "APP_NAME" = true := by decide
  have h2 : Contains defaultEnvKeys "TIME" = true := by decide
  have h3 : Contains defaultEnvKeys "POD_NAME" = true := by decide
  have h4 : Contains defaultEnvKeys "POD_IP" = true := by decide
  have h5 : Contains defaultEnvKeys "NODE_NAME" = true := by decide
  have h6 : Contains defaultEnvKeys "NODE_IP" = true := by decide
  have h7 : Contains defaultEnvKeys "spring.profiles.active" = false := by decide
  have h8 : Contains defaultEnvKeys "env" = false := by decide
  simp [renderedEnvs, List.filter_cons, h1, h2, h3, h4, h5, h6, h7, h8]

/-- C24, counterexample. Two deployments with one container port and CPU quantities that
parse. From the one without variables of its own, the rendered manifest is read back with
two variables, `spring.profiles.active` and `env`, which `render` added. From the one with
the variables `JAVA_OPTS` and `TIME`, it is read back with those two and `JAVA_OPTS`: the
variable `TIME` of the user is gone. In neither case is `container_envs` the list of the
user. -/
theorem DeserializeDeployment_envs_differ :
    exampleDeployment.ContainerPorts ≠ [] ∧
      exampleDeploymentEnv.mustParse exampleDeployment.MinCpu ≠ none ∧
      exampleDeploymentEnv.mustParse exampleDeployment.MaxCpu ≠ none ∧
      renderedContainerEnvs exampleDeploymentEnv { exampleDeployment with ContainerEnvs := [] } =
        some [⟨"spring.profiles.active", "prod"⟩, ⟨"env", "prod"⟩] ∧
      renderedContainerEnvs exampleDeploymentEnv exampleDeployment =
        some [⟨"spring.profiles.active", "prod"⟩, ⟨"env", "prod"⟩, ⟨"JAVA_OPTS", "-Xmx1g"⟩] ∧
      renderedContainerEnvs exampleDeploymentEnv exampleDeployment ≠
        some exampleDeployment.ContainerEnvs := by
  refine ⟨by decide, by decide, by decide, by decide, by decide, by decide⟩

/-- C24, amended. For every deployment with at least one container port, whose CPU
quantities parse and whose four resource quantities `CustomUnitGiInter` converts, `render`
returns a manifest and `DeserializeDeployment` on it returns a map whose `container_envs`
are: `spring.profiles.active` and `env` with the project environment, then the variables
of the user whose key is not one of the six reserved names, with their values and in their
order. When no key of the user is reserved, these are followed by all variables of the
user. -/
theorem DeserializeDeployment_rendered_envs {ρ : Type} (env : DeploymentEnv ρ)
    (deploy : deployment) (qmax qmin : Resource.Quantity) (cpuMin memMin cpuMax memMax : ρ)
    (hports : deploy.ContainerPorts ≠ [])
    (hmax : env.mustParse deploy.MaxCpu = some qmax)
    (hmin : env.mustParse deploy.MinCpu = some qmin)
    (hcpuMin : env.customUnitGiInter qmin.text = .ok cpuMin)
    (hmemMin : env.customUnitGiInter
      (env.newQuantity (int64 (deploy.MinMem * 1024 * 1024))).text = .ok memMin)
    (hcpuMax : env.customUnitGiInter qmax.text = .ok cpuMax)
    (hmemMax : env.customUnitGiInter
      (env.newQuantity (int64 (deploy.MaxMem * 1024 * 1024))).text = .ok memMax) :
    ∃ rendered mp, deploy.render env = .ok rendered ∧
      DeserializeDeployment env (.ok rendered) = .ok mp ∧
      mp.container_envs =
        [⟨"spring.profiles.active", deploy.ProjectEnv⟩, ⟨"env", deploy.ProjectEnv⟩] ++
          deploy.ContainerEnvs.filter (fun e => !Contains defaultEnvKeys e.Key) ∧
      ((∀ e ∈ deploy.ContainerEnvs, Contains defaultEnvKeys e.Key = false) →
        mp.container_envs =
          [⟨"spring.profiles.active", deploy.ProjectEnv⟩, ⟨"env", deploy.ProjectEnv⟩] ++
            deploy.ContainerEnvs) := by
  obtain ⟨port, ports, hp⟩ : ∃ port ports, deploy.ContainerPorts = port :: ports := by
    cases h : deploy.ContainerPorts with
    | nil => exact absurd h hports
    | cons port ports => exact ⟨port, ports, rfl⟩
  have henvs : ((renderedEnvs env deploy ++
        deploy.ContainerEnvs.map fun e => (⟨e.Key, e.Value, none⟩ : Apiv1.EnvVar)).filter
        fun envVar => !Contains defaultEnvKeys envVar.Name).map
        (fun envVar => (⟨envVar.Name, envVar.Value⟩ : ContainerEnv)) =
      [⟨"spring.profiles.active", deploy.ProjectEnv⟩, ⟨"env", deploy.ProjectEnv⟩] ++
        deploy.ContainerEnvs.filter (fun e => !Contains defaultEnvKeys e.Key) := by
    rw [List.filter_append, List.map_append, renderedEnvs_read_back, user_envs_read_back]
  simp only [deployment.render, mustParse, hmax, hmin, Api.Outcome.bind]
  apply Exists.intro
  apply Exists.intro
  refine ⟨rfl, ?read, ?kept, ?all⟩
  case read =>
    have hname : decide ("cpu" = "memory") = false := by decide
    have hthird : ∀ a b c : String, [a, b, c][2]? = some c := fun _ _ _ => rfl
    simp only [DeserializeDeployment, Api.index, Api.deref, Api.Outcome.bind, hookCommand,
      orReturn, List.getElem?_cons_zero, Apiv1.ResourceList.quantity, List.find?, hp,
      List.map_cons, decide_True, hname, hthird, hcpuMin, hmemMin, hcpuMax, hmemMax,
      renderedProbe]
    rfl
  case kept => exact henvs
  case all =>
    intro hfree
    refine henvs.trans ?_
    congr 1
    apply List.filter_eq_self.mpr
    intro e he
    simp [hfree e he]

theorem DeserializeDeployment_rendered_envs_witness :
    exampleDeployment.ContainerPorts ≠ [] ∧
      ∃ rendered mp, exampleDeployment.render exampleDeploymentEnv = .ok rendered ∧
        DeserializeDeployment exampleDeploymentEnv (.ok rendered) = .ok mp ∧
        mp.container_envs =
          [⟨"spring.profiles.active", exampleDeployment.ProjectEnv⟩,
            ⟨"env", exampleDeployment.ProjectEnv⟩] ++
            exampleDeployment.ContainerEnvs.filter
              (fun e => !Contains defaultEnvKeys e.Key) ∧
        ((∀ e ∈ exampleDeployment.ContainerEnvs, Contains defaultEnvKeys e.Key = false) →
          mp.container_envs =
            [⟨"spring.profiles.active", exampleDeployment.ProjectEnv⟩,
              ⟨"env", exampleDeployment.ProjectEnv⟩] ++
              exampleDeployment.ContainerEnvs) :=
  ⟨by decide,
    DeserializeDeployment_rendered_envs exampleDeploymentEnv exampleDeployment
      ⟨"500m"⟩ ⟨"250m"⟩ "250m" "mem" "500m" "mem" (by decide) rfl rfl rfl rfl rfl rfl⟩

end Kind
